import Mathlib

/-!
# Device and pairing core of the connectivity daemon

A shallow embedding of `daemon/device.cpp`.  Each method of `Device` becomes a
function on an explicit `State`: the device's member variables, the persisted
configuration file `kdeconnectrc`, the two counters that stand for freshly
allocated objects, and a trace of everything the method does to the outside
(signals emitted, envelopes handed to links, plugin life-cycle calls,
notifications).  Library code and collaborators that are not part of
`device.cpp` (Qt conversions, Qt's sort, the crypto library, the transports, the
plugin loader) are gathered in `Env`; the general theorems hold for every `Env`,
under the stated contract where one is needed, and the evaluations at concrete
inputs use the sample collaborators defined below, whose sort is the quick sort
of Qt 4.
-/

namespace KdeConnect

/-! ## Qt containers and values -/

/-- Bytes of a `QByteArray`; the device code never looks inside one. -/
abbrev QByteArray := List Nat

/-- The dynamic values a `QVariant` holds in an envelope body or in a configuration entry. -/
inductive QVariant where
  | bool (b : Bool)
  | int (i : Int)
  | string (s : String)
  | byteArray (b : QByteArray)
  | stringList (l : List String)
  deriving DecidableEq, Repr

/-- UTF-16 code units of a character, the units a `QString` stores. -/
def utf16Units (c : Char) : List Nat :=
  if c.toNat < 65536 then [c.toNat]
  else [55296 + (c.toNat - 65536) / 1024, 56320 + (c.toNat - 65536) % 1024]

/-- Lexicographic order on sequences of code units. -/
def unitsLt : List Nat → List Nat → Bool
  | _, [] => false
  | [], _ :: _ => true
  | a :: as, b :: bs => if a < b then true else if b < a then false else unitsLt as bs

/-- Models `operator<` of `QString`: code unit by code unit. -/
def qstringLt (a b : String) : Bool :=
  unitsLt (a.toList.flatMap utf16Units) (b.toList.flatMap utf16Units)

/-- Entries of a `QMap<QString, T>`, kept in ascending key order with one entry per key. -/
abbrev QMap (α : Type) := List (String × α)

namespace QMap

/-- Models `QMap::value(key)`: the value stored under `key`, if any. -/
def value {α : Type} (m : QMap α) (key : String) : Option α :=
  match m with
  | [] => none
  | (k, v) :: rest => if k = key then some v else value rest key

/-- Models `QMap::contains(key)`. -/
def contains {α : Type} (m : QMap α) (key : String) : Bool :=
  (value m key).isSome

/-- Models `map[key] = v`: replaces the entry under `key` or inserts a new one at its sorted place. -/
def insert {α : Type} (m : QMap α) (key : String) (v : α) : QMap α :=
  match m with
  | [] => [(key, v)]
  | (k, w) :: rest =>
    if k = key then (key, v) :: rest
    else if qstringLt key k then (key, v) :: (k, w) :: rest
    else (k, w) :: insert rest key v

/-- Models `QMap::remove(key)`. -/
def remove {α : Type} (m : QMap α) (key : String) : QMap α :=
  m.filter (fun e => e.1 ≠ key)

/-- Models `QMap::keys()`. -/
def keys {α : Type} (m : QMap α) : List String :=
  m.map Prod.fst

/-- Models `QMap::values()`, in key order, which is also the order `Q_FOREACH` visits them. -/
def values {α : Type} (m : QMap α) : List α :=
  m.map Prod.snd

end QMap

/-! ## The quick sort of Qt 4 (`qSort` of `qalgorithms.h`) -/

/-- Exchanges the elements at positions `i` and `j` (`qSwap(*i, *j)`). -/
def swapAt {α : Type} (xs : List α) (i j : Nat) : List α :=
  match xs[i]?, xs[j]? with
  | some a, some b => (xs.set i b).set j a
  | _, _ => xs

/-- Value of `lessThan(*i, *j)` for two positions of the list. -/
def ltAt {α : Type} (lt : α → α → Bool) (xs : List α) (i j : Nat) : Bool :=
  match xs[i]?, xs[j]? with
  | some a, some b => lt a b
  | _, _ => false

/-- Inner loop `while (low < high && lessThan(*low, *end)) ++low;`, returning `low`. -/
def advanceLow {α : Type} (lt : α → α → Bool) (xs : List α) (e high : Nat) : Nat → Nat → Nat
  | 0, low => low
  | fuel + 1, low =>
    if low < high && ltAt lt xs low e then advanceLow lt xs e high fuel (low + 1) else low

/-- Inner loop `while (high > low && lessThan(*end, *high)) --high;`, returning `high`. -/
def retreatHigh {α : Type} (lt : α → α → Bool) (xs : List α) (e low : Nat) : Nat → Nat → Nat
  | 0, high => high
  | fuel + 1, high =>
    if high > low && ltAt lt xs e high then retreatHigh lt xs e low fuel (high - 1) else high

/-- Outer loop `while (low < high)` of `qSortHelper`, returning the list and `low`. -/
def partitionLoop {α : Type} (lt : α → α → Bool) (e : Nat) :
    Nat → List α → Nat → Nat → List α × Nat
  | 0, xs, low, _ => (xs, low)
  | fuel + 1, xs, low, high =>
    if low < high then
      let low1 := advanceLow lt xs e high xs.length low
      let high1 := retreatHigh lt xs e low1 xs.length high
      if low1 < high1 then
        partitionLoop lt e fuel (swapAt xs low1 high1) (low1 + 1) (high1 - 1)
      else (xs, low1)
    else (xs, low)

/-- Qt 4 `QAlgorithmsPrivate::qSortHelper(start, end, t, lessThan)` on positions of a list:
the ends and the middle element are put in order, the middle one is the pivot, the range is
partitioned around it, the left part is sorted by a recursive call and the right part by the
jump back to `top`.  The first argument bounds the depth of the recursion. -/
def qSortHelper {α : Type} (lt : α → α → Bool) : Nat → List α → Nat → Nat → List α
  | 0, xs, _, _ => xs
  | fuel + 1, xs, start, end_ =>
    let span := end_ - start
    if span < 2 then xs
    else
      let e := end_ - 1
      let pivot := start + span / 2
      let xs1 := if ltAt lt xs e start then swapAt xs e start else xs
      if span = 2 then xs1
      else
        let xs2 := if ltAt lt xs1 pivot start then swapAt xs1 pivot start else xs1
        let xs3 := if ltAt lt xs2 e pivot then swapAt xs2 e pivot else xs2
        if span = 3 then xs3
        else
          let xs4 := swapAt xs3 pivot e
          let r := partitionLoop lt e span xs4 start (e - 1)
          let low := if ltAt lt r.1 r.2 e then r.2 + 1 else r.2
          let xs5 := swapAt r.1 e low
          let xs6 := qSortHelper lt fuel xs5 start low
          qSortHelper lt fuel xs6 (low + 1) (e + 1)

/-- Qt 4 `qSort(begin, end, lessThan)` over a whole list. -/
def qSort {α : Type} (lt : α → α → Bool) (xs : List α) : List α :=
  qSortHelper lt xs.length xs 0 xs.length

/-- Every element at a position of `[a, b)` satisfies `P`. -/
def AllRange {α : Type} (P : α → Prop) (xs : List α) (a b : Nat) : Prop :=
  ∀ k, a ≤ k → k < b → ∀ x, xs[k]? = some x → P x

/-- The list `ys` is `xs` rearranged inside `[a, b)`: same length, same elements outside
the range, and what holds of every element in the range of `xs` holds of every element in
the range of `ys`. -/
def SameOutside {α : Type} (xs ys : List α) (a b : Nat) : Prop :=
  ys.length = xs.length ∧ (∀ k, (k < a ∨ b ≤ k) → ys[k]? = xs[k]?) ∧
    ∀ P : α → Prop, AllRange P xs a b → AllRange P ys a b

/-! ## Envelopes (`NetworkPackage`) -/

/-- Members of `NetworkPackage` (networkpackage.h, lines 80-84). -/
structure NetworkPackage where
  mId : Nat
  mType : String
  mEncrypted : Bool
  mBody : QMap QVariant
  mVersion : Int
  deriving DecidableEq, Repr

/-- Modelled from the spec: the value of `PACKAGE_TYPE_PAIR`, declared in the absent
`networkpackagetypes.h`; the spec names the well-known type `kdeconnect.pair`. -/
def PACKAGE_TYPE_PAIR : String := "kdeconnect.pair"

namespace NetworkPackage

/-- Models `NetworkPackage::set(key, value)`: `mBody[key] = QVariant(value)`. -/
def set (np : NetworkPackage) (key : String) (v : QVariant) : NetworkPackage :=
  { np with mBody := np.mBody.insert key v }

/-- Models `NetworkPackage::has(key)`. -/
def has (np : NetworkPackage) (key : String) : Bool :=
  np.mBody.contains key

end NetworkPackage

/-! ## Keys, links, plugins, timer -/

/-- A `QCA::RSAPublicKey` value: the null key of a default-constructed member, or a key
identified by its DER encoding. -/
inductive PublicKey where
  | null
  | key (der : QByteArray)
  deriving DecidableEq, Repr

/-- A `QCA::PrivateKey` value. -/
inductive PrivateKey where
  | null
  | key (der : QByteArray)
  deriving DecidableEq, Repr

/-- What the device reads of a `LinkProvider`. -/
structure LinkProvider where
  name : String
  priority : Int
  deriving DecidableEq, Repr

/-- A `DeviceLink*`: the address of the link object and the provider it reports. -/
structure DeviceLink where
  ptr : Nat
  provider : LinkProvider
  deriving DecidableEq, Repr

/-- A `KdeConnectPlugin*`: the address of a plugin instance. -/
structure KdeConnectPlugin where
  ptr : Nat
  deriving DecidableEq, Repr

/-- Models `enum PairStatus` of `Device`. -/
inductive PairStatus where
  | NotPaired
  | PairRequested
  | Paired
  deriving DecidableEq, Repr

/-- The `QTimer pairingTimer` member: whether it is running, the interval it was last
started with (milliseconds), and how many times its `timeout()` signal has been connected
to `pairingTimeout()`.  `device.cpp` never makes the timer single-shot, so a firing leaves
`active` as it is; only `stop()` clears it. -/
structure QTimer where
  active : Bool
  interval : Nat
  connections : Nat
  deriving DecidableEq, Repr

namespace QTimer

/-- Models `QTimer::start(msec)`. -/
def start (t : QTimer) (msec : Nat) : QTimer :=
  { t with active := true, interval := msec }

/-- Models `QTimer::stop()`. -/
def stop (t : QTimer) : QTimer :=
  { t with active := false }

end QTimer

/-! ## Persisted configuration -/

/-- The part of `kdeconnectrc` the device touches: the group `myself` and the sub-groups of
`devices`, one per device id. -/
structure KConfig where
  myself : QMap QVariant
  devices : QMap (QMap QVariant)
  deriving DecidableEq, Repr

namespace KConfig

/-- Models `config->group("devices").group(id).writeEntry(key, value)`. -/
def writeDeviceEntry (c : KConfig) (id key : String) (v : QVariant) : KConfig :=
  { c with devices := c.devices.insert id (((c.devices.value id).getD []).insert key v) }

/-- Models `config->group("devices").deleteGroup(id)`. -/
def deleteDeviceGroup (c : KConfig) (id : String) : KConfig :=
  { c with devices := c.devices.remove id }

end KConfig

/-! ## Device, trace and state -/

/-- Member variables of `Device`. -/
structure Device where
  m_deviceId : String
  m_deviceName : String
  m_publicKey : PublicKey
  m_pairStatus : PairStatus
  m_deviceLinks : List DeviceLink
  m_plugins : QMap KdeConnectPlugin
  pairingTimer : QTimer
  deriving DecidableEq, Repr

/-- Everything a device method does that is visible outside the device object. -/
inductive Event where
  | pairingFailed (reason : String)
  | pairingSuccesful
  | pluginsChanged
  | reachableStatusChanged
  | receivedPackage (np : NetworkPackage)
  | linkSendPackage (dl : DeviceLink) (np : NetworkPackage) (accepted : Bool)
  | pluginInstantiated (name : String) (p : KdeConnectPlugin)
  | pluginDestroyed (p : KdeConnectPlugin)
  | pluginConnected (p : KdeConnectPlugin)
  | notification (text : String) (actions : List String)
  | notificationUpdated (text : String) (actions : List String)
  deriving DecidableEq, Repr

/-- The device together with the persisted store, the trace of effects so far, and the
counters from which envelope ids and plugin addresses are drawn. -/
structure State where
  dev : Device
  config : KConfig
  trace : List Event
  nextPackageId : Nat
  nextPluginPtr : Nat
  deriving DecidableEq, Repr

/-- Collaborators outside `device.cpp`. -/
structure Env where
  /-- Stands for `DeviceLink::sendPackage`, the transport's answer for a link and an envelope. -/
  linkSendPackage : DeviceLink → NetworkPackage → Bool
  /-- Stands for `NetworkPackage::encrypt(key)`, the envelope after sealing. -/
  encrypt : NetworkPackage → PublicKey → NetworkPackage
  /-- Stands for `NetworkPackage::decrypt(key, out)`, the contents of `out` afterwards. -/
  decrypt : NetworkPackage → PrivateKey → NetworkPackage → NetworkPackage
  /-- Stands for `QCA::RSAPublicKey::fromDER(QByteArray::fromBase64(key))`. -/
  publicKeyFromBase64 : QByteArray → PublicKey
  /-- Stands for `key.toDER().toBase64()`. -/
  publicKeyToBase64 : PublicKey → QByteArray
  /-- Stands for `QCA::PrivateKey::fromDER(QByteArray::fromBase64(key))`. -/
  privateKeyFromBase64 : QByteArray → PrivateKey
  /-- Stands for `QVariant::value<bool>()` / `QVariant::toBool()`. -/
  toBool : QVariant → Bool
  /-- Stands for `QVariant::value<QByteArray>()`. -/
  toByteArray : QVariant → QByteArray
  /-- Stands for `QVariant::value<QString>()`. -/
  toQString : QVariant → String
  /-- Stands for `default_arg<bool>::get()` of the absent `default_args.h`. -/
  defaultBool : Bool
  /-- Stands for `default_arg<QByteArray>::get()` of the absent `default_args.h`. -/
  defaultByteArray : QByteArray
  /-- Protocol version a newly constructed envelope carries. -/
  protocolVersion : Int
  /-- Stands for `PluginLoader::getPluginList()`. -/
  pluginList : List String
  /-- Stands for `KPluginInfo::isPluginEnabledByDefault()` of the named plugin. -/
  isPluginEnabledByDefault : String → Bool
  /-- Entries of the group `Plugins` in the per-device configuration file of a device id. -/
  pluginStates : String → QMap String
  /-- Stands for `default_arg<QString>::get()` of the absent `default_args.h`. -/
  defaultQString : String
  /-- Stands for `qSort(begin, end, lessThan)` of the Qt library on the link list. -/
  qSort : (DeviceLink → DeviceLink → Bool) → List DeviceLink → List DeviceLink

/-! ## Accessors -/

/-- Modelled from the spec: `Device::isPaired()`, declared in the absent `device.h`; the spec
reads it as `pairStatus = Paired`. -/
def Device.isPaired (d : Device) : Bool :=
  d.m_pairStatus = PairStatus.Paired

/-- Modelled from the spec: `Device::isReachable()`, declared in the absent `device.h`; the
spec's (I2) reads `reachable ≡ |links| > 0`. -/
def Device.isReachable (d : Device) : Bool :=
  !d.m_deviceLinks.isEmpty

/-- Models `NetworkPackage::get<bool>(key)` with the default argument. -/
def NetworkPackage.getBool (env : Env) (np : NetworkPackage) (key : String) : Bool :=
  env.toBool ((np.mBody.value key).getD (QVariant.bool env.defaultBool))

/-- Models `NetworkPackage::get<QByteArray>(key)` with the default argument. -/
def NetworkPackage.getByteArray (env : Env) (np : NetworkPackage) (key : String) : QByteArray :=
  env.toByteArray ((np.mBody.value key).getD (QVariant.byteArray env.defaultByteArray))

/-- Models `config->group("myself").readEntry<QByteArray>(key, QByteArray())`. -/
def KConfig.readMyself (env : Env) (c : KConfig) (key : String) : QByteArray :=
  match c.myself.value key with
  | none => []
  | some v => env.toByteArray v

/-- Modelled from the spec: the constructor `NetworkPackage(type)`, defined in the absent
`networkpackage.cpp`; the spec gives it a fresh id, an empty body, the current version and
`encrypted = false`.  The fresh id is drawn from the state's counter. -/
def newNetworkPackage (env : Env) (type : String) (s : State) : NetworkPackage × State :=
  ({ mId := s.nextPackageId, mType := type, mEncrypted := false, mBody := [],
     mVersion := env.protocolVersion },
   { s with nextPackageId := s.nextPackageId + 1 })

/-- Appends one event to the trace. -/
def State.emit (s : State) (e : Event) : State :=
  { s with trace := s.trace ++ [e] }

/-! ## `Device::sendPackage` -/

/-- The `Q_FOREACH` of `sendPackage` (lines 240-246): offer `np` to each link in list order
and stop at the first that returns true. -/
def sendLoop (env : Env) (np : NetworkPackage) : List DeviceLink → State → Bool × State
  | [], s => (false, s)
  | dl :: rest, s =>
    if env.linkSendPackage dl np then
      (true, s.emit (Event.linkSendPackage dl np true))
    else
      sendLoop env np rest (s.emit (Event.linkSendPackage dl np false))

/-- Models `Device::sendPackage` (lines 232-247). -/
def sendPackage (env : Env) (np : NetworkPackage) (s : State) : Bool × State :=
  let np1 := if s.dev.isPaired then env.encrypt np s.dev.m_publicKey else np
  sendLoop env np1 s.dev.m_deviceLinks s

/-! ## `Device::reloadPlugins` -/

/-- Loop variables of `reloadPlugins`: the map being built, what is left of `m_plugins`,
and the state (trace and plugin-address counter). -/
structure ReloadAcc where
  newPluginMap : QMap KdeConnectPlugin
  m_plugins : QMap KdeConnectPlugin
  st : State

/-- One iteration of the `foreach` over the plugin list (lines 82-103). -/
def reloadStep (env : Env) (id : String) (acc : ReloadAcc) (pluginName : String) : ReloadAcc :=
  let value := (env.pluginStates id).value (pluginName ++ "Enabled")
  let enabled :=
    match value with
    | none => env.isPluginEnabledByDefault pluginName
    | some v => env.toBool (QVariant.string v)
  if enabled then
    match acc.m_plugins.value pluginName with
    | some p =>
      { acc with newPluginMap := acc.newPluginMap.insert pluginName p,
                 m_plugins := acc.m_plugins.remove pluginName }
    | none =>
      let plugin : KdeConnectPlugin := ⟨acc.st.nextPluginPtr⟩
      { acc with newPluginMap := acc.newPluginMap.insert pluginName plugin,
                 st := { (acc.st.emit (Event.pluginInstantiated pluginName plugin)) with
                         nextPluginPtr := acc.st.nextPluginPtr + 1 } }
  else acc

/-- Appends one event per element of a list, in order. -/
def State.emitAll (s : State) (es : List Event) : State :=
  { s with trace := s.trace ++ es }

/-- Models `Device::reloadPlugins` (lines 70-119). -/
def reloadPlugins (env : Env) (s : State) : State :=
  let acc0 : ReloadAcc := { newPluginMap := [], m_plugins := s.dev.m_plugins, st := s }
  let acc :=
    if s.dev.isPaired && s.dev.isReachable then
      env.pluginList.foldl (reloadStep env s.dev.m_deviceId) acc0
    else acc0
  -- qDeleteAll(m_plugins); m_plugins.clear(); m_plugins = newPluginMap;
  let s1 := acc.st.emitAll (acc.m_plugins.values.map Event.pluginDestroyed)
  let s2 := { s1 with dev := { s1.dev with m_plugins := acc.newPluginMap } }
  let s3 := s2.emitAll (s2.dev.m_plugins.values.map Event.pluginConnected)
  s3.emit Event.pluginsChanged

/-! ## Pairing -/

/-- Models `Device::requestPair` (lines 121-154). -/
def requestPair (env : Env) (s : State) : State :=
  if s.dev.m_pairStatus = PairStatus.Paired then
    s.emit (Event.pairingFailed "Already paired")
  else if s.dev.m_pairStatus = PairStatus.PairRequested then
    s.emit (Event.pairingFailed "Pairing already requested for this device")
  else if !s.dev.isReachable then
    s.emit (Event.pairingFailed "Device not reachable")
  else
    let (np0, s1) := newNetworkPackage env PACKAGE_TYPE_PAIR s
    let np1 := np0.set "pair" (QVariant.bool true)
    let key := s1.config.readMyself env "publicKey"
    let np2 := np1.set "publicKey" (QVariant.byteArray key)
    let (success, s2) := sendPackage env np2 s1
    if !success then
      s2.emit (Event.pairingFailed "Error contacting device")
    else
      { s2 with dev := { s2.dev with
          m_pairStatus := PairStatus.PairRequested,
          pairingTimer :=
            { (s2.dev.pairingTimer.start (20 * 1000)) with
              connections := s2.dev.pairingTimer.connections + 1 } } }

/-- Models `Device::unpair` (lines 156-174). -/
def unpair (env : Env) (s : State) : State :=
  if !s.dev.isPaired then s
  else
    let s1 := { s with dev := { s.dev with m_pairStatus := PairStatus.NotPaired,
                                           pairingTimer := s.dev.pairingTimer.stop } }
    let s2 := { s1 with config := s1.config.deleteDeviceGroup s1.dev.m_deviceId }
    let s3 :=
      if s2.dev.isReachable then
        let (np0, t) := newNetworkPackage env PACKAGE_TYPE_PAIR s2
        let np1 := np0.set "pair" (QVariant.bool false)
        (sendPackage env np1 t).2
      else s2
    reloadPlugins env s3

/-- Models `Device::pairingTimeout` (lines 176-180). -/
def pairingTimeout (s : State) : State :=
  ({ s with dev := { s.dev with m_pairStatus := PairStatus.NotPaired } }).emit
    (Event.pairingFailed "Timed out")

/-- Models `Device::privateReceivedPackage` (lines 249-346). -/
def privateReceivedPackage (env : Env) (np : NetworkPackage) (s : State) : State :=
  if np.mType = PACKAGE_TYPE_PAIR then
    let wantsPair := np.getBool env "pair"
    if wantsPair = s.dev.isPaired then
      if s.dev.m_pairStatus = PairStatus.PairRequested then
        ({ s with dev := { s.dev with m_pairStatus := PairStatus.NotPaired,
                                      pairingTimer := s.dev.pairingTimer.stop } }).emit
          (Event.pairingFailed "Canceled by other peer")
      else s
    else if wantsPair then
      let key := np.getByteArray env "publicKey"
      let s1 := { s with dev := { s.dev with m_publicKey := env.publicKeyFromBase64 key } }
      if s1.dev.m_pairStatus = PairStatus.PairRequested then
        let s2 := { s1 with dev := { s1.dev with m_pairStatus := PairStatus.Paired,
                                                 pairingTimer := s1.dev.pairingTimer.stop } }
        let s3 := { s2 with config :=
          s2.config.writeDeviceEntry s2.dev.m_deviceId "publicKey" (QVariant.byteArray key) }
        let s4 := { s3 with config :=
          s3.config.writeDeviceEntry s3.dev.m_deviceId "name" (QVariant.string s3.dev.m_deviceName) }
        let s5 := { s4 with dev := { s4.dev with m_publicKey := env.publicKeyFromBase64 key } }
        s5.emit Event.pairingSuccesful
      else
        s1.emit (Event.notification ("Pairing request from " ++ s1.dev.m_deviceName)
          ["Accept", "Reject"])
    else
      if s.dev.m_pairStatus = PairStatus.PairRequested then
        ({ s with dev := { s.dev with m_pairStatus := PairStatus.NotPaired,
                                      pairingTimer := s.dev.pairingTimer.stop } }).emit
          (Event.pairingFailed "Canceled by other peer")
      else if s.dev.m_pairStatus = PairStatus.Paired then
        unpair env s
      else s
  else if !s.dev.isPaired then
    s
  else
    if !np.mEncrypted then
      s.emit (Event.receivedPackage np)
    else
      let key := s.config.readMyself env "privateKey"
      let privateKey := env.privateKeyFromBase64 key
      let (decryptedNp, s1) := newNetworkPackage env "" s
      s1.emit (Event.receivedPackage (env.decrypt np privateKey decryptedNp))

/-- Models `Device::acceptPairing` (lines 348-370). -/
def acceptPairing (env : Env) (s : State) : State :=
  let (np0, s1) := newNetworkPackage env PACKAGE_TYPE_PAIR s
  let np1 := np0.set "pair" (QVariant.bool true)
  let key := s1.config.readMyself env "publicKey"
  let np2 := np1.set "publicKey" (QVariant.byteArray key)
  let (success, s2) := sendPackage env np2 s1
  if !success then s2
  else
    let der := env.publicKeyToBase64 s2.dev.m_publicKey
    let s3 := { s2 with config :=
      s2.config.writeDeviceEntry s2.dev.m_deviceId "publicKey" (QVariant.byteArray der) }
    let s4 := { s3 with config :=
      s3.config.writeDeviceEntry s3.dev.m_deviceId "name" (QVariant.string s3.dev.m_deviceName) }
    reloadPlugins env s4

/-- Models `Device::rejectPairing` (lines 372-385). -/
def rejectPairing (env : Env) (s : State) : State :=
  let (np0, s1) := newNetworkPackage env PACKAGE_TYPE_PAIR s
  let np1 := np0.set "pair" (QVariant.bool false)
  let s2 := (sendPackage env np1 s1).2
  s2.emit (Event.notificationUpdated "Pairing rejected" [])

/-- The effective enabled state of plugin `p` for device `id`, in the words of the spec:
the boolean reading of the per-device entry `<p>Enabled` when it is present, the plugin's
declared default when it is absent. -/
def enabledFor (env : Env) (id p : String) : Bool :=
  match (env.pluginStates id).value (p ++ "Enabled") with
  | none => env.isPluginEnabledByDefault p
  | some v => env.toBool (QVariant.string v)

/-! ## Links -/

/-- Models `lessThan` (lines 182-185): the link of the higher provider priority goes first. -/
def lessThan (p1 p2 : DeviceLink) : Bool :=
  decide (p1.provider.priority > p2.provider.priority)

/-- Models `Device::addLink` (lines 187-213).  The two `connect` calls make the link's
destruction and its received envelopes reach `linkDestroyed` and `privateReceivedPackage`;
they leave the state as it is. -/
def addLink (env : Env) (link : DeviceLink) (s : State) : State :=
  let s1 := { s with dev := { s.dev with m_deviceLinks := s.dev.m_deviceLinks ++ [link] } }
  let s2 := { s1 with dev := { s1.dev with
                m_deviceLinks := env.qSort lessThan s1.dev.m_deviceLinks } }
  if s2.dev.m_deviceLinks.length = 1 then
    (reloadPlugins env s2).emit Event.reachableStatusChanged
  else
    s2.emitAll (s2.dev.m_plugins.values.map Event.pluginConnected)

/-- Models `Device::removeLink` (lines 220-230); `QList::removeOne` drops the first
occurrence of the pointer, and two `DeviceLink` values are the same pointer when equal. -/
def removeLink (env : Env) (link : DeviceLink) (s : State) : State :=
  let s1 := { s with dev := { s.dev with m_deviceLinks := s.dev.m_deviceLinks.erase link } }
  if s1.dev.m_deviceLinks.isEmpty then
    (reloadPlugins env s1).emit Event.reachableStatusChanged
  else s1

/-- Models `Device::linkDestroyed` (lines 215-218). -/
def linkDestroyed (env : Env) (o : DeviceLink) (s : State) : State :=
  removeLink env o s

/-- Models `Device::availableLinks` (lines 387-394). -/
def availableLinks (s : State) : List String :=
  s.dev.m_deviceLinks.map (fun dl => dl.provider.name)

/-- Models `Device::sendPing` (lines 396-401). -/
def sendPing (env : Env) (s : State) : State :=
  let (np, s1) := newNetworkPackage env "kdeconnect.ping" s
  (sendPackage env np s1).2

/-! ## Constructors -/

/-- Models `NetworkPackage::get<QString>(key)` with the default argument. -/
def NetworkPackage.getQString (env : Env) (np : NetworkPackage) (key : String) : String :=
  env.toQString ((np.mBody.value key).getD (QVariant.string env.defaultQString))

/-- Entry `key` of the group `devices/<id>`, if the group and the entry exist. -/
def KConfig.deviceEntry (c : KConfig) (id key : String) : Option QVariant :=
  ((c.devices.value id).getD []).value key

/-- Models `data.readEntry<QByteArray>(key, QByteArray())` on the group `devices/<id>`. -/
def KConfig.readDeviceByteArray (env : Env) (c : KConfig) (id key : String) : QByteArray :=
  match c.deviceEntry id key with
  | none => []
  | some v => env.toByteArray v

/-- The store holds a record for `id` with a non-empty `publicKey` (the right-hand side of
the spec's (I1)): reading the entry the way the constructor does yields a non-empty key. -/
def KConfig.hasTrustedRecord (env : Env) (c : KConfig) (id : String) : Bool :=
  !(c.readDeviceByteArray env id "publicKey").isEmpty

/-- Models the constructor `Device::Device(const QString& id)` (lines 21-40) run against a
store: name and key are read with their defaults and the status is set to Paired.  Links,
plugins and timer are default-constructed; trace and counters start empty. -/
def newDeviceFromId (env : Env) (id : String) (config : KConfig) : State :=
  let name :=
    match config.deviceEntry id "name" with
    | none => "unnamed"
    | some v => env.toQString v
  let key : QByteArray := config.readDeviceByteArray env id "publicKey"
  { dev := { m_deviceId := id, m_deviceName := name,
             m_publicKey := env.publicKeyFromBase64 key,
             m_pairStatus := PairStatus.Paired, m_deviceLinks := [], m_plugins := [],
             pairingTimer := ⟨false, 0, 0⟩ },
    config := config, trace := [], nextPackageId := 0, nextPluginPtr := 0 }

/-- Models the constructor `Device::Device(const NetworkPackage&, DeviceLink*)` (lines
42-53).  `addLink(dl)` on line 47 runs before `m_pairStatus` is assigned on line 49, so
`reloadPlugins` inside it reads the member uninitialised; `uninitialised` is the value the
storage happens to hold (any value other than Paired behaves like NotPaired there). -/
def newDeviceFromIdentity (env : Env) (identityPackage : NetworkPackage) (dl : DeviceLink)
    (uninitialised : PairStatus) (config : KConfig) : State :=
  let s0 : State :=
    { dev := { m_deviceId := identityPackage.getQString env "deviceId",
               m_deviceName := identityPackage.getQString env "deviceName",
               m_publicKey := PublicKey.null,
               m_pairStatus := uninitialised, m_deviceLinks := [], m_plugins := [],
               pairingTimer := ⟨false, 0, 0⟩ },
      config := config, trace := [], nextPackageId := 0, nextPluginPtr := 0 }
  let s1 := addLink env dl s0
  { s1 with dev := { s1.dev with m_pairStatus := PairStatus.NotPaired } }

/-! ## Events reaching the device -/

/-- One expiry of `pairingTimer`: a running timer emits `timeout()`, and each connection
made on lines 151-152 invokes `pairingTimeout`; a stopped timer does not expire. -/
def pairingTimerExpires (s : State) : State :=
  if s.dev.pairingTimer.active then
    Nat.iterate pairingTimeout s.dev.pairingTimer.connections s
  else s

/-- The calls and events that drive a device after its construction. -/
inductive Op where
  | addLink (link : DeviceLink)
  | linkDestroyed (link : DeviceLink)
  | requestPair
  | unpair
  | acceptPairing
  | rejectPairing
  | timerExpires
  | receive (np : NetworkPackage)
  | reloadPlugins
  | sendPackage (np : NetworkPackage)
  | sendPing
  deriving DecidableEq, Repr

/-- The device method an operation runs. -/
def step (env : Env) (op : Op) (s : State) : State :=
  match op with
  | Op.addLink link => addLink env link s
  | Op.linkDestroyed link => linkDestroyed env link s
  | Op.requestPair => requestPair env s
  | Op.unpair => unpair env s
  | Op.acceptPairing => acceptPairing env s
  | Op.rejectPairing => rejectPairing env s
  | Op.timerExpires => pairingTimerExpires s
  | Op.receive np => privateReceivedPackage env np s
  | Op.reloadPlugins => reloadPlugins env s
  | Op.sendPackage np => (sendPackage env np s).2
  | Op.sendPing => sendPing env s

/-- Runs a sequence of operations from a state. -/
def run (env : Env) (ops : List Op) (s : State) : State :=
  ops.foldl (fun t op => step env op t) s

/-- The envelope built at lines 137-141 of `requestPair` (and 355-358 of `acceptPairing`)
in state `s`: a new pair envelope, not encrypted, with `pair = true` and the own public key
read from the group `myself`. -/
def pairEnvelope (env : Env) (s : State) : NetworkPackage :=
  { mId := s.nextPackageId, mType := PACKAGE_TYPE_PAIR, mEncrypted := false,
    mBody := [("pair", QVariant.bool true),
              ("publicKey", QVariant.byteArray (s.config.readMyself env "publicKey"))],
    mVersion := env.protocolVersion }

/-- The envelope built at lines 167-168 of `unpair` (and 376-377 of `rejectPairing`) in
state `s`: a new pair envelope, not encrypted, with `pair = false`. -/
def unpairEnvelope (env : Env) (s : State) : NetworkPackage :=
  { mId := s.nextPackageId, mType := PACKAGE_TYPE_PAIR, mEncrypted := false,
    mBody := [("pair", QVariant.bool false)],
    mVersion := env.protocolVersion }

/-- Whether operation `op`, arriving in state `s`, is neither an `acceptPairing` whose
envelope (built on lines 355-358 and sent on line 359) some link accepts, nor a pair
envelope with `pair = true` and an empty key arriving while the device is PairRequested
(lines 267-286).  Every other operation is admitted. -/
def admitted (env : Env) (op : Op) (s : State) : Bool :=
  match op with
  | Op.acceptPairing =>
    !(sendPackage env (pairEnvelope env s) { s with nextPackageId := s.nextPackageId + 1 }).1
  | Op.receive np =>
    !(decide (np.mType = PACKAGE_TYPE_PAIR) && np.getBool env "pair"
      && decide (s.dev.m_pairStatus = PairStatus.PairRequested)
      && (np.getByteArray env "publicKey").isEmpty)
  | _ => true

/-- Every operation of the sequence is admitted in the state in which it arrives. -/
def admittedRun (env : Env) : List Op → State → Bool
  | [], _ => true
  | op :: rest, s => admitted env op s && admittedRun env rest (step env op s)

/-! ## Sample collaborators and states for the concrete evaluations -/

/-- A transport that accepts on links of positive address and refuses on address 0. -/
def sampleLinkSend (dl : DeviceLink) (_np : NetworkPackage) : Bool :=
  decide (0 < dl.ptr)

/-- Sample collaborators: sealing sets the encrypted flag, keys are their bytes, one
plugin `ping` is declared, enabled by default, and the sort is the quick sort of Qt 4. -/
def sampleEnv : Env where
  linkSendPackage := sampleLinkSend
  encrypt := fun np _ => { np with mEncrypted := true }
  decrypt := fun np _ out => { out with mType := np.mType, mBody := np.mBody }
  publicKeyFromBase64 := fun b => PublicKey.key b
  publicKeyToBase64 := fun k => match k with
    | PublicKey.null => []
    | PublicKey.key b => b
  privateKeyFromBase64 := fun b => PrivateKey.key b
  toBool := fun v => match v with
    | QVariant.bool b => b
    | _ => false
  toByteArray := fun v => match v with
    | QVariant.byteArray b => b
    | _ => []
  toQString := fun v => match v with
    | QVariant.string t => t
    | _ => ""
  defaultBool := false
  defaultByteArray := []
  protocolVersion := 5
  pluginList := ["ping"]
  isPluginEnabledByDefault := fun _ => true
  pluginStates := fun _ => []
  defaultQString := ""
  qSort := fun lt xs => KdeConnect.qSort lt xs

/-- A link of the LAN provider (priority 100) whose transport accepts. -/
def lanLink : DeviceLink := ⟨1, ⟨"lan", 100⟩⟩

/-- A link of a lower-priority provider whose transport refuses. -/
def deadLink : DeviceLink := ⟨0, ⟨"loopback", 50⟩⟩

/-- The local configuration: own key pair, no trusted device. -/
def sampleConfig : KConfig :=
  { myself := [("privateKey", QVariant.byteArray [7]), ("publicKey", QVariant.byteArray [9])],
    devices := [] }

/-- A device with the given pairing status and links, no plugin bound, timer idle. -/
def sampleDevice (st : PairStatus) (links : List DeviceLink) : Device :=
  { m_deviceId := "B", m_deviceName := "phone", m_publicKey := PublicKey.null,
    m_pairStatus := st, m_deviceLinks := links, m_plugins := [],
    pairingTimer := ⟨false, 0, 0⟩ }

/-- A state around `sampleDevice` with an empty trace. -/
def sampleState (st : PairStatus) (links : List DeviceLink) : State :=
  { dev := sampleDevice st links, config := sampleConfig, trace := [],
    nextPackageId := 0, nextPluginPtr := 0 }

/-- A pair envelope as the peer sends it: `pair = wants` and, when given, its public key. -/
def peerPairPackage (wants : Bool) (key : QByteArray) : NetworkPackage :=
  { mId := 40, mType := PACKAGE_TYPE_PAIR, mEncrypted := false,
    mBody := [("pair", QVariant.bool wants), ("publicKey", QVariant.byteArray key)],
    mVersion := 5 }

/-- A ping envelope as the peer sends it, in the clear or marked encrypted. -/
def peerPingPackage (encrypted : Bool) : NetworkPackage :=
  { mId := 41, mType := "kdeconnect.ping", mEncrypted := encrypted,
    mBody := if encrypted then [("data", QVariant.stringList ["bm90IGZvciB1cw=="])] else [],
    mVersion := 5 }

/-- An identity envelope announcing device `B` named `phone`. -/
def sampleIdentityPackage : NetworkPackage :=
  { mId := 39, mType := "kdeconnect.identity", mEncrypted := false,
    mBody := [("deviceId", QVariant.string "B"), ("deviceName", QVariant.string "phone")],
    mVersion := 5 }

/-- A pair envelope with `pair = true` that carries no `publicKey` entry. -/
def peerPairPackageNoKey : NetworkPackage :=
  { mId := 42, mType := PACKAGE_TYPE_PAIR, mEncrypted := false,
    mBody := [("pair", QVariant.bool true)], mVersion := 5 }

/-- The local configuration with a trusted record for device `B`. -/
def trustingConfig : KConfig :=
  { sampleConfig with
    devices := [("B", [("name", QVariant.string "phone"),
                       ("publicKey", QVariant.byteArray [3])])] }

/-- A Paired device `B` with a trusted record in the store and the pairing timer running
with one connection. -/
def pairedTimerRunningState : State :=
  { dev := { sampleDevice PairStatus.Paired [lanLink] with pairingTimer := ⟨true, 20000, 1⟩ },
    config := trustingConfig, trace := [], nextPackageId := 0, nextPluginPtr := 0 }

/-- Sample collaborators whose `decrypt` cannot open anything: it returns without writing
to `out`. -/
def failingDecryptEnv : Env :=
  { sampleEnv with decrypt := fun _ _ out => out }

/-- Sample collaborators whose sort is a merge sort by `lessThan`. -/
def mergeSortEnv : Env :=
  { sampleEnv with qSort := fun lt xs => xs.mergeSort (fun a b => !lt b a) }

/-- Two links of equal provider priority 50, in the order in which they are added. -/
def firstLink : DeviceLink := ⟨11, ⟨"bluetooth", 50⟩⟩

/-- The second link of provider priority 50. -/
def secondLink : DeviceLink := ⟨12, ⟨"loopback", 50⟩⟩

/-- A link of provider priority 60, added last. -/
def thirdLink : DeviceLink := ⟨13, ⟨"lan", 60⟩⟩

end KdeConnect

/-! ## Lemmas on the containers -/

namespace KdeConnect

theorem QMap.value_insert_self {α : Type} (m : QMap α) (key : String) (v : α) :
    (m.insert key v).value key = some v := by
  induction m with
  | nil => simp [QMap.insert, QMap.value]
  | cons e rest ih =>
    obtain ⟨k, w⟩ := e
    by_cases h1 : k = key
    · simp [QMap.insert, QMap.value, h1]
    · by_cases h2 : qstringLt key k = true
      · simp [QMap.insert, QMap.value, h1, h2]
      · simp [QMap.insert, QMap.value, h1, h2, ih]

theorem QMap.value_insert_ne {α : Type} (m : QMap α) (key other : String) (v : α)
    (hne : key ≠ other) : (m.insert key v).value other = m.value other := by
  induction m with
  | nil => simp [QMap.insert, QMap.value, hne]
  | cons e rest ih =>
    obtain ⟨k, w⟩ := e
    by_cases h1 : k = key
    · subst h1
      simp [QMap.insert, QMap.value, hne]
    · by_cases h2 : qstringLt key k = true
      · simp [QMap.insert, QMap.value, h1, h2, hne]
      · by_cases h3 : k = other
        · subst h3
          simp [QMap.insert, QMap.value, h1, h2]
        · simp [QMap.insert, QMap.value, h1, h2, h3, ih]

theorem QMap.value_remove_self {α : Type} (m : QMap α) (key : String) :
    (m.remove key).value key = none := by
  induction m with
  | nil => simp [QMap.remove, QMap.value]
  | cons e rest ih =>
    obtain ⟨k, w⟩ := e
    by_cases h1 : k = key
    · simpa [QMap.remove, h1] using ih
    · simpa [QMap.remove, QMap.value, h1] using ih

/-- The body built by `set("pair", a)` then `set("publicKey", b)` on a new envelope. -/
theorem pairBody_eq (a b : QVariant) :
    QMap.insert (QMap.insert ([] : QMap QVariant) "pair" a) "publicKey" b
      = [("pair", a), ("publicKey", b)] := by
  have h1 : ¬ ("pair" = "publicKey") := by decide
  have h2 : qstringLt "publicKey" "pair" = false := by decide
  simp [QMap.insert, h1, h2]

/-! ## Lemmas on `sendLoop` and `sendPackage` -/

theorem sendLoop_all_refuse (env : Env) (np : NetworkPackage) (links : List DeviceLink)
    (s : State) (h : ∀ dl ∈ links, env.linkSendPackage dl np = false) :
    sendLoop env np links s
      = (false, s.emitAll (links.map (fun dl => Event.linkSendPackage dl np false))) := by
  induction links generalizing s with
  | nil => simp [sendLoop, State.emitAll]
  | cons dl rest ih =>
    have hd : env.linkSendPackage dl np = false := h dl (List.mem_cons_self _ _)
    have ht : ∀ x ∈ rest, env.linkSendPackage x np = false :=
      fun x hx => h x (List.mem_cons_of_mem _ hx)
    simp [sendLoop, hd, ih _ ht, State.emitAll, State.emit]

theorem sendLoop_first_accept (env : Env) (np : NetworkPackage)
    (pre : List DeviceLink) (dl : DeviceLink) (post : List DeviceLink) (s : State)
    (hpre : ∀ x ∈ pre, env.linkSendPackage x np = false)
    (hdl : env.linkSendPackage dl np = true) :
    sendLoop env np (pre ++ dl :: post) s
      = (true, s.emitAll (pre.map (fun x => Event.linkSendPackage x np false)
                            ++ [Event.linkSendPackage dl np true])) := by
  induction pre generalizing s with
  | nil => simp [sendLoop, hdl, State.emitAll, State.emit]
  | cons x rest ih =>
    have hx : env.linkSendPackage x np = false := hpre x (List.mem_cons_self _ _)
    have ht : ∀ y ∈ rest, env.linkSendPackage y np = false :=
      fun y hy => hpre y (List.mem_cons_of_mem _ hy)
    simp [sendLoop, hx, ih _ ht, State.emitAll, State.emit]

/-- A list with an accepting link splits at its first accepting link. -/
theorem exists_first_accept (env : Env) (np : NetworkPackage) (links : List DeviceLink)
    (h : ∃ dl ∈ links, env.linkSendPackage dl np = true) :
    ∃ pre dl post, links = pre ++ dl :: post ∧
      (∀ x ∈ pre, env.linkSendPackage x np = false) ∧ env.linkSendPackage dl np = true := by
  induction links with
  | nil => simp at h
  | cons x rest ih =>
    by_cases hx : env.linkSendPackage x np = true
    · exact ⟨[], x, rest, by simp, by simp, hx⟩
    · have hrest : ∃ dl ∈ rest, env.linkSendPackage dl np = true := by
        obtain ⟨dl, hmem, hdl⟩ := h
        rcases List.mem_cons.mp hmem with heq | hin
        · subst heq
          exact absurd hdl hx
        · exact ⟨dl, hin, hdl⟩
      obtain ⟨pre, dl, post, hsplit, hpre, hdl⟩ := ih hrest
      refine ⟨x :: pre, dl, post, by simp [hsplit], ?_, hdl⟩
      intro y hy
      rcases List.mem_cons.mp hy with heq | hin
      · subst heq
        simpa using hx
      · exact hpre y hin

theorem sendLoop_fst (env : Env) (np : NetworkPackage) (links : List DeviceLink) (s : State) :
    (sendLoop env np links s).1 = links.any (fun dl => env.linkSendPackage dl np) := by
  induction links generalizing s with
  | nil => simp [sendLoop]
  | cons dl rest ih =>
    by_cases hd : env.linkSendPackage dl np = true
    · simp [sendLoop, hd]
    · simp [sendLoop, hd, ih]

/-- What `sendLoop` leaves behind: only new trace entries, each one an offer of `np` to a
link of the list, and none exactly when the list is empty. -/
theorem sendLoop_snd (env : Env) (np : NetworkPackage) (links : List DeviceLink) (s : State) :
    ∃ sent : List Event, (sendLoop env np links s).2 = s.emitAll sent ∧
      (∀ e ∈ sent, ∃ dl ∈ links, ∃ b, e = Event.linkSendPackage dl np b) ∧
      (sent = [] ↔ links = []) := by
  by_cases h : ∃ dl ∈ links, env.linkSendPackage dl np = true
  · obtain ⟨pre, dl, post, hsplit, hpre, hdl⟩ := exists_first_accept env np links h
    refine ⟨pre.map (fun x => Event.linkSendPackage x np false)
              ++ [Event.linkSendPackage dl np true], ?_, ?_, ?_⟩
    · rw [hsplit, sendLoop_first_accept env np pre dl post s hpre hdl]
    · intro e he
      rcases List.mem_append.mp he with h1 | h1
      · obtain ⟨x, hx, rfl⟩ := List.mem_map.mp h1
        exact ⟨x, by simp [hsplit, hx], false, rfl⟩
      · simp at h1
        exact ⟨dl, by simp [hsplit], true, h1⟩
    · simp [hsplit]
  · have hall : ∀ dl ∈ links, env.linkSendPackage dl np = false := by
      intro dl hdl
      by_contra hc
      exact h ⟨dl, hdl, by simpa using hc⟩
    refine ⟨links.map (fun dl => Event.linkSendPackage dl np false), ?_, ?_, ?_⟩
    · rw [sendLoop_all_refuse env np links s hall]
    · intro e he
      obtain ⟨x, hx, rfl⟩ := List.mem_map.mp he
      exact ⟨x, hx, false, rfl⟩
    · simp

end KdeConnect

/-! ## Locally initiated pairing -/

namespace KdeConnect

/-- What `requestPair` does once its three guards have let it through. -/
theorem requestPair_unfold (env : Env) (s : State)
    (hst : s.dev.m_pairStatus = PairStatus.NotPaired) (hlinks : s.dev.m_deviceLinks ≠ []) :
    requestPair env s =
      (let r := sendLoop env (pairEnvelope env s) s.dev.m_deviceLinks
                  { s with nextPackageId := s.nextPackageId + 1 }
       if r.1 = true then
         { r.2 with dev := { r.2.dev with
             m_pairStatus := PairStatus.PairRequested,
             pairingTimer := { active := true, interval := 20 * 1000,
                               connections := r.2.dev.pairingTimer.connections + 1 } } }
       else r.2.emit (Event.pairingFailed "Error contacting device")) := by
  have hreach : s.dev.isReachable = true := by
    cases hl : s.dev.m_deviceLinks with
    | nil => exact absurd hl hlinks
    | cons a l => simp [Device.isReachable, hl]
  have hnp : s.dev.isPaired = false := by simp [Device.isPaired, hst]
  simp only [requestPair, hst, hreach, newNetworkPackage, sendPackage, hnp,
    NetworkPackage.set, pairBody_eq, pairEnvelope, QTimer.start]
  simp
  split <;> simp_all

/-- C1: when the device is already Paired, already PairRequested, or has no link,
`requestPair` leaves the device (pairStatus, publicKey, links, plugins, timer) and the
persisted store unchanged, and all it adds to the trace is one `pairingFailed`, so no envelope
reaches a link.  In particular a `requestPair` issued right after one that ended in
PairRequested changes nothing and leaves the timer as it was. -/
theorem requestPair_refused_changes_nothing (env : Env) (s : State) :
    ((s.dev.m_pairStatus = PairStatus.Paired ∨ s.dev.m_pairStatus = PairStatus.PairRequested ∨
        s.dev.m_deviceLinks = []) →
      (requestPair env s).dev = s.dev ∧ (requestPair env s).config = s.config ∧
      ∃ reason, (requestPair env s).trace = s.trace ++ [Event.pairingFailed reason]) ∧
    ((requestPair env s).dev.m_pairStatus = PairStatus.PairRequested →
      (requestPair env (requestPair env s)).dev = (requestPair env s).dev ∧
      (requestPair env (requestPair env s)).config = (requestPair env s).config ∧
      ∃ reason, (requestPair env (requestPair env s)).trace
        = (requestPair env s).trace ++ [Event.pairingFailed reason]) := by
  have key : ∀ t : State,
      (t.dev.m_pairStatus = PairStatus.Paired ∨ t.dev.m_pairStatus = PairStatus.PairRequested ∨
        t.dev.m_deviceLinks = []) →
      (requestPair env t).dev = t.dev ∧ (requestPair env t).config = t.config ∧
      ∃ reason, (requestPair env t).trace = t.trace ++ [Event.pairingFailed reason] := by
    intro t h
    by_cases h1 : t.dev.m_pairStatus = PairStatus.Paired
    · simp [requestPair, h1, State.emit]
    · by_cases h2 : t.dev.m_pairStatus = PairStatus.PairRequested
      · simp [requestPair, h2, State.emit]
      · have h3 : t.dev.m_deviceLinks = [] := by
          rcases h with h | h | h
          · exact absurd h h1
          · exact absurd h h2
          · exact h
        simp [requestPair, h1, h2, h3, Device.isReachable, State.emit]
  exact ⟨key s, fun h => key (requestPair env s) (Or.inr (Or.inl h))⟩

theorem requestPair_refused_changes_nothing_witness :
    ((requestPair sampleEnv (sampleState PairStatus.Paired [lanLink])).dev
        = (sampleState PairStatus.Paired [lanLink]).dev ∧
      (requestPair sampleEnv (sampleState PairStatus.Paired [lanLink])).config
        = (sampleState PairStatus.Paired [lanLink]).config ∧
      ∃ reason, (requestPair sampleEnv (sampleState PairStatus.Paired [lanLink])).trace
        = (sampleState PairStatus.Paired [lanLink]).trace ++ [Event.pairingFailed reason]) ∧
    (requestPair sampleEnv (requestPair sampleEnv (sampleState PairStatus.NotPaired [lanLink]))).dev
      = (requestPair sampleEnv (sampleState PairStatus.NotPaired [lanLink])).dev :=
  ⟨(requestPair_refused_changes_nothing sampleEnv (sampleState PairStatus.Paired [lanLink])).1
      (Or.inl rfl),
   ((requestPair_refused_changes_nothing sampleEnv
      (sampleState PairStatus.NotPaired [lanLink])).2 (by decide)).1⟩

/-- C2: on a NotPaired device with at least one link, `requestPair` offers the links the
unencrypted pair envelope carrying `pair = true` and the own public key.  If some link accepts
it, the envelope went to the links up to the first accepting one, the device ends in
PairRequested and the timer runs with an interval of 20 seconds.  If every link refuses it,
every link was offered it, `pairingFailed` is emitted, and the device (pairStatus NotPaired,
timer) is as before. -/
theorem requestPair_sends_pair_envelope (env : Env) (s : State)
    (hst : s.dev.m_pairStatus = PairStatus.NotPaired) (hlinks : s.dev.m_deviceLinks ≠ []) :
    ((pairEnvelope env s).mType = PACKAGE_TYPE_PAIR ∧ (pairEnvelope env s).mEncrypted = false ∧
      (pairEnvelope env s).mBody.value "pair" = some (QVariant.bool true) ∧
      (pairEnvelope env s).mBody.value "publicKey"
        = some (QVariant.byteArray (s.config.readMyself env "publicKey"))) ∧
    ((∃ dl ∈ s.dev.m_deviceLinks, env.linkSendPackage dl (pairEnvelope env s) = true) →
      (requestPair env s).dev.m_pairStatus = PairStatus.PairRequested ∧
      (requestPair env s).dev.pairingTimer.active = true ∧
      (requestPair env s).dev.pairingTimer.interval = 20 * 1000 ∧
      ∃ pre dl post, s.dev.m_deviceLinks = pre ++ dl :: post ∧
        (∀ x ∈ pre, env.linkSendPackage x (pairEnvelope env s) = false) ∧
        env.linkSendPackage dl (pairEnvelope env s) = true ∧
        (requestPair env s).trace = s.trace
          ++ pre.map (fun x => Event.linkSendPackage x (pairEnvelope env s) false)
          ++ [Event.linkSendPackage dl (pairEnvelope env s) true]) ∧
    ((∀ dl ∈ s.dev.m_deviceLinks, env.linkSendPackage dl (pairEnvelope env s) = false) →
      (requestPair env s).dev = s.dev ∧ (requestPair env s).config = s.config ∧
      (requestPair env s).trace = s.trace
        ++ s.dev.m_deviceLinks.map (fun x => Event.linkSendPackage x (pairEnvelope env s) false)
        ++ [Event.pairingFailed "Error contacting device"]) := by
  refine ⟨⟨rfl, rfl, ?_, ?_⟩, ?_, ?_⟩
  · simp [pairEnvelope, QMap.value]
  · have h1 : ¬ ("pair" = "publicKey") := by decide
    simp [pairEnvelope, QMap.value, h1]
  · intro hacc
    obtain ⟨pre, dl, post, hsplit, hpre, hdl⟩ :=
      exists_first_accept env (pairEnvelope env s) s.dev.m_deviceLinks hacc
    have hrun := sendLoop_first_accept env (pairEnvelope env s) pre dl post
      { s with nextPackageId := s.nextPackageId + 1 } hpre hdl
    rw [← hsplit] at hrun
    rw [requestPair_unfold env s hst hlinks]
    simp only [hrun]
    refine ⟨by simp, by simp, by simp, pre, dl, post, hsplit, hpre, hdl, ?_⟩
    simp [State.emitAll]
  · intro hall
    have hrun := sendLoop_all_refuse env (pairEnvelope env s) s.dev.m_deviceLinks
      { s with nextPackageId := s.nextPackageId + 1 } hall
    rw [requestPair_unfold env s hst hlinks]
    simp only [hrun]
    simp [State.emitAll, State.emit]

theorem requestPair_sends_pair_envelope_witness :
    (requestPair sampleEnv (sampleState PairStatus.NotPaired [deadLink, lanLink])).dev.m_pairStatus
        = PairStatus.PairRequested ∧
    (requestPair sampleEnv (sampleState PairStatus.NotPaired [deadLink])).dev
        = (sampleState PairStatus.NotPaired [deadLink]).dev :=
  ⟨((requestPair_sends_pair_envelope sampleEnv
        (sampleState PairStatus.NotPaired [deadLink, lanLink]) rfl (by decide)).2.1
        ⟨lanLink, by decide, by decide⟩).1,
   ((requestPair_sends_pair_envelope sampleEnv
        (sampleState PairStatus.NotPaired [deadLink]) rfl (by decide)).2.2
        (by decide)).1⟩

end KdeConnect

/-! ## Receiving pair envelopes -/

namespace KdeConnect

/-- Reading back the two entries `writeDeviceEntry` stored under one device id. -/
theorem KConfig.written_record (c : KConfig) (id : String) (k n : QVariant) :
    ∃ g, ((c.writeDeviceEntry id "publicKey" k).writeDeviceEntry id "name" n).devices.value id
        = some g ∧
      g.value "publicKey" = some k ∧ g.value "name" = some n := by
  have hne : "name" ≠ "publicKey" := by decide
  refine ⟨(((c.devices.value id).getD []).insert "publicKey" k).insert "name" n, ?_, ?_, ?_⟩
  · simp [KConfig.writeDeviceEntry, QMap.value_insert_self]
  · rw [QMap.value_insert_ne _ _ _ _ hne, QMap.value_insert_self]
  · rw [QMap.value_insert_self]

/-- C3: a device in PairRequested that receives a pair envelope with `pair = true` and
public key `k` ends Paired with the timer stopped, holds the key decoded from `k`, has
`publicKey = k` and `name = <device name>` persisted under `devices/<id>`, and emits
`pairingSuccesful` once (the only addition to the trace). -/
theorem pair_complete (env : Env) (s : State) (np : NetworkPackage) (k : QByteArray)
    (hst : s.dev.m_pairStatus = PairStatus.PairRequested)
    (htype : np.mType = PACKAGE_TYPE_PAIR)
    (hpair : np.getBool env "pair" = true)
    (hkey : np.getByteArray env "publicKey" = k) :
    (privateReceivedPackage env np s).dev.m_pairStatus = PairStatus.Paired ∧
    (privateReceivedPackage env np s).dev.pairingTimer.active = false ∧
    (privateReceivedPackage env np s).dev.m_publicKey = env.publicKeyFromBase64 k ∧
    (∃ g, (privateReceivedPackage env np s).config.devices.value s.dev.m_deviceId = some g ∧
      g.value "publicKey" = some (QVariant.byteArray k) ∧
      g.value "name" = some (QVariant.string s.dev.m_deviceName)) ∧
    (privateReceivedPackage env np s).trace = s.trace ++ [Event.pairingSuccesful] := by
  have hnp : s.dev.isPaired = false := by simp [Device.isPaired, hst]
  have hrun : privateReceivedPackage env np s =
      { s with
        dev := { s.dev with m_publicKey := env.publicKeyFromBase64 k,
                            m_pairStatus := PairStatus.Paired,
                            pairingTimer := s.dev.pairingTimer.stop },
        config := (s.config.writeDeviceEntry s.dev.m_deviceId "publicKey"
                    (QVariant.byteArray k)).writeDeviceEntry s.dev.m_deviceId "name"
                    (QVariant.string s.dev.m_deviceName),
        trace := s.trace ++ [Event.pairingSuccesful] } := by
    simp [privateReceivedPackage, htype, hpair, hkey, hnp, hst, State.emit]
  rw [hrun]
  refine ⟨rfl, rfl, rfl, ?_, rfl⟩
  exact KConfig.written_record s.config s.dev.m_deviceId _ _

theorem pair_complete_witness :
    (privateReceivedPackage sampleEnv (peerPairPackage true [3])
        (sampleState PairStatus.PairRequested [lanLink])).dev.m_pairStatus = PairStatus.Paired ∧
    (privateReceivedPackage sampleEnv (peerPairPackage true [3])
        (sampleState PairStatus.PairRequested [lanLink])).dev.m_publicKey
      = sampleEnv.publicKeyFromBase64 [3] :=
  have h := pair_complete sampleEnv (sampleState PairStatus.PairRequested [lanLink])
    (peerPairPackage true [3]) [3] rfl rfl (by decide) (by decide)
  ⟨h.1, h.2.2.1⟩

/-- C6: whatever envelope a NotPaired device receives, it is NotPaired afterwards, the
persisted store and the plugin map are unchanged, and no `receivedPackage` is emitted (nothing
reaches the plugins).  A pair envelope with `pair = true` only replaces the in-memory public
key and raises the Accept/Reject notification; a pair envelope with `pair = false` leaves the
whole state as it was. -/
theorem notPaired_receive (env : Env) (s : State) (np : NetworkPackage)
    (hst : s.dev.m_pairStatus = PairStatus.NotPaired) :
    (privateReceivedPackage env np s).dev.m_pairStatus = PairStatus.NotPaired ∧
    (privateReceivedPackage env np s).config = s.config ∧
    (privateReceivedPackage env np s).dev.m_plugins = s.dev.m_plugins ∧
    (∃ added, (privateReceivedPackage env np s).trace = s.trace ++ added ∧
      ∀ p, Event.receivedPackage p ∉ added) ∧
    (np.mType = PACKAGE_TYPE_PAIR → np.getBool env "pair" = true →
      privateReceivedPackage env np s =
        { s with
          dev := { s.dev with
            m_publicKey := env.publicKeyFromBase64 (np.getByteArray env "publicKey") },
          trace := s.trace ++
            [Event.notification ("Pairing request from " ++ s.dev.m_deviceName)
              ["Accept", "Reject"]] }) ∧
    (np.mType = PACKAGE_TYPE_PAIR → np.getBool env "pair" = false →
      privateReceivedPackage env np s = s) := by
  have hnp : s.dev.isPaired = false := by simp [Device.isPaired, hst]
  by_cases htype : np.mType = PACKAGE_TYPE_PAIR
  · by_cases hpair : np.getBool env "pair" = true
    · have hrun : privateReceivedPackage env np s =
          { s with
            dev := { s.dev with
              m_publicKey := env.publicKeyFromBase64 (np.getByteArray env "publicKey") },
            trace := s.trace ++
              [Event.notification ("Pairing request from " ++ s.dev.m_deviceName)
                ["Accept", "Reject"]] } := by
        simp [privateReceivedPackage, htype, hpair, hnp, hst, State.emit]
      rw [hrun]
      refine ⟨hst, rfl, rfl, ⟨_, rfl, by simp⟩, fun _ _ => rfl, ?_⟩
      intro _ hf
      rw [hpair] at hf
      exact absurd hf (by decide)
    · have hpair2 : np.getBool env "pair" = false := by simpa using hpair
      have hrun : privateReceivedPackage env np s = s := by
        simp [privateReceivedPackage, htype, hpair2, hnp, hst]
      rw [hrun]
      refine ⟨hst, rfl, rfl, ⟨[], by simp, by simp⟩, ?_, fun _ _ => rfl⟩
      intro _ hf
      exact absurd hf hpair
  · have hrun : privateReceivedPackage env np s = s := by
      simp [privateReceivedPackage, htype, hnp]
    rw [hrun]
    exact ⟨hst, rfl, rfl, ⟨[], by simp, by simp⟩, fun h => absurd h htype,
      fun h => absurd h htype⟩

theorem notPaired_receive_witness :
    (privateReceivedPackage sampleEnv (peerPairPackage true [3])
        (sampleState PairStatus.NotPaired [lanLink])).dev.m_pairStatus = PairStatus.NotPaired ∧
    privateReceivedPackage sampleEnv (peerPairPackage false [])
        (sampleState PairStatus.NotPaired [lanLink]) = sampleState PairStatus.NotPaired [lanLink] :=
  have h := notPaired_receive sampleEnv (sampleState PairStatus.NotPaired [lanLink])
  ⟨(h (peerPairPackage true [3]) rfl).1,
   (h (peerPairPackage false []) rfl).2.2.2.2.2 rfl (by decide)⟩

/-- C7: a pair envelope whose `pair` flag equals `isPaired()` cancels a pending request
(PairRequested goes to NotPaired, the timer is stopped, one `pairingFailed` is emitted and
nothing else changes) and in every other state leaves the whole state, trace included, as it
was. -/
theorem pair_flag_equals_isPaired (env : Env) (s : State) (np : NetworkPackage)
    (htype : np.mType = PACKAGE_TYPE_PAIR)
    (hflag : np.getBool env "pair" = s.dev.isPaired) :
    (s.dev.m_pairStatus = PairStatus.PairRequested →
      np.getBool env "pair" = false ∧
      privateReceivedPackage env np s =
        { s with
          dev := { s.dev with m_pairStatus := PairStatus.NotPaired,
                              pairingTimer := { s.dev.pairingTimer with active := false } },
          trace := s.trace ++ [Event.pairingFailed "Canceled by other peer"] }) ∧
    (s.dev.m_pairStatus ≠ PairStatus.PairRequested →
      privateReceivedPackage env np s = s) := by
  constructor
  · intro hst
    have hnp : s.dev.isPaired = false := by simp [Device.isPaired, hst]
    refine ⟨by rw [hflag, hnp], ?_⟩
    simp [privateReceivedPackage, htype, hflag, hst, State.emit, QTimer.stop]
  · intro hst
    simp [privateReceivedPackage, htype, hflag, hst]

theorem pair_flag_equals_isPaired_witness :
    (privateReceivedPackage sampleEnv (peerPairPackage false [])
        (sampleState PairStatus.PairRequested [lanLink])).dev.m_pairStatus
      = PairStatus.NotPaired ∧
    privateReceivedPackage sampleEnv (peerPairPackage true [3])
        (sampleState PairStatus.Paired [lanLink]) = sampleState PairStatus.Paired [lanLink] :=
  ⟨by
    rw [((pair_flag_equals_isPaired sampleEnv (sampleState PairStatus.PairRequested [lanLink])
      (peerPairPackage false []) rfl (by decide)).1 rfl).2],
   (pair_flag_equals_isPaired sampleEnv (sampleState PairStatus.Paired [lanLink])
      (peerPairPackage true [3]) rfl (by decide)).2 (by decide)⟩

end KdeConnect

/-! ## Unpairing, the timer, and sending -/

namespace KdeConnect

/-- When the device is not both paired and reachable, `reloadPlugins` destroys every bound
plugin, leaves the map empty and emits `pluginsChanged`. -/
theorem reloadPlugins_unloads (env : Env) (s : State)
    (h : (s.dev.isPaired && s.dev.isReachable) = false) :
    reloadPlugins env s =
      { s with
        dev := { s.dev with m_plugins := [] },
        trace := s.trace ++ s.dev.m_plugins.values.map Event.pluginDestroyed
                   ++ [Event.pluginsChanged] } := by
  simp [reloadPlugins, h, State.emitAll, State.emit, QMap.values]

/-- The state `unpair` returns on a Paired device, with the offers made to the links left
as an unknown list `sent` constrained as `sendLoop_snd` says. -/
theorem unpair_paired (env : Env) (s : State) (hst : s.dev.m_pairStatus = PairStatus.Paired) :
    ∃ sent n, unpair env s =
        { dev := { s.dev with m_pairStatus := PairStatus.NotPaired,
                              pairingTimer := s.dev.pairingTimer.stop,
                              m_plugins := [] },
          config := s.config.deleteDeviceGroup s.dev.m_deviceId,
          trace := s.trace ++ sent ++ s.dev.m_plugins.values.map Event.pluginDestroyed
                     ++ [Event.pluginsChanged],
          nextPackageId := n,
          nextPluginPtr := s.nextPluginPtr } ∧
      (∀ e ∈ sent, ∃ dl ∈ s.dev.m_deviceLinks, ∃ b,
        e = Event.linkSendPackage dl (unpairEnvelope env s) b) ∧
      (sent = [] ↔ s.dev.m_deviceLinks = []) := by
  have hp : s.dev.isPaired = true := by simp [Device.isPaired, hst]
  by_cases hl : s.dev.m_deviceLinks = []
  · have hrun : unpair env s = reloadPlugins env
        { s with dev := { s.dev with m_pairStatus := PairStatus.NotPaired,
                                     pairingTimer := s.dev.pairingTimer.stop },
                 config := s.config.deleteDeviceGroup s.dev.m_deviceId } := by
      simp [unpair, hp, Device.isReachable, hl]
    refine ⟨[], s.nextPackageId, ?_, by simp, by simp [hl]⟩
    rw [hrun, reloadPlugins_unloads _ _ (by simp [Device.isPaired])]
    simp
  · have hr : s.dev.isReachable = true := by
      cases hc : s.dev.m_deviceLinks with
      | nil => exact absurd hc hl
      | cons a l => simp [Device.isReachable, hc]
    obtain ⟨sent, hsent, hall, hempty⟩ := sendLoop_snd env (unpairEnvelope env s)
      s.dev.m_deviceLinks
      { s with dev := { s.dev with m_pairStatus := PairStatus.NotPaired,
                                   pairingTimer := s.dev.pairingTimer.stop },
               config := s.config.deleteDeviceGroup s.dev.m_deviceId,
               nextPackageId := s.nextPackageId + 1 }
    have hrun : unpair env s = reloadPlugins env
        (sendLoop env (unpairEnvelope env s) s.dev.m_deviceLinks
          { s with dev := { s.dev with m_pairStatus := PairStatus.NotPaired,
                                       pairingTimer := s.dev.pairingTimer.stop },
                   config := s.config.deleteDeviceGroup s.dev.m_deviceId,
                   nextPackageId := s.nextPackageId + 1 }).2 := by
      have hr2 : Device.isReachable
          { s.dev with m_pairStatus := PairStatus.NotPaired,
                       pairingTimer := s.dev.pairingTimer.stop } = true := hr
      have hp2 : Device.isPaired
          { s.dev with m_pairStatus := PairStatus.NotPaired,
                       pairingTimer := s.dev.pairingTimer.stop } = false := by
        simp [Device.isPaired]
      simp only [unpair, hp, newNetworkPackage, sendPackage, NetworkPackage.set, QMap.insert,
        unpairEnvelope, hr2, hp2]
      simp
    refine ⟨sent, s.nextPackageId + 1, ?_, hall, hempty⟩
    rw [hrun, hsent, reloadPlugins_unloads _ _ (by simp [Device.isPaired, State.emitAll])]
    simp [State.emitAll]

/-- C8: `unpair` on a Paired device ends NotPaired with the timer stopped, the record
`devices/<id>` deleted, the plugin map empty, every bound plugin destroyed and `pluginsChanged`
emitted last; the unencrypted `pair = false` envelope is offered to links exactly when there
is a link.  On a device that is not Paired `unpair` returns the state as it was.  Receiving a
pair envelope with `pair = false` on a Paired device is `unpair`. -/
theorem unpair_spec (env : Env) (s : State) :
    (s.dev.m_pairStatus = PairStatus.Paired →
      (unpair env s).dev.m_pairStatus = PairStatus.NotPaired ∧
      (unpair env s).dev.pairingTimer.active = false ∧
      (unpair env s).config.devices.value s.dev.m_deviceId = none ∧
      (unpair env s).dev.m_plugins = [] ∧
      (unpairEnvelope env s).mEncrypted = false ∧
      (unpairEnvelope env s).mBody.value "pair" = some (QVariant.bool false) ∧
      ∃ sent, (unpair env s).trace = s.trace ++ sent
            ++ s.dev.m_plugins.values.map Event.pluginDestroyed ++ [Event.pluginsChanged] ∧
        (∀ e ∈ sent, ∃ dl ∈ s.dev.m_deviceLinks, ∃ b,
          e = Event.linkSendPackage dl (unpairEnvelope env s) b) ∧
        (sent = [] ↔ s.dev.m_deviceLinks = [])) ∧
    (s.dev.m_pairStatus ≠ PairStatus.Paired → unpair env s = s) ∧
    (∀ np : NetworkPackage, s.dev.m_pairStatus = PairStatus.Paired →
      np.mType = PACKAGE_TYPE_PAIR → np.getBool env "pair" = false →
      privateReceivedPackage env np s = unpair env s) := by
  refine ⟨?_, ?_, ?_⟩
  · intro hst
    obtain ⟨sent, n, hrun, hall, hempty⟩ := unpair_paired env s hst
    rw [hrun]
    exact ⟨rfl, rfl, QMap.value_remove_self _ _, rfl, rfl,
      by simp [unpairEnvelope, QMap.value], sent, rfl, hall, hempty⟩
  · intro hst
    have hp : s.dev.isPaired = false := by simp [Device.isPaired, hst]
    simp [unpair, hp]
  · intro np hst htype hpair
    have hp : s.dev.isPaired = true := by simp [Device.isPaired, hst]
    simp [privateReceivedPackage, htype, hpair, hp, hst]

theorem unpair_spec_witness :
    (unpair sampleEnv (sampleState PairStatus.Paired [lanLink])).dev.m_pairStatus
      = PairStatus.NotPaired ∧
    unpair sampleEnv (sampleState PairStatus.NotPaired [lanLink])
      = sampleState PairStatus.NotPaired [lanLink] ∧
    privateReceivedPackage sampleEnv (peerPairPackage false [])
        (sampleState PairStatus.Paired [lanLink])
      = unpair sampleEnv (sampleState PairStatus.Paired [lanLink]) :=
  ⟨((unpair_spec sampleEnv (sampleState PairStatus.Paired [lanLink])).1 rfl).1,
   (unpair_spec sampleEnv (sampleState PairStatus.NotPaired [lanLink])).2.1 (by decide),
   (unpair_spec sampleEnv (sampleState PairStatus.Paired [lanLink])).2.2
      (peerPairPackage false []) rfl rfl (by decide)⟩

/-- C10: `sendPackage` offers the links, in list order, the envelope sealed with the peer
key when the device is Paired and the envelope as given otherwise.  It returns true exactly
when some link accepts; the offers stop at the first accepting link, each link before it
having been offered the envelope once; when all refuse every link was offered it once.  The
device and the persisted store are never changed, and with no link the result is false and
the state is as it was. -/
theorem sendPackage_spec (env : Env) (np : NetworkPackage) (s : State)
    (offeredNp : NetworkPackage)
    (hoff : offeredNp = if s.dev.m_pairStatus = PairStatus.Paired
                        then env.encrypt np s.dev.m_publicKey else np) :
    ((sendPackage env np s).1 = true ↔
      ∃ dl ∈ s.dev.m_deviceLinks, env.linkSendPackage dl offeredNp = true) ∧
    (∀ pre dl post, s.dev.m_deviceLinks = pre ++ dl :: post →
      (∀ x ∈ pre, env.linkSendPackage x offeredNp = false) →
      env.linkSendPackage dl offeredNp = true →
      (sendPackage env np s).2.trace = s.trace
        ++ pre.map (fun x => Event.linkSendPackage x offeredNp false)
        ++ [Event.linkSendPackage dl offeredNp true]) ∧
    ((∀ dl ∈ s.dev.m_deviceLinks, env.linkSendPackage dl offeredNp = false) →
      (sendPackage env np s).2.trace = s.trace
        ++ s.dev.m_deviceLinks.map (fun x => Event.linkSendPackage x offeredNp false)) ∧
    (sendPackage env np s).2.dev = s.dev ∧
    (sendPackage env np s).2.config = s.config ∧
    (s.dev.m_deviceLinks = [] → sendPackage env np s = (false, s)) := by
  have hrun : sendPackage env np s = sendLoop env offeredNp s.dev.m_deviceLinks s := by
    by_cases hp : s.dev.m_pairStatus = PairStatus.Paired
    · simp [sendPackage, Device.isPaired, hp, hoff]
    · simp [sendPackage, Device.isPaired, hp, hoff]
  rw [hrun]
  refine ⟨?_, ?_, ?_, ?_, ?_, ?_⟩
  · rw [sendLoop_fst]
    simp [List.any_eq_true]
  · intro pre dl post hsplit hpre hdl
    rw [hsplit, sendLoop_first_accept env offeredNp pre dl post s hpre hdl]
    simp [State.emitAll]
  · intro hall
    rw [sendLoop_all_refuse env offeredNp _ s hall]
    simp [State.emitAll]
  · obtain ⟨sent, hsent, _, _⟩ := sendLoop_snd env offeredNp s.dev.m_deviceLinks s
    rw [hsent]
    rfl
  · obtain ⟨sent, hsent, _, _⟩ := sendLoop_snd env offeredNp s.dev.m_deviceLinks s
    rw [hsent]
    rfl
  · intro hl
    rw [hl]
    rfl

theorem sendPackage_spec_witness :
    (sendPackage sampleEnv (pairEnvelope sampleEnv (sampleState PairStatus.NotPaired []))
        (sampleState PairStatus.NotPaired [deadLink, lanLink, lanLink])).2.trace
      = [Event.linkSendPackage deadLink
            (pairEnvelope sampleEnv (sampleState PairStatus.NotPaired [])) false,
         Event.linkSendPackage lanLink
            (pairEnvelope sampleEnv (sampleState PairStatus.NotPaired [])) true] ∧
    sendPackage sampleEnv (pairEnvelope sampleEnv (sampleState PairStatus.NotPaired []))
        (sampleState PairStatus.Paired [])
      = (false, sampleState PairStatus.Paired []) :=
  ⟨(sendPackage_spec sampleEnv (pairEnvelope sampleEnv (sampleState PairStatus.NotPaired []))
      (sampleState PairStatus.NotPaired [deadLink, lanLink, lanLink])
      (pairEnvelope sampleEnv (sampleState PairStatus.NotPaired [])) (by decide)).2.1
      [deadLink] lanLink [lanLink] rfl (by decide) (by decide),
   (sendPackage_spec sampleEnv (pairEnvelope sampleEnv (sampleState PairStatus.NotPaired []))
      (sampleState PairStatus.Paired [])
      (sampleEnv.encrypt (pairEnvelope sampleEnv (sampleState PairStatus.NotPaired []))
        PublicKey.null) (by decide)).2.2.2.2.2 rfl⟩

end KdeConnect

/-! ## Where the code departs from the documented transitions -/

namespace KdeConnect

/-- C4: a reachable device in PairRequested, with the plugin `ping` enabled by default,
receives the peer's `pair = true` answer.  The device becomes Paired, yet the plugin map is
still empty and the only event is `pairingSuccesful`: `reloadPlugins` was not run and
`pluginsChanged` was not emitted.  Running `reloadPlugins` on the resulting state would bind
`ping`. -/
theorem pair_complete_skips_reloadPlugins :
    (privateReceivedPackage sampleEnv (peerPairPackage true [3])
        (sampleState PairStatus.PairRequested [lanLink])).dev.m_pairStatus = PairStatus.Paired ∧
    (privateReceivedPackage sampleEnv (peerPairPackage true [3])
        (sampleState PairStatus.PairRequested [lanLink])).dev.m_plugins = [] ∧
    (privateReceivedPackage sampleEnv (peerPairPackage true [3])
        (sampleState PairStatus.PairRequested [lanLink])).trace = [Event.pairingSuccesful] ∧
    (reloadPlugins sampleEnv (privateReceivedPackage sampleEnv (peerPairPackage true [3])
        (sampleState PairStatus.PairRequested [lanLink]))).dev.m_plugins
      = [("ping", ⟨0⟩)] := by
  decide

/-- C5: a NotPaired reachable device captures the peer key from a pair request and the
user accepts.  The link takes the answer and the record is persisted, yet `acceptPairing`
leaves the device NotPaired, and its `reloadPlugins` therefore binds no plugin. -/
theorem acceptPairing_stays_NotPaired :
    (privateReceivedPackage sampleEnv (peerPairPackage true [3])
        (sampleState PairStatus.NotPaired [lanLink])).dev.m_publicKey = PublicKey.key [3] ∧
    (sendPackage sampleEnv
        (pairEnvelope sampleEnv (sampleState PairStatus.NotPaired [lanLink]))
        (sampleState PairStatus.NotPaired [lanLink])).1 = true ∧
    (acceptPairing sampleEnv (privateReceivedPackage sampleEnv (peerPairPackage true [3])
        (sampleState PairStatus.NotPaired [lanLink]))).config.devices
      = [("B", [("name", QVariant.string "phone"), ("publicKey", QVariant.byteArray [3])])] ∧
    (acceptPairing sampleEnv (privateReceivedPackage sampleEnv (peerPairPackage true [3])
        (sampleState PairStatus.NotPaired [lanLink]))).dev.m_pairStatus
      = PairStatus.NotPaired ∧
    (acceptPairing sampleEnv (privateReceivedPackage sampleEnv (peerPairPackage true [3])
        (sampleState PairStatus.NotPaired [lanLink]))).dev.m_plugins = [] := by
  decide

/-- C9: `pairingTimeout` has no guard on the state.  Called on a Paired device it sets
NotPaired and emits `pairingFailed` while the persisted record and the rest of the device
stay; called on a NotPaired device it emits `pairingFailed` again.  It does not stop the
timer either, which is still active after firing in PairRequested. -/
theorem pairingTimeout_unguarded :
    (pairingTimeout (privateReceivedPackage sampleEnv (peerPairPackage true [3])
        (sampleState PairStatus.PairRequested [lanLink]))).dev.m_pairStatus
      = PairStatus.NotPaired ∧
    (pairingTimeout (privateReceivedPackage sampleEnv (peerPairPackage true [3])
        (sampleState PairStatus.PairRequested [lanLink]))).config.devices
      = [("B", [("name", QVariant.string "phone"), ("publicKey", QVariant.byteArray [3])])] ∧
    (pairingTimeout (privateReceivedPackage sampleEnv (peerPairPackage true [3])
        (sampleState PairStatus.PairRequested [lanLink]))).trace
      = [Event.pairingSuccesful, Event.pairingFailed "Timed out"] ∧
    (pairingTimeout (sampleState PairStatus.NotPaired [lanLink])).trace
      = [Event.pairingFailed "Timed out"] ∧
    (pairingTimeout (requestPair sampleEnv
        (sampleState PairStatus.NotPaired [lanLink]))).dev.pairingTimer.active = true := by
  decide

end KdeConnect

/-! ## Receiving other envelopes -/

namespace KdeConnect

/-- C11: for a received envelope that is not a pair envelope, a device that is not Paired
forwards nothing and the whole state stays as it was; a Paired device receiving it unencrypted
emits `receivedPackage` once with that very envelope, and device and persisted store stay as
they were. -/
theorem non_pair_receive (env : Env) (s : State) (np : NetworkPackage)
    (htype : np.mType ≠ PACKAGE_TYPE_PAIR) :
    (s.dev.m_pairStatus ≠ PairStatus.Paired →
      (privateReceivedPackage env np s).dev = s.dev ∧
      (privateReceivedPackage env np s).config = s.config ∧
      (privateReceivedPackage env np s).trace = s.trace) ∧
    (s.dev.m_pairStatus = PairStatus.Paired → np.mEncrypted = false →
      (privateReceivedPackage env np s).dev = s.dev ∧
      (privateReceivedPackage env np s).config = s.config ∧
      (privateReceivedPackage env np s).trace = s.trace ++ [Event.receivedPackage np]) := by
  constructor
  · intro hst
    have hp : s.dev.isPaired = false := by simp [Device.isPaired, hst]
    have hrun : privateReceivedPackage env np s = s := by
      simp [privateReceivedPackage, htype, hp]
    rw [hrun]
    exact ⟨rfl, rfl, rfl⟩
  · intro hst henc
    have hp : s.dev.isPaired = true := by simp [Device.isPaired, hst]
    have hrun : privateReceivedPackage env np s = s.emit (Event.receivedPackage np) := by
      simp [privateReceivedPackage, htype, hp, henc]
    rw [hrun]
    exact ⟨rfl, rfl, rfl⟩

theorem non_pair_receive_witness :
    (privateReceivedPackage sampleEnv (peerPingPackage false)
        (sampleState PairStatus.PairRequested [lanLink])).trace = [] ∧
    (privateReceivedPackage sampleEnv (peerPingPackage false)
        (sampleState PairStatus.Paired [lanLink])).trace
      = [Event.receivedPackage (peerPingPackage false)] :=
  ⟨((non_pair_receive sampleEnv (sampleState PairStatus.PairRequested [lanLink])
      (peerPingPackage false) (by decide)).1 (by decide)).2.2,
   ((non_pair_receive sampleEnv (sampleState PairStatus.Paired [lanLink])
      (peerPingPackage false) (by decide)).2 rfl rfl).2.2⟩

/-- C12, as the claim states it, fails: with a `decrypt` that opens nothing and leaves its
output argument untouched, a Paired device still emits `receivedPackage`, carrying the empty
envelope that was constructed to receive the plaintext. -/
theorem failed_decrypt_is_forwarded :
    (privateReceivedPackage failingDecryptEnv (peerPingPackage true)
        (sampleState PairStatus.Paired [lanLink])).trace
      = [Event.receivedPackage
          { mId := 0, mType := "", mEncrypted := false, mBody := [], mVersion := 5 }] := by
  decide

/-- C12 amended: a Paired device that receives an encrypted envelope other than a pair
envelope emits `receivedPackage` exactly once, with whatever `decrypt` (given the private key
read from the group `myself`) leaves in its output argument, which starts as a new envelope
of empty type; this is so whether or not the envelope could be opened.  Device and persisted
store stay as they were. -/
theorem encrypted_receive_forwards_decrypt_output (env : Env) (s : State) (np : NetworkPackage)
    (hst : s.dev.m_pairStatus = PairStatus.Paired)
    (htype : np.mType ≠ PACKAGE_TYPE_PAIR) (henc : np.mEncrypted = true) :
    (privateReceivedPackage env np s).dev = s.dev ∧
    (privateReceivedPackage env np s).config = s.config ∧
    (privateReceivedPackage env np s).trace = s.trace ++
      [Event.receivedPackage
        (env.decrypt np (env.privateKeyFromBase64 (s.config.readMyself env "privateKey"))
          { mId := s.nextPackageId, mType := "", mEncrypted := false, mBody := [],
            mVersion := env.protocolVersion })] := by
  have hp : s.dev.isPaired = true := by simp [Device.isPaired, hst]
  have hrun : privateReceivedPackage env np s =
      ({ s with nextPackageId := s.nextPackageId + 1 }).emit
        (Event.receivedPackage
          (env.decrypt np (env.privateKeyFromBase64 (s.config.readMyself env "privateKey"))
            { mId := s.nextPackageId, mType := "", mEncrypted := false, mBody := [],
              mVersion := env.protocolVersion })) := by
    simp [privateReceivedPackage, htype, hp, henc, newNetworkPackage]
  rw [hrun]
  exact ⟨rfl, rfl, rfl⟩

theorem encrypted_receive_forwards_decrypt_output_witness :
    (privateReceivedPackage sampleEnv (peerPingPackage true)
        (sampleState PairStatus.Paired [lanLink])).dev
      = (sampleState PairStatus.Paired [lanLink]).dev :=
  (encrypted_receive_forwards_decrypt_output sampleEnv (sampleState PairStatus.Paired [lanLink])
    (peerPingPackage true) rfl (by decide) rfl).1

end KdeConnect

/-! ## The loop of `reloadPlugins` -/

namespace KdeConnect

theorem QMap.mem_keys_insert {α : Type} (m : QMap α) (key : String) (v : α) (p : String) :
    p ∈ (m.insert key v).keys ↔ p = key ∨ p ∈ m.keys := by
  induction m with
  | nil => simp [QMap.insert, QMap.keys]
  | cons e rest ih =>
    obtain ⟨k, w⟩ := e
    by_cases h1 : k = key
    · subst h1
      simp [QMap.insert, QMap.keys]
    · by_cases h2 : qstringLt key k = true
      · simp [QMap.insert, QMap.keys, h1, h2]
      · have ih2 : p ∈ List.map Prod.fst (QMap.insert rest key v)
            ↔ p = key ∨ p ∈ List.map Prod.fst rest := ih
        have hstep : QMap.insert ((k, w) :: rest) key v = (k, w) :: QMap.insert rest key v := by
          simp [QMap.insert, h1, h2]
        rw [hstep]
        show p ∈ List.map Prod.fst ((k, w) :: QMap.insert rest key v)
          ↔ p = key ∨ p ∈ List.map Prod.fst ((k, w) :: rest)
        rw [List.map_cons, List.map_cons, List.mem_cons, List.mem_cons, ih2]
        tauto

theorem QMap.mem_remove {α : Type} (m : QMap α) (key : String) (e : String × α) :
    e ∈ m.remove key ↔ e ∈ m ∧ e.1 ≠ key := by
  simp [QMap.remove]

theorem QMap.value_eq_none {α : Type} (m : QMap α) (key : String)
    (h : m.value key = none) : ∀ e ∈ m, e.1 ≠ key := by
  induction m with
  | nil => simp
  | cons e rest ih =>
    obtain ⟨k, w⟩ := e
    by_cases h1 : k = key
    · simp [QMap.value, h1] at h
    · have hrest : QMap.value rest key = none := by simpa [QMap.value, h1] using h
      intro x hx
      rcases List.mem_cons.mp hx with heq | hin
      · subst heq
        exact h1
      · exact ih hrest x hin

theorem QMap.value_remove_ne {α : Type} (m : QMap α) (key other : String)
    (hne : key ≠ other) : (m.remove key).value other = m.value other := by
  induction m with
  | nil => simp [QMap.remove, QMap.value]
  | cons e rest ih =>
    obtain ⟨k, w⟩ := e
    by_cases h1 : k = key
    · subst h1
      have hstep : QMap.remove ((k, w) :: rest) k = QMap.remove rest k := by
        simp [QMap.remove]
      rw [hstep, ih]
      simp [QMap.value, hne]
    · have hstep : QMap.remove ((k, w) :: rest) key = (k, w) :: QMap.remove rest key := by
        simp [QMap.remove, h1]
      rw [hstep]
      simp only [QMap.value]
      rw [ih]

/-- The test `enabled` computed on lines 84-86 is `enabledFor`. -/
theorem reloadStep_disabled (env : Env) (id : String) (acc : ReloadAcc) (name : String)
    (h : enabledFor env id name = false) : reloadStep env id acc name = acc := by
  unfold reloadStep
  unfold enabledFor at h
  cases hv : (env.pluginStates id).value (name ++ "Enabled") with
  | none => simp [hv] at h; simp [hv, h]
  | some v => simp [hv] at h; simp [hv, h]

theorem reloadStep_reuse (env : Env) (id : String) (acc : ReloadAcc) (name : String)
    (p : KdeConnectPlugin) (h : enabledFor env id name = true)
    (hv : acc.m_plugins.value name = some p) :
    reloadStep env id acc name =
      { acc with newPluginMap := acc.newPluginMap.insert name p,
                 m_plugins := acc.m_plugins.remove name } := by
  unfold reloadStep
  unfold enabledFor at h
  cases hs : (env.pluginStates id).value (name ++ "Enabled") with
  | none => simp [hs] at h; simp [hs, h, hv]
  | some v => simp [hs] at h; simp [hs, h, hv]

theorem reloadStep_instantiate (env : Env) (id : String) (acc : ReloadAcc) (name : String)
    (h : enabledFor env id name = true) (hv : acc.m_plugins.value name = none) :
    reloadStep env id acc name =
      { acc with
        newPluginMap := acc.newPluginMap.insert name ⟨acc.st.nextPluginPtr⟩,
        st := { acc.st with
          trace := acc.st.trace ++ [Event.pluginInstantiated name ⟨acc.st.nextPluginPtr⟩],
          nextPluginPtr := acc.st.nextPluginPtr + 1 } } := by
  unfold reloadStep
  unfold enabledFor at h
  cases hs : (env.pluginStates id).value (name ++ "Enabled") with
  | none => simp [hs] at h; simp [hs, h, hv, State.emit]
  | some v => simp [hs] at h; simp [hs, h, hv, State.emit]

end KdeConnect

namespace KdeConnect

/-- The three ways one iteration of the loop can go. -/
theorem reloadStep_cases (env : Env) (id : String) (acc : ReloadAcc) (name : String) :
    (enabledFor env id name = false ∧ reloadStep env id acc name = acc) ∨
    (∃ p, enabledFor env id name = true ∧ acc.m_plugins.value name = some p ∧
      reloadStep env id acc name =
        { acc with newPluginMap := acc.newPluginMap.insert name p,
                   m_plugins := acc.m_plugins.remove name }) ∨
    (enabledFor env id name = true ∧ acc.m_plugins.value name = none ∧
      reloadStep env id acc name =
        { acc with
          newPluginMap := acc.newPluginMap.insert name ⟨acc.st.nextPluginPtr⟩,
          st := { acc.st with
            trace := acc.st.trace ++ [Event.pluginInstantiated name ⟨acc.st.nextPluginPtr⟩],
            nextPluginPtr := acc.st.nextPluginPtr + 1 } }) := by
  cases he : enabledFor env id name with
  | false => exact Or.inl ⟨rfl, reloadStep_disabled env id acc name he⟩
  | true =>
    cases hv : acc.m_plugins.value name with
    | some p => exact Or.inr (Or.inl ⟨p, rfl, rfl, reloadStep_reuse env id acc name p he hv⟩)
    | none => exact Or.inr (Or.inr ⟨rfl, rfl, reloadStep_instantiate env id acc name he hv⟩)

/-- The loop touches neither the device nor the store; it only adds instantiations to the
trace. -/
theorem reloadLoop_frame (env : Env) (id : String) (names : List String) (acc : ReloadAcc) :
    (names.foldl (reloadStep env id) acc).st.dev = acc.st.dev ∧
    (names.foldl (reloadStep env id) acc).st.config = acc.st.config ∧
    (names.foldl (reloadStep env id) acc).st.nextPackageId = acc.st.nextPackageId ∧
    ∃ created, (names.foldl (reloadStep env id) acc).st.trace = acc.st.trace ++ created ∧
      ∀ e ∈ created, ∃ n p, e = Event.pluginInstantiated n p := by
  induction names generalizing acc with
  | nil => exact ⟨rfl, rfl, rfl, [], by simp, by simp⟩
  | cons name rest ih =>
    rw [List.foldl_cons]
    obtain ⟨h1, h2, h3, created, h4, h5⟩ := ih (reloadStep env id acc name)
    rcases reloadStep_cases env id acc name with ⟨_, hs⟩ | ⟨p, _, _, hs⟩ | ⟨_, _, hs⟩
    · rw [hs] at h1 h2 h3 h4 ⊢
      exact ⟨h1, h2, h3, created, h4, h5⟩
    · rw [hs] at h1 h2 h3 h4 ⊢
      exact ⟨h1, h2, h3, created, h4, h5⟩
    · rw [hs] at h1 h2 h3 h4 ⊢
      refine ⟨h1, h2, h3,
        Event.pluginInstantiated name ⟨acc.st.nextPluginPtr⟩ :: created, ?_, ?_⟩
      · rw [h4]
        simp
      · intro e he
        rcases List.mem_cons.mp he with heq | hin
        · exact ⟨name, ⟨acc.st.nextPluginPtr⟩, heq⟩
        · exact h5 e hin

/-- Names bound by the loop: those already bound plus the enabled names it went through. -/
theorem reloadLoop_keys (env : Env) (id : String) (names : List String) (acc : ReloadAcc)
    (p : String) :
    p ∈ (names.foldl (reloadStep env id) acc).newPluginMap.keys ↔
      p ∈ acc.newPluginMap.keys ∨ (p ∈ names ∧ enabledFor env id p = true) := by
  induction names generalizing acc with
  | nil => simp
  | cons name rest ih =>
    rw [List.foldl_cons, ih (reloadStep env id acc name)]
    rcases reloadStep_cases env id acc name with ⟨he, hs⟩ | ⟨q, he, _, hs⟩ | ⟨he, _, hs⟩
    · rw [hs]
      constructor
      · rintro (h | ⟨h, h2⟩)
        · exact Or.inl h
        · exact Or.inr ⟨List.mem_cons_of_mem _ h, h2⟩
      · rintro (h | ⟨h, h2⟩)
        · exact Or.inl h
        · rcases List.mem_cons.mp h with heq | hin
          · subst heq
            rw [he] at h2
            exact absurd h2 (by decide)
          · exact Or.inr ⟨hin, h2⟩
    · rw [hs]
      simp only [QMap.mem_keys_insert]
      constructor
      · rintro ((h | h) | ⟨h, h2⟩)
        · subst h
          exact Or.inr ⟨List.mem_cons_self _ _, he⟩
        · exact Or.inl h
        · exact Or.inr ⟨List.mem_cons_of_mem _ h, h2⟩
      · rintro (h | ⟨h, h2⟩)
        · exact Or.inl (Or.inr h)
        · rcases List.mem_cons.mp h with heq | hin
          · exact Or.inl (Or.inl heq)
          · exact Or.inr ⟨hin, h2⟩
    · rw [hs]
      simp only [QMap.mem_keys_insert]
      constructor
      · rintro ((h | h) | ⟨h, h2⟩)
        · subst h
          exact Or.inr ⟨List.mem_cons_self _ _, he⟩
        · exact Or.inl h
        · exact Or.inr ⟨List.mem_cons_of_mem _ h, h2⟩
      · rintro (h | ⟨h, h2⟩)
        · exact Or.inl (Or.inr h)
        · rcases List.mem_cons.mp h with heq | hin
          · exact Or.inl (Or.inl heq)
          · exact Or.inr ⟨hin, h2⟩

/-- Entries left in `m_plugins` by the loop: those whose name it did not move. -/
theorem reloadLoop_left (env : Env) (id : String) (names : List String) (acc : ReloadAcc)
    (e : String × KdeConnectPlugin) :
    e ∈ (names.foldl (reloadStep env id) acc).m_plugins ↔
      e ∈ acc.m_plugins ∧ ¬ (e.1 ∈ names ∧ enabledFor env id e.1 = true) := by
  induction names generalizing acc with
  | nil => simp
  | cons name rest ih =>
    rw [List.foldl_cons, ih (reloadStep env id acc name)]
    rcases reloadStep_cases env id acc name with ⟨he, hs⟩ | ⟨q, he, _, hs⟩ | ⟨he, hv, hs⟩
    · rw [hs]
      constructor
      · rintro ⟨h1, h2⟩
        refine ⟨h1, ?_⟩
        rintro ⟨h3, h4⟩
        rcases List.mem_cons.mp h3 with heq | hin
        · rw [heq, he] at h4
          exact absurd h4 (by decide)
        · exact h2 ⟨hin, h4⟩
      · rintro ⟨h1, h2⟩
        exact ⟨h1, fun ⟨h3, h4⟩ => h2 ⟨List.mem_cons_of_mem _ h3, h4⟩⟩
    · rw [hs]
      simp only [QMap.mem_remove]
      constructor
      · rintro ⟨⟨h1, hne⟩, h2⟩
        refine ⟨h1, ?_⟩
        rintro ⟨h3, h4⟩
        rcases List.mem_cons.mp h3 with heq | hin
        · exact hne heq
        · exact h2 ⟨hin, h4⟩
      · rintro ⟨h1, h2⟩
        refine ⟨⟨h1, ?_⟩, fun ⟨h3, h4⟩ => h2 ⟨List.mem_cons_of_mem _ h3, h4⟩⟩
        intro heq
        exact h2 ⟨by rw [heq]; exact List.mem_cons_self _ _, by rw [heq]; exact he⟩
    · rw [hs]
      constructor
      · rintro ⟨h1, h2⟩
        refine ⟨h1, ?_⟩
        rintro ⟨h3, h4⟩
        rcases List.mem_cons.mp h3 with heq | hin
        · exact QMap.value_eq_none _ _ hv e h1 heq
        · exact h2 ⟨hin, h4⟩
      · rintro ⟨h1, h2⟩
        exact ⟨h1, fun ⟨h3, h4⟩ => h2 ⟨List.mem_cons_of_mem _ h3, h4⟩⟩

end KdeConnect

/-! ## Plugin binding -/

namespace KdeConnect

/-- The state `reloadPlugins` returns for a paired and reachable device, in terms of what
the loop over the plugin list leaves. -/
theorem reloadPlugins_ready (env : Env) (s : State)
    (h : (s.dev.isPaired && s.dev.isReachable) = true) :
    reloadPlugins env s =
      { dev := { s.dev with m_plugins :=
          (env.pluginList.foldl (reloadStep env s.dev.m_deviceId)
            ⟨[], s.dev.m_plugins, s⟩).newPluginMap },
        config := s.config,
        trace := (env.pluginList.foldl (reloadStep env s.dev.m_deviceId)
              ⟨[], s.dev.m_plugins, s⟩).st.trace
          ++ (env.pluginList.foldl (reloadStep env s.dev.m_deviceId)
              ⟨[], s.dev.m_plugins, s⟩).m_plugins.values.map Event.pluginDestroyed
          ++ (env.pluginList.foldl (reloadStep env s.dev.m_deviceId)
              ⟨[], s.dev.m_plugins, s⟩).newPluginMap.values.map Event.pluginConnected
          ++ [Event.pluginsChanged],
        nextPackageId := s.nextPackageId,
        nextPluginPtr := (env.pluginList.foldl (reloadStep env s.dev.m_deviceId)
            ⟨[], s.dev.m_plugins, s⟩).st.nextPluginPtr } := by
  have hf := reloadLoop_frame env s.dev.m_deviceId env.pluginList ⟨[], s.dev.m_plugins, s⟩
  simp only [reloadPlugins, h, if_true, State.emitAll, State.emit]
  generalize env.pluginList.foldl (reloadStep env s.dev.m_deviceId) ⟨[], s.dev.m_plugins, s⟩
    = acc at hf ⊢
  obtain ⟨nm, mp, st⟩ := acc
  obtain ⟨d, c, t, a, b⟩ := st
  obtain ⟨h1, h2, h3, _⟩ := hf
  simp only at h1 h2 h3
  subst h1 h2 h3
  simp

/-- C18: `reloadPlugins` leaves the plugin map empty when the device is not both Paired and
reachable; otherwise the names in the map are exactly the names of the loader's list for
which `enabledFor` holds.  The trace grows by instantiations, then one `pluginDestroyed` per
entry left over, which covers every plugin bound before whose name is not in the new map,
then one `pluginConnected` per entry of the new map, then `pluginsChanged`.  Nothing else of
the device, and nothing of the store, changes. -/
theorem reloadPlugins_spec (env : Env) (s : State) :
    (¬ (s.dev.m_pairStatus = PairStatus.Paired ∧ s.dev.m_deviceLinks ≠ []) →
      (reloadPlugins env s).dev.m_plugins = []) ∧
    (s.dev.m_pairStatus = PairStatus.Paired → s.dev.m_deviceLinks ≠ [] →
      ∀ p, p ∈ (reloadPlugins env s).dev.m_plugins.keys ↔
        p ∈ env.pluginList ∧ enabledFor env s.dev.m_deviceId p = true) ∧
    (∃ (created : List Event) (destroyed : List KdeConnectPlugin),
      (reloadPlugins env s).trace = s.trace ++ created
        ++ destroyed.map Event.pluginDestroyed
        ++ (reloadPlugins env s).dev.m_plugins.values.map Event.pluginConnected
        ++ [Event.pluginsChanged] ∧
      (∀ e ∈ created, ∃ n p, e = Event.pluginInstantiated n p) ∧
      (∀ n p, (n, p) ∈ s.dev.m_plugins → n ∉ (reloadPlugins env s).dev.m_plugins.keys →
        p ∈ destroyed)) ∧
    (reloadPlugins env s).dev
      = { s.dev with m_plugins := (reloadPlugins env s).dev.m_plugins } ∧
    (reloadPlugins env s).config = s.config := by
  by_cases hready : (s.dev.isPaired && s.dev.isReachable) = true
  · have hst : s.dev.m_pairStatus = PairStatus.Paired := by
      simp [Device.isPaired] at hready
      exact hready.1
    have hrun := reloadPlugins_ready env s hready
    obtain ⟨_, _, _, created, hc1, hc2⟩ :=
      reloadLoop_frame env s.dev.m_deviceId env.pluginList ⟨[], s.dev.m_plugins, s⟩
    have hkeys := reloadLoop_keys env s.dev.m_deviceId env.pluginList ⟨[], s.dev.m_plugins, s⟩
    have hleft := reloadLoop_left env s.dev.m_deviceId env.pluginList ⟨[], s.dev.m_plugins, s⟩
    rw [hrun]
    refine ⟨?_, ?_, ?_, rfl, rfl⟩
    · intro hn
      have hl : s.dev.m_deviceLinks ≠ [] := by
        intro hl
        simp [Device.isReachable, hl] at hready
      exact absurd ⟨hst, hl⟩ hn
    · intro _ _ p
      rw [hkeys p]
      simp [QMap.keys]
    · refine ⟨created, (env.pluginList.foldl (reloadStep env s.dev.m_deviceId)
        ⟨[], s.dev.m_plugins, s⟩).m_plugins.values, ?_, hc2, ?_⟩
      · simp only at hc1
        rw [hc1]
      · intro n p hmem hnot
        have hnot2 : ¬ (n ∈ env.pluginList ∧ enabledFor env s.dev.m_deviceId n = true) := by
          intro hc
          exact hnot ((hkeys n).mpr (Or.inr hc))
        have hin := (hleft (n, p)).mpr ⟨hmem, hnot2⟩
        exact List.mem_map.mpr ⟨(n, p), hin, rfl⟩
  · have hready2 : (s.dev.isPaired && s.dev.isReachable) = false := by simpa using hready
    rw [reloadPlugins_unloads env s hready2]
    refine ⟨fun _ => rfl, ?_, ?_, rfl, rfl⟩
    · intro hst hl
      have hr : s.dev.isReachable = true := by
        cases hc : s.dev.m_deviceLinks with
        | nil => exact absurd hc hl
        | cons a l => simp [Device.isReachable, hc]
      simp [Device.isPaired, hst, hr] at hready
    · refine ⟨[], s.dev.m_plugins.values, by simp [QMap.values], by simp, ?_⟩
      intro n p hmem _
      exact List.mem_map.mpr ⟨(n, p), hmem, rfl⟩

theorem reloadPlugins_spec_witness :
    (reloadPlugins sampleEnv (sampleState PairStatus.NotPaired [lanLink])).dev.m_plugins = [] ∧
    ("ping" ∈ (reloadPlugins sampleEnv (sampleState PairStatus.Paired [lanLink])).dev.m_plugins.keys
      ↔ "ping" ∈ sampleEnv.pluginList ∧ enabledFor sampleEnv "B" "ping" = true) :=
  ⟨(reloadPlugins_spec sampleEnv (sampleState PairStatus.NotPaired [lanLink])).1 (by decide),
   (reloadPlugins_spec sampleEnv (sampleState PairStatus.Paired [lanLink])).2.1 rfl (by decide)
      "ping"⟩

end KdeConnect

/-! ## Reloading twice -/

namespace KdeConnect

/-- The map obtained by storing a list of bindings one after the other. -/
theorem QMap.value_foldl_insert_of_not_mem {α : Type} (pairs : List (String × α))
    (m : QMap α) (key : String) (h : key ∉ pairs.map Prod.fst) :
    (pairs.foldl (fun acc e => QMap.insert acc e.1 e.2) m).value key = m.value key := by
  induction pairs generalizing m with
  | nil => rfl
  | cons e rest ih =>
    have hne : e.1 ≠ key := by
      intro hc
      exact h (by simp [hc])
    have hrest : key ∉ rest.map Prod.fst := by
      intro hc
      exact h (by simp only [List.map_cons, List.mem_cons]; exact Or.inr hc)
    rw [List.foldl_cons, ih _ hrest, QMap.value_insert_ne _ _ _ _ hne]

theorem QMap.value_foldl_insert {α : Type} (pairs : List (String × α)) (m : QMap α)
    (hnodup : (pairs.map Prod.fst).Nodup) :
    ∀ e ∈ pairs, (pairs.foldl (fun acc e => QMap.insert acc e.1 e.2) m).value e.1
      = some e.2 := by
  induction pairs generalizing m with
  | nil => simp
  | cons x rest ih =>
    have hx : x.1 ∉ rest.map Prod.fst := (List.nodup_cons.mp hnodup).1
    have hrest : (rest.map Prod.fst).Nodup := (List.nodup_cons.mp hnodup).2
    intro e he
    rw [List.foldl_cons]
    rcases List.mem_cons.mp he with heq | hin
    · subst heq
      rw [QMap.value_foldl_insert_of_not_mem rest _ _ hx, QMap.value_insert_self]
    · exact ih _ hrest e hin

/-- The bindings the loop stores, in order: one per enabled name of the list. -/
theorem reloadLoop_pairs (env : Env) (id : String) (names : List String) (acc : ReloadAcc) :
    ∃ pairs : List (String × KdeConnectPlugin),
      (names.foldl (reloadStep env id) acc).newPluginMap
        = pairs.foldl (fun m e => QMap.insert m e.1 e.2) acc.newPluginMap ∧
      pairs.map Prod.fst = names.filter (fun n => enabledFor env id n) := by
  induction names generalizing acc with
  | nil => exact ⟨[], rfl, rfl⟩
  | cons name rest ih =>
    obtain ⟨pairs, h1, h2⟩ := ih (reloadStep env id acc name)
    rw [List.foldl_cons]
    rcases reloadStep_cases env id acc name with ⟨he, hs⟩ | ⟨q, he, _, hs⟩ | ⟨he, _, hs⟩
    · rw [hs] at h1 ⊢
      exact ⟨pairs, h1, by simp [List.filter_cons, he, h2]⟩
    · rw [hs] at h1 ⊢
      exact ⟨(name, q) :: pairs, by rw [h1]; rfl, by simp [List.filter_cons, he, h2]⟩
    · rw [hs] at h1 ⊢
      exact ⟨(name, ⟨acc.st.nextPluginPtr⟩) :: pairs, by rw [h1]; rfl,
        by simp [List.filter_cons, he, h2]⟩

/-- Running the loop when every enabled name is already bound: the bindings are moved over
as they are and nothing is instantiated. -/
theorem reloadLoop_replay (env : Env) (id : String) (names : List String)
    (pairs : List (String × KdeConnectPlugin)) (acc : ReloadAcc)
    (hnames : pairs.map Prod.fst = names.filter (fun n => enabledFor env id n))
    (hnodup : (pairs.map Prod.fst).Nodup)
    (hbound : ∀ e ∈ pairs, acc.m_plugins.value e.1 = some e.2) :
    (names.foldl (reloadStep env id) acc).newPluginMap
      = pairs.foldl (fun m e => QMap.insert m e.1 e.2) acc.newPluginMap ∧
    (names.foldl (reloadStep env id) acc).st = acc.st := by
  induction names generalizing acc pairs with
  | nil =>
    have hp : pairs = [] := by simpa using hnames
    subst hp
    exact ⟨rfl, rfl⟩
  | cons name rest ih =>
    rw [List.foldl_cons]
    cases he : enabledFor env id name with
    | false =>
      rw [reloadStep_disabled env id acc name he]
      exact ih pairs acc (by simpa [List.filter_cons, he] using hnames) hnodup hbound
    | true =>
      cases pairs with
      | nil => simp [List.filter_cons, he] at hnames
      | cons x prest =>
        have hx : x.1 = name := by
          have := hnames
          simp [List.filter_cons, he] at this
          exact this.1
        have hrest : prest.map Prod.fst = rest.filter (fun n => enabledFor env id n) := by
          have := hnames
          simp [List.filter_cons, he] at this
          exact this.2
        have hxn : x.1 ∉ prest.map Prod.fst := (List.nodup_cons.mp hnodup).1
        have hnd : (prest.map Prod.fst).Nodup := (List.nodup_cons.mp hnodup).2
        have hv : acc.m_plugins.value name = some x.2 := by
          rw [← hx]
          exact hbound x (List.mem_cons_self _ _)
        rw [reloadStep_reuse env id acc name x.2 he hv]
        have hb2 : ∀ e ∈ prest,
            QMap.value (QMap.remove acc.m_plugins name) e.1 = some e.2 := by
          intro e hin
          have hne : name ≠ e.1 := by
            intro hc
            apply hxn
            rw [hx, hc]
            exact List.mem_map.mpr ⟨e, hin, rfl⟩
          rw [QMap.value_remove_ne _ _ _ hne]
          exact hbound e (List.mem_cons_of_mem _ hin)
        obtain ⟨h1, h2⟩ := ih prest
          { acc with newPluginMap := acc.newPluginMap.insert name x.2,
                     m_plugins := acc.m_plugins.remove name } hrest hnd hb2
        refine ⟨?_, h2⟩
        rw [h1, List.foldl_cons, hx]

/-- A name the loop does not go through keeps the binding it had in the new map. -/
theorem reloadLoop_value_other (env : Env) (id : String) (names : List String)
    (acc : ReloadAcc) (n : String) (hn : n ∉ names) :
    (names.foldl (reloadStep env id) acc).newPluginMap.value n = acc.newPluginMap.value n := by
  induction names generalizing acc with
  | nil => rfl
  | cons name rest ih =>
    have hne : name ≠ n := by
      intro hc
      exact hn (by simp [hc])
    have hrest : n ∉ rest := fun hc => hn (List.mem_cons_of_mem _ hc)
    rw [List.foldl_cons, ih _ hrest]
    rcases reloadStep_cases env id acc name with ⟨_, hs⟩ | ⟨q, _, _, hs⟩ | ⟨_, _, hs⟩
    · rw [hs]
    · rw [hs]
      exact QMap.value_insert_ne _ _ _ _ hne
    · rw [hs]
      exact QMap.value_insert_ne _ _ _ _ hne

/-- A plugin bound under an enabled name of a duplicate-free list is bound to the same
instance in the new map. -/
theorem reloadLoop_keeps (env : Env) (id : String) (names : List String) (acc : ReloadAcc)
    (hnodup : names.Nodup) (n : String) (p : KdeConnectPlugin)
    (hv : acc.m_plugins.value n = some p) (hn : n ∈ names)
    (he : enabledFor env id n = true) :
    (names.foldl (reloadStep env id) acc).newPluginMap.value n = some p := by
  induction names generalizing acc with
  | nil => simp at hn
  | cons name rest ih =>
    have hname : name ∉ rest := (List.nodup_cons.mp hnodup).1
    have hrest : rest.Nodup := (List.nodup_cons.mp hnodup).2
    rw [List.foldl_cons]
    by_cases heq : name = n
    · subst heq
      rw [reloadLoop_value_other env id rest _ name hname,
        reloadStep_reuse env id acc name p he hv]
      exact QMap.value_insert_self _ _ _
    · have hin : n ∈ rest := by
        rcases List.mem_cons.mp hn with h | h
        · exact absurd h.symm heq
        · exact h
      apply ih _ hrest _ hin
      rcases reloadStep_cases env id acc name with ⟨_, hs⟩ | ⟨q, _, _, hs⟩ | ⟨_, _, hs⟩
      · rw [hs]
        exact hv
      · rw [hs]
        show QMap.value (QMap.remove acc.m_plugins name) n = some p
        rw [QMap.value_remove_ne _ _ _ heq]
        exact hv
      · rw [hs]
        exact hv

end KdeConnect

namespace KdeConnect

/-- What `reloadPlugins` never touches: the device apart from its plugin map, the store,
and the envelope counter. -/
theorem reloadPlugins_frame (env : Env) (s : State) :
    (reloadPlugins env s).dev
      = { s.dev with m_plugins := (reloadPlugins env s).dev.m_plugins } ∧
    (reloadPlugins env s).config = s.config ∧
    (reloadPlugins env s).nextPackageId = s.nextPackageId := by
  by_cases hready : (s.dev.isPaired && s.dev.isReachable) = true
  · rw [reloadPlugins_ready env s hready]
    exact ⟨rfl, rfl, rfl⟩
  · rw [reloadPlugins_unloads env s (by simpa using hready)]
    exact ⟨rfl, rfl, rfl⟩

/-- A plugin map that is not empty after `reloadPlugins` means a Paired device with a
link. -/
theorem reloadPlugins_nonempty (env : Env) (s : State)
    (h : (reloadPlugins env s).dev.m_plugins ≠ []) :
    s.dev.m_pairStatus = PairStatus.Paired ∧ s.dev.m_deviceLinks ≠ [] := by
  by_cases hready : (s.dev.isPaired && s.dev.isReachable) = true
  · simp only [Device.isPaired, Device.isReachable, Bool.and_eq_true, decide_eq_true_eq,
      Bool.not_eq_true', List.isEmpty_eq_false] at hready
    exact hready
  · rw [reloadPlugins_unloads env s (by simpa using hready)] at h
    exact absurd rfl h

/-- C19: with a plugin list free of duplicate names, a second `reloadPlugins` right after
the first leaves the device (plugin map included: same names, same instances) and the store
as the first left them, instantiates and destroys nothing (the trace only grows by one
`pluginConnected` per bound plugin and `pluginsChanged`, the plugin counter is unchanged), and
a plugin bound before a call under a name that is enabled on a Paired reachable device is
bound to the very same instance after it. -/
theorem reloadPlugins_idempotent (env : Env) (s : State) (hnodup : env.pluginList.Nodup) :
    (reloadPlugins env (reloadPlugins env s)).dev = (reloadPlugins env s).dev ∧
    (reloadPlugins env (reloadPlugins env s)).config = (reloadPlugins env s).config ∧
    (reloadPlugins env (reloadPlugins env s)).nextPluginPtr
      = (reloadPlugins env s).nextPluginPtr ∧
    (reloadPlugins env (reloadPlugins env s)).trace
      = (reloadPlugins env s).trace
        ++ (reloadPlugins env s).dev.m_plugins.values.map Event.pluginConnected
        ++ [Event.pluginsChanged] ∧
    (∀ n p, s.dev.m_plugins.value n = some p → n ∈ env.pluginList →
      enabledFor env s.dev.m_deviceId n = true →
      s.dev.m_pairStatus = PairStatus.Paired → s.dev.m_deviceLinks ≠ [] →
      (reloadPlugins env s).dev.m_plugins.value n = some p) := by
  by_cases hready : (s.dev.isPaired && s.dev.isReachable) = true
  · have hrun1 := reloadPlugins_ready env s hready
    obtain ⟨pairs, hpairs, hnames⟩ :=
      reloadLoop_pairs env s.dev.m_deviceId env.pluginList ⟨[], s.dev.m_plugins, s⟩
    have hkeys := reloadLoop_keys env s.dev.m_deviceId env.pluginList ⟨[], s.dev.m_plugins, s⟩
    have hnd : (pairs.map Prod.fst).Nodup := by
      rw [hnames]
      exact hnodup.filter _
    have hid : (reloadPlugins env s).dev.m_deviceId = s.dev.m_deviceId := by rw [hrun1]
    have hR : (reloadPlugins env s).dev.m_plugins
        = pairs.foldl (fun m e => QMap.insert m e.1 e.2) [] := by
      rw [hrun1]
      exact hpairs
    have hready1 : ((reloadPlugins env s).dev.isPaired
        && (reloadPlugins env s).dev.isReachable) = true := by
      rw [hrun1]
      exact hready
    have hrun2 := reloadPlugins_ready env (reloadPlugins env s) hready1
    rw [hid] at hrun2
    have hbound : ∀ e ∈ pairs, QMap.value (reloadPlugins env s).dev.m_plugins e.1 = some e.2 := by
      rw [hR]
      exact QMap.value_foldl_insert pairs [] hnd
    obtain ⟨hnew, hst⟩ := reloadLoop_replay env s.dev.m_deviceId env.pluginList pairs
      ⟨[], (reloadPlugins env s).dev.m_plugins, reloadPlugins env s⟩ hnames hnd hbound
    have hleft := reloadLoop_left env s.dev.m_deviceId env.pluginList
      ⟨[], (reloadPlugins env s).dev.m_plugins, reloadPlugins env s⟩
    have hempty : (env.pluginList.foldl (reloadStep env s.dev.m_deviceId)
        ⟨[], (reloadPlugins env s).dev.m_plugins, reloadPlugins env s⟩).m_plugins = [] := by
      apply List.eq_nil_iff_forall_not_mem.mpr
      intro e he
      obtain ⟨hin, hnot⟩ := (hleft e).mp he
      apply hnot
      have hk : e.1 ∈ (reloadPlugins env s).dev.m_plugins.keys :=
        List.mem_map.mpr ⟨e, hin, rfl⟩
      rw [hrun1] at hk
      rcases (hkeys e.1).mp hk with h | h
      · simp [QMap.keys] at h
      · exact h
    have hnew2 : (env.pluginList.foldl (reloadStep env s.dev.m_deviceId)
        ⟨[], (reloadPlugins env s).dev.m_plugins, reloadPlugins env s⟩).newPluginMap
        = (reloadPlugins env s).dev.m_plugins := by
      rw [hnew, hR]
    have hframe := reloadPlugins_frame env s
    refine ⟨?_, ?_, ?_, ?_, ?_⟩
    · rw [hrun2, hnew2]
    · rw [hrun2]
    · rw [hrun2, hst]
    · rw [hrun2, hst, hempty, hnew2]
      simp [QMap.values]
    · intro n p hv hn he _ _
      rw [hrun1]
      exact reloadLoop_keeps env s.dev.m_deviceId env.pluginList ⟨[], s.dev.m_plugins, s⟩
        hnodup n p hv hn he
  · have hready2 : (s.dev.isPaired && s.dev.isReachable) = false := by simpa using hready
    rw [reloadPlugins_unloads env s hready2]
    rw [reloadPlugins_unloads env
      { s with
        dev := { s.dev with m_plugins := [] },
        trace := s.trace ++ s.dev.m_plugins.values.map Event.pluginDestroyed
                   ++ [Event.pluginsChanged] } hready2]
    refine ⟨rfl, rfl, rfl, by simp [QMap.values], ?_⟩
    · intro n p _ _ _ hst hl
      have hr : s.dev.isReachable = true := by
        cases hc : s.dev.m_deviceLinks with
        | nil => exact absurd hc hl
        | cons a l => simp [Device.isReachable, hc]
      simp [Device.isPaired, hst, hr] at hready

theorem reloadPlugins_idempotent_witness :
    (reloadPlugins sampleEnv (reloadPlugins sampleEnv
        (sampleState PairStatus.Paired [lanLink]))).dev
      = (reloadPlugins sampleEnv (sampleState PairStatus.Paired [lanLink])).dev :=
  (reloadPlugins_idempotent sampleEnv (sampleState PairStatus.Paired [lanLink])
    (by decide)).1

end KdeConnect

namespace KdeConnect

/-- A refused `requestPair` leaves device and store alone. -/
theorem requestPair_refused_core (env : Env) (s : State)
    (h : s.dev.m_pairStatus = PairStatus.Paired ∨ s.dev.m_pairStatus = PairStatus.PairRequested ∨
        s.dev.m_deviceLinks = []) :
    (requestPair env s).dev = s.dev ∧ (requestPair env s).config = s.config := by
  by_cases h1 : s.dev.m_pairStatus = PairStatus.Paired
  · simp [requestPair, h1, State.emit]
  · by_cases h2 : s.dev.m_pairStatus = PairStatus.PairRequested
    · simp [requestPair, h2, State.emit]
    · have h3 : s.dev.m_deviceLinks = [] := by
        rcases h with h | h | h
        · exact absurd h h1
        · exact absurd h h2
        · exact h
      simp [requestPair, h1, h2, h3, Device.isReachable, State.emit]

end KdeConnect

namespace KdeConnect

/-- What a NotPaired device does with a pair envelope. -/
theorem notPaired_receive_core (env : Env) (s : State) (np : NetworkPackage)
    (hst : s.dev.m_pairStatus = PairStatus.NotPaired) :
    (np.mType = PACKAGE_TYPE_PAIR → np.getBool env "pair" = true →
      privateReceivedPackage env np s =
        { s with
          dev := { s.dev with
            m_publicKey := env.publicKeyFromBase64 (np.getByteArray env "publicKey") },
          trace := s.trace ++
            [Event.notification ("Pairing request from " ++ s.dev.m_deviceName)
              ["Accept", "Reject"]] }) ∧
    (np.mType = PACKAGE_TYPE_PAIR → np.getBool env "pair" = false →
      privateReceivedPackage env np s = s) := by
  have hnp : s.dev.isPaired = false := by simp [Device.isPaired, hst]
  refine ⟨?_, ?_⟩
  · intro htype hpair
    simp [privateReceivedPackage, htype, hpair, hnp, hst, State.emit]
  · intro htype hpair
    simp [privateReceivedPackage, htype, hpair, hnp, hst]

end KdeConnect

/-! ## What each operation can do to the device and the store -/

namespace KdeConnect

/-- Sending changes nothing but the trace. -/
theorem sendPackage_snd (env : Env) (np : NetworkPackage) (s : State) :
    ∃ sent, (sendPackage env np s).2 = s.emitAll sent := by
  obtain ⟨sent, hsent, _, _⟩ := sendLoop_snd env
    (if s.dev.isPaired then env.encrypt np s.dev.m_publicKey else np) s.dev.m_deviceLinks s
  exact ⟨sent, hsent⟩

theorem requestPair_summary (env : Env) (s : State) :
    (requestPair env s).config = s.config ∧
    ((requestPair env s).dev = s.dev ∨
      (s.dev.m_pairStatus = PairStatus.NotPaired ∧
        (requestPair env s).dev =
          { s.dev with
            m_pairStatus := PairStatus.PairRequested,
            pairingTimer := { active := true, interval := 20 * 1000,
                              connections := s.dev.pairingTimer.connections + 1 } })) := by
  by_cases hst : s.dev.m_pairStatus = PairStatus.NotPaired
  · by_cases hlinks : s.dev.m_deviceLinks = []
    · have h := (requestPair_refused_core env s (Or.inr (Or.inr hlinks)))
      exact ⟨h.2, Or.inl h.1⟩
    · rw [requestPair_unfold env s hst hlinks]
      obtain ⟨sent, hsent, _, _⟩ := sendLoop_snd env (pairEnvelope env s) s.dev.m_deviceLinks
        { s with nextPackageId := s.nextPackageId + 1 }
      by_cases hok : (sendLoop env (pairEnvelope env s) s.dev.m_deviceLinks
          { s with nextPackageId := s.nextPackageId + 1 }).1 = true
      · simp only [hok, if_true, hsent]
        exact ⟨rfl, Or.inr ⟨hst, rfl⟩⟩
      · simp only [hok, if_false, hsent]
        exact ⟨rfl, Or.inl rfl⟩
  · have hcase : s.dev.m_pairStatus = PairStatus.Paired
        ∨ s.dev.m_pairStatus = PairStatus.PairRequested ∨ s.dev.m_deviceLinks = [] := by
      cases hc : s.dev.m_pairStatus with
      | NotPaired => exact absurd hc hst
      | PairRequested => exact Or.inr (Or.inl rfl)
      | Paired => exact Or.inl rfl
    have h := requestPair_refused_core env s hcase
    exact ⟨h.2, Or.inl h.1⟩

theorem unpair_summary (env : Env) (s : State) :
    (s.dev.m_pairStatus ≠ PairStatus.Paired ∧ unpair env s = s) ∨
    (s.dev.m_pairStatus = PairStatus.Paired ∧
      (unpair env s).dev = { s.dev with m_pairStatus := PairStatus.NotPaired,
                                        pairingTimer := s.dev.pairingTimer.stop,
                                        m_plugins := [] } ∧
      (unpair env s).config = s.config.deleteDeviceGroup s.dev.m_deviceId) := by
  by_cases hst : s.dev.m_pairStatus = PairStatus.Paired
  · obtain ⟨sent, n, hrun, _, _⟩ := unpair_paired env s hst
    rw [hrun]
    exact Or.inr ⟨hst, rfl, rfl⟩
  · have hp : s.dev.isPaired = false := by simp [Device.isPaired, hst]
    exact Or.inl ⟨hst, by simp [unpair, hp]⟩

/-- An `acceptPairing` whose envelope no link accepts leaves device and store alone. -/
theorem acceptPairing_refused (env : Env) (s : State)
    (h : (sendPackage env (pairEnvelope env s)
      { s with nextPackageId := s.nextPackageId + 1 }).1 = false) :
    (acceptPairing env s).dev = s.dev ∧ (acceptPairing env s).config = s.config := by
  obtain ⟨sent, hsent⟩ := sendPackage_snd env (pairEnvelope env s)
    { s with nextPackageId := s.nextPackageId + 1 }
  have hrun : acceptPairing env s =
      (let r := sendPackage env (pairEnvelope env s) { s with nextPackageId := s.nextPackageId + 1 }
       let c1 := r.2.config.writeDeviceEntry r.2.dev.m_deviceId "publicKey"
         (QVariant.byteArray (env.publicKeyToBase64 r.2.dev.m_publicKey))
       let c2 := c1.writeDeviceEntry r.2.dev.m_deviceId "name"
         (QVariant.string r.2.dev.m_deviceName)
       if r.1 = true then reloadPlugins env { r.2 with config := c2 } else r.2) := by
    simp only [acceptPairing, newNetworkPackage, NetworkPackage.set, pairBody_eq, pairEnvelope]
    simp
    split <;> simp_all
  rw [hrun]
  simp only [h, hsent]
  exact ⟨rfl, rfl⟩

theorem acceptPairing_summary (env : Env) (s : State) :
    ((acceptPairing env s).dev = s.dev ∧ (acceptPairing env s).config = s.config) ∨
    (∃ t : State, t.dev = s.dev ∧
      t.config = KConfig.writeDeviceEntry
          (KConfig.writeDeviceEntry s.config s.dev.m_deviceId "publicKey"
            (QVariant.byteArray (env.publicKeyToBase64 s.dev.m_publicKey)))
          s.dev.m_deviceId "name" (QVariant.string s.dev.m_deviceName) ∧
      acceptPairing env s = reloadPlugins env t) := by
  obtain ⟨sent, hsent⟩ := sendPackage_snd env (pairEnvelope env s)
    { s with nextPackageId := s.nextPackageId + 1 }
  have hrun : acceptPairing env s =
      (let r := sendPackage env (pairEnvelope env s) { s with nextPackageId := s.nextPackageId + 1 }
       let c1 := r.2.config.writeDeviceEntry r.2.dev.m_deviceId "publicKey"
         (QVariant.byteArray (env.publicKeyToBase64 r.2.dev.m_publicKey))
       let c2 := c1.writeDeviceEntry r.2.dev.m_deviceId "name"
         (QVariant.string r.2.dev.m_deviceName)
       if r.1 = true then reloadPlugins env { r.2 with config := c2 } else r.2) := by
    simp only [acceptPairing, newNetworkPackage, NetworkPackage.set, pairBody_eq, pairEnvelope]
    simp
    split <;> simp_all
  rw [hrun]
  by_cases hok : (sendPackage env (pairEnvelope env s)
      { s with nextPackageId := s.nextPackageId + 1 }).1 = true
  · simp only [hok, if_true, hsent]
    exact Or.inr ⟨{ dev := s.dev,
                    config := KConfig.writeDeviceEntry
                      (KConfig.writeDeviceEntry s.config s.dev.m_deviceId "publicKey"
                        (QVariant.byteArray (env.publicKeyToBase64 s.dev.m_publicKey)))
                      s.dev.m_deviceId "name" (QVariant.string s.dev.m_deviceName),
                    trace := s.trace ++ sent,
                    nextPackageId := s.nextPackageId + 1,
                    nextPluginPtr := s.nextPluginPtr }, rfl, rfl, rfl⟩
  · simp only [hok, if_false, hsent]
    exact Or.inl ⟨rfl, rfl⟩

theorem rejectPairing_summary (env : Env) (s : State) :
    (rejectPairing env s).dev = s.dev ∧ (rejectPairing env s).config = s.config := by
  obtain ⟨sent, hsent⟩ := sendPackage_snd env
    ((newNetworkPackage env PACKAGE_TYPE_PAIR s).1.set "pair" (QVariant.bool false))
    (newNetworkPackage env PACKAGE_TYPE_PAIR s).2
  simp only [rejectPairing, hsent]
  exact ⟨rfl, rfl⟩

theorem sendPing_summary (env : Env) (s : State) :
    (sendPing env s).dev = s.dev ∧ (sendPing env s).config = s.config := by
  obtain ⟨sent, hsent⟩ := sendPackage_snd env
    (newNetworkPackage env "kdeconnect.ping" s).1 (newNetworkPackage env "kdeconnect.ping" s).2
  simp only [sendPing, hsent]
  exact ⟨rfl, rfl⟩

theorem pairingTimeout_iterate (n : Nat) (s : State) :
    (Nat.iterate pairingTimeout n s).config = s.config ∧
    ((Nat.iterate pairingTimeout n s).dev = s.dev ∨
      (Nat.iterate pairingTimeout n s).dev
        = { s.dev with m_pairStatus := PairStatus.NotPaired }) := by
  induction n generalizing s with
  | zero => exact ⟨rfl, Or.inl rfl⟩
  | succ k ih =>
    rw [Function.iterate_succ_apply]
    obtain ⟨h1, h2⟩ := ih (pairingTimeout s)
    refine ⟨by rw [h1]; rfl, Or.inr ?_⟩
    rcases h2 with h | h
    · rw [h]
      rfl
    · rw [h]
      rfl

theorem pairingTimerExpires_summary (s : State) :
    (pairingTimerExpires s).config = s.config ∧
    ((pairingTimerExpires s).dev = s.dev ∨
      (s.dev.pairingTimer.active = true ∧
        (pairingTimerExpires s).dev = { s.dev with m_pairStatus := PairStatus.NotPaired })) := by
  by_cases ha : s.dev.pairingTimer.active = true
  · obtain ⟨h1, h2⟩ := pairingTimeout_iterate s.dev.pairingTimer.connections s
    simp only [pairingTimerExpires, ha, if_true]
    refine ⟨h1, ?_⟩
    rcases h2 with h | h
    · exact Or.inl h
    · exact Or.inr ⟨trivial, h⟩
  · simp only [pairingTimerExpires, ha]
    exact ⟨rfl, Or.inl rfl⟩

end KdeConnect

namespace KdeConnect

theorem privateReceivedPackage_summary (env : Env) (np : NetworkPackage) (s : State) :
    ((privateReceivedPackage env np s).dev = s.dev ∧
      (privateReceivedPackage env np s).config = s.config) ∨
    (s.dev.m_pairStatus = PairStatus.PairRequested ∧
      (privateReceivedPackage env np s).dev =
        { s.dev with m_pairStatus := PairStatus.NotPaired,
                     pairingTimer := s.dev.pairingTimer.stop } ∧
      (privateReceivedPackage env np s).config = s.config) ∨
    (s.dev.m_pairStatus = PairStatus.PairRequested ∧ np.mType = PACKAGE_TYPE_PAIR ∧
      np.getBool env "pair" = true ∧
      (privateReceivedPackage env np s).dev =
        { s.dev with m_publicKey := env.publicKeyFromBase64 (np.getByteArray env "publicKey"),
                     m_pairStatus := PairStatus.Paired,
                     pairingTimer := s.dev.pairingTimer.stop } ∧
      (privateReceivedPackage env np s).config =
        KConfig.writeDeviceEntry
          (KConfig.writeDeviceEntry s.config s.dev.m_deviceId "publicKey"
            (QVariant.byteArray (np.getByteArray env "publicKey")))
          s.dev.m_deviceId "name" (QVariant.string s.dev.m_deviceName)) ∨
    (s.dev.m_pairStatus = PairStatus.NotPaired ∧
      (privateReceivedPackage env np s).dev =
        { s.dev with m_publicKey := env.publicKeyFromBase64 (np.getByteArray env "publicKey") } ∧
      (privateReceivedPackage env np s).config = s.config) ∨
    (s.dev.m_pairStatus = PairStatus.Paired ∧
      privateReceivedPackage env np s = unpair env s) := by
  by_cases htype : np.mType = PACKAGE_TYPE_PAIR
  · cases hst : s.dev.m_pairStatus with
    | NotPaired =>
      obtain ⟨h5, h6⟩ := notPaired_receive_core env s np hst
      cases hpair : np.getBool env "pair" with
      | true =>
        rw [h5 htype hpair]
        exact Or.inr (Or.inr (Or.inr (Or.inl ⟨rfl, rfl, rfl⟩)))
      | false =>
        rw [h6 htype hpair]
        exact Or.inl ⟨rfl, rfl⟩
    | PairRequested =>
      have hnp : s.dev.isPaired = false := by simp [Device.isPaired, hst]
      cases hpair : np.getBool env "pair" with
      | true =>
        refine Or.inr (Or.inr (Or.inl ⟨rfl, htype, rfl, ?_, ?_⟩))
        · simp [privateReceivedPackage, htype, hpair, hnp, hst, State.emit]
        · simp [privateReceivedPackage, htype, hpair, hnp, hst, State.emit]
      | false =>
        refine Or.inr (Or.inl ⟨rfl, ?_, ?_⟩)
        · simp [privateReceivedPackage, htype, hpair, hnp, hst, State.emit]
        · simp [privateReceivedPackage, htype, hpair, hnp, hst, State.emit]
    | Paired =>
      have hp : s.dev.isPaired = true := by simp [Device.isPaired, hst]
      cases hpair : np.getBool env "pair" with
      | true =>
        have hrun : privateReceivedPackage env np s = s := by
          simp [privateReceivedPackage, htype, hpair, hp, hst]
        rw [hrun]
        exact Or.inl ⟨rfl, rfl⟩
      | false =>
        refine Or.inr (Or.inr (Or.inr (Or.inr ⟨rfl, ?_⟩)))
        simp [privateReceivedPackage, htype, hpair, hp, hst]
  · left
    by_cases hp : s.dev.isPaired = true
    · by_cases henc : np.mEncrypted = true
      · simp [privateReceivedPackage, htype, hp, henc, newNetworkPackage, State.emit]
      · simp [privateReceivedPackage, htype, hp, henc, State.emit]
    · simp [privateReceivedPackage, htype, hp]

theorem addLink_summary (env : Env) (link : DeviceLink) (s : State) :
    (addLink env link s).dev =
      { s.dev with m_deviceLinks := env.qSort lessThan (s.dev.m_deviceLinks ++ [link]),
                   m_plugins := (addLink env link s).dev.m_plugins } ∧
    (addLink env link s).config = s.config := by
  by_cases hlen : (env.qSort lessThan (s.dev.m_deviceLinks ++ [link])).length = 1
  · have hf := reloadPlugins_frame env
      { s with dev := { s.dev with
          m_deviceLinks := env.qSort lessThan (s.dev.m_deviceLinks ++ [link]) } }
    simp only [addLink, hlen, if_true, State.emit]
    refine ⟨?_, hf.2.1⟩
    conv_lhs => rw [hf.1]
  · simp [addLink, hlen, State.emitAll]

theorem removeLink_summary (env : Env) (link : DeviceLink) (s : State) :
    (removeLink env link s).dev =
      { s.dev with m_deviceLinks := s.dev.m_deviceLinks.erase link,
                   m_plugins := (removeLink env link s).dev.m_plugins } ∧
    (removeLink env link s).config = s.config := by
  by_cases hemp : (s.dev.m_deviceLinks.erase link).isEmpty = true
  · have hf := reloadPlugins_frame env
      { s with dev := { s.dev with m_deviceLinks := s.dev.m_deviceLinks.erase link } }
    simp only [removeLink, hemp, if_true, State.emit]
    refine ⟨?_, hf.2.1⟩
    conv_lhs => rw [hf.1]
  · simp [removeLink, hemp]

end KdeConnect

/-! ## Correctness of the quick sort -/

namespace KdeConnect

theorem length_swapAt {α : Type} (xs : List α) (i j : Nat) :
    (swapAt xs i j).length = xs.length := by
  unfold swapAt
  split <;> simp

theorem swapAt_eq {α : Type} (xs : List α) (i j : Nat)
    (hi : i < xs.length) (hj : j < xs.length) :
    swapAt xs i j = (xs.set i xs[j]).set j xs[i] := by
  unfold swapAt
  rw [List.getElem?_eq_getElem hi, List.getElem?_eq_getElem hj]

theorem swapAt_out {α : Type} (xs : List α) (i j : Nat)
    (h : xs.length ≤ i ∨ xs.length ≤ j) : swapAt xs i j = xs := by
  unfold swapAt
  rcases h with h | h
  · rw [List.getElem?_eq_none h]
  · rw [List.getElem?_eq_none h]
    split <;> simp_all

theorem getElem?_swapAt {α : Type} (xs : List α) (i j k : Nat)
    (hi : i < xs.length) (hj : j < xs.length) :
    (swapAt xs i j)[k]? = if k = j then xs[i]? else if k = i then xs[j]? else xs[k]? := by
  have h1 : xs[i]? = some xs[i] := List.getElem?_eq_getElem hi
  have h2 : xs[j]? = some xs[j] := List.getElem?_eq_getElem hj
  rw [swapAt_eq xs i j hi hj, List.getElem?_set, List.getElem?_set]
  by_cases hkj : k = j
  · subst hkj
    simp [hj, h1]
  · have h3 : ¬ j = k := fun h => hkj h.symm
    by_cases hki : k = i
    · subst hki
      simp [h3, hkj, hi, h2]
    · have h4 : ¬ i = k := fun h => hki h.symm
      simp [h3, h4, hkj, hki]

theorem swapAt_perm {α : Type} [DecidableEq α] (xs : List α) (i j : Nat) :
    (swapAt xs i j).Perm xs := by
  by_cases hi : i < xs.length
  · by_cases hj : j < xs.length
    · rw [swapAt_eq xs i j hi hj, List.perm_iff_count]
      intro c
      have hj2 : j < (xs.set i xs[j]).length := by simpa using hj
      have hget : (xs.set i xs[j])[j] = xs[j] := by
        rw [List.getElem_set]
        by_cases hij : i = j
        · simp [hij]
        · simp [hij]
      have hc1 : (if xs[i] == c then 1 else 0) ≤ List.count c xs := by
        by_cases h : xs[i] = c
        · subst h
          simp only [beq_self_eq_true, if_true]
          exact List.count_pos_iff.mpr (List.getElem_mem _)
        · simp [h]
      rw [List.count_set _ _ _ _ hj2, List.count_set _ _ _ _ hi, hget]
      generalize (if xs[i] == c then 1 else 0) = A at hc1 ⊢
      generalize (if xs[j] == c then 1 else 0) = B
      generalize List.count c xs = N at hc1 ⊢
      omega
    · rw [swapAt_out xs i j (Or.inr (by omega))]
  · rw [swapAt_out xs i j (Or.inl (by omega))]

theorem ltAt_eq {α : Type} (lt : α → α → Bool) (xs : List α) (i j : Nat) (a b : α)
    (hi : xs[i]? = some a) (hj : xs[j]? = some b) : ltAt lt xs i j = lt a b := by
  unfold ltAt
  rw [hi, hj]

theorem ltAt_congr {α : Type} (lt : α → α → Bool) (xs ys : List α) (i j k l : Nat)
    (hi : xs[i]? = ys[k]?) (hj : xs[j]? = ys[l]?) : ltAt lt xs i j = ltAt lt ys k l := by
  unfold ltAt
  rw [hi, hj]

theorem SameOutside.refl {α : Type} (xs : List α) (a b : Nat) : SameOutside xs xs a b :=
  ⟨rfl, fun _ _ => rfl, fun _ h => h⟩

theorem SameOutside.trans {α : Type} {xs ys zs : List α} {a b : Nat}
    (h1 : SameOutside xs ys a b) (h2 : SameOutside ys zs a b) : SameOutside xs zs a b :=
  ⟨h2.1.trans h1.1, fun k hk => (h2.2.1 k hk).trans (h1.2.1 k hk),
    fun P hP => h2.2.2 P (h1.2.2 P hP)⟩

theorem SameOutside.mono {α : Type} {xs ys : List α} {a b c d : Nat}
    (h : SameOutside xs ys a b) (hc : c ≤ a) (hd : b ≤ d) : SameOutside xs ys c d := by
  refine ⟨h.1, fun k hk => h.2.1 k (by omega), ?_⟩
  intro P hP k hk1 hk2 x hx
  by_cases hin : a ≤ k ∧ k < b
  · exact h.2.2 P (fun k2 h1 h2 => hP k2 (by omega) (by omega)) k hin.1 hin.2 x hx
  · rw [h.2.1 k (by omega)] at hx
    exact hP k hk1 hk2 x hx

theorem SameOutside.swapAt {α : Type} (xs : List α) (i j a b : Nat)
    (hi1 : a ≤ i) (hi2 : i < b) (hj1 : a ≤ j) (hj2 : j < b) :
    SameOutside xs (swapAt xs i j) a b := by
  by_cases hi : i < xs.length
  · by_cases hj : j < xs.length
    · refine ⟨length_swapAt xs i j, ?_, ?_⟩
      · intro k hk
        rw [getElem?_swapAt xs i j k hi hj]
        have h1 : ¬ k = j := by omega
        have h2 : ¬ k = i := by omega
        simp [h1, h2]
      · intro P hP k hk1 hk2 x hx
        rw [getElem?_swapAt xs i j k hi hj] at hx
        by_cases h1 : k = j
        · rw [if_pos h1] at hx
          exact hP i hi1 hi2 x hx
        · rw [if_neg h1] at hx
          by_cases h2 : k = i
          · rw [if_pos h2] at hx
            exact hP j hj1 hj2 x hx
          · rw [if_neg h2] at hx
            exact hP k hk1 hk2 x hx
    · rw [swapAt_out xs i j (Or.inr (by omega))]
      exact SameOutside.refl xs a b
  · rw [swapAt_out xs i j (Or.inl (by omega))]
    exact SameOutside.refl xs a b

theorem advanceLow_spec {α : Type} (lt : α → α → Bool) (xs : List α) (e high : Nat) (p : α)
    (he : xs[e]? = some p) :
    ∀ fuel low, low ≤ high → high - low ≤ fuel →
      low ≤ advanceLow lt xs e high fuel low ∧ advanceLow lt xs e high fuel low ≤ high ∧
      AllRange (fun x => lt x p = true) xs low (advanceLow lt xs e high fuel low) ∧
      (advanceLow lt xs e high fuel low < high →
        ∀ x, xs[advanceLow lt xs e high fuel low]? = some x → lt x p = false) := by
  intro fuel
  induction fuel with
  | zero =>
    intro low h1 h2
    have : low = high := by omega
    subst this
    refine ⟨Nat.le_refl _, Nat.le_refl _, ?_, ?_⟩
    · intro k hk1 hk2
      simp only [advanceLow] at hk2
      omega
    · intro h
      simp only [advanceLow] at h
      omega
  | succ fuel ih =>
    intro low h1 h2
    by_cases hc : (decide (low < high) && ltAt lt xs low e) = true
    · have hrun : advanceLow lt xs e high (fuel + 1) low
          = advanceLow lt xs e high fuel (low + 1) := by
        simp only [advanceLow, hc, if_true]
      simp only [Bool.and_eq_true, decide_eq_true_eq] at hc
      obtain ⟨g1, g2, g3, g4⟩ := ih (low + 1) (by omega) (by omega)
      rw [hrun]
      refine ⟨by omega, g2, ?_, g4⟩
      intro k hk1 hk2 x hx
      by_cases hk : k = low
      · subst hk
        rw [ltAt_eq lt xs k e x p hx he] at hc
        exact hc.2
      · exact g3 k (by omega) hk2 x hx
    · have hrun : advanceLow lt xs e high (fuel + 1) low = low := by
        simp only [advanceLow, hc]
        simp
      rw [hrun]
      refine ⟨Nat.le_refl _, h1, fun k hk1 hk2 => by omega, ?_⟩
      intro hlt x hx
      simp only [Bool.and_eq_true, decide_eq_true_eq, not_and, Bool.not_eq_true] at hc
      have := hc hlt
      rw [ltAt_eq lt xs low e x p hx he] at this
      exact this

theorem retreatHigh_spec {α : Type} (lt : α → α → Bool) (xs : List α) (e low : Nat) (p : α)
    (he : xs[e]? = some p) :
    ∀ fuel high, low ≤ high → high - low ≤ fuel →
      low ≤ retreatHigh lt xs e low fuel high ∧ retreatHigh lt xs e low fuel high ≤ high ∧
      AllRange (fun x => lt p x = true) xs (retreatHigh lt xs e low fuel high + 1) (high + 1) ∧
      (low < retreatHigh lt xs e low fuel high →
        ∀ x, xs[retreatHigh lt xs e low fuel high]? = some x → lt p x = false) := by
  intro fuel
  induction fuel with
  | zero =>
    intro high h1 h2
    have : low = high := by omega
    subst this
    refine ⟨Nat.le_refl _, Nat.le_refl _, ?_, ?_⟩
    · intro k hk1 hk2
      simp only [retreatHigh] at hk1
      omega
    · intro h
      simp only [retreatHigh] at h
      omega
  | succ fuel ih =>
    intro high h1 h2
    by_cases hc : (decide (high > low) && ltAt lt xs e high) = true
    · have hrun : retreatHigh lt xs e low (fuel + 1) high
          = retreatHigh lt xs e low fuel (high - 1) := by
        simp only [retreatHigh, hc, if_true]
      simp only [Bool.and_eq_true, decide_eq_true_eq] at hc
      obtain ⟨g1, g2, g3, g4⟩ := ih (high - 1) (by omega) (by omega)
      rw [hrun]
      refine ⟨g1, by omega, ?_, g4⟩
      intro k hk1 hk2 x hx
      by_cases hk : k = high
      · subst hk
        rw [ltAt_eq lt xs e k p x he hx] at hc
        exact hc.2
      · exact g3 k hk1 (by omega) x hx
    · have hrun : retreatHigh lt xs e low (fuel + 1) high = high := by
        simp only [retreatHigh, hc]
        simp
      rw [hrun]
      refine ⟨h1, Nat.le_refl _, fun k hk1 hk2 => by omega, ?_⟩
      intro hlt x hx
      simp only [Bool.and_eq_true, decide_eq_true_eq, not_and, Bool.not_eq_true] at hc
      have := hc hlt
      rw [ltAt_eq lt xs e high p x he hx] at this
      exact this

theorem partitionLoop_spec {α : Type} (lt : α → α → Bool)
    (hasym : ∀ a b, lt a b = true → lt b a = false)
    (e : Nat) (p : α) (start : Nat) :
    ∀ (fuel : Nat) (xs : List α) (low high : Nat),
      e < xs.length → xs[e]? = some p → start ≤ low → low ≤ high + 1 → high < e →
      high + 1 - low ≤ fuel →
      AllRange (fun x => lt p x = false) xs start low →
      AllRange (fun x => lt x p = false) xs (high + 1) e →
      SameOutside xs (partitionLoop lt e fuel xs low high).1 start e ∧
      start ≤ (partitionLoop lt e fuel xs low high).2 ∧
      (partitionLoop lt e fuel xs low high).2 ≤ e ∧
      AllRange (fun x => lt p x = false) (partitionLoop lt e fuel xs low high).1 start
        (partitionLoop lt e fuel xs low high).2 ∧
      AllRange (fun x => lt x p = false) (partitionLoop lt e fuel xs low high).1
        ((partitionLoop lt e fuel xs low high).2 + 1) e := by
  intro fuel
  induction fuel with
  | zero =>
    intro xs low high hlen he h1 h2 h3 h4 hlo hhi
    have : low = high + 1 := by omega
    subst this
    simp only [partitionLoop]
    exact ⟨SameOutside.refl _ _ _, h1, by omega, hlo,
      fun k hk1 hk2 x hx => hhi k (by omega) hk2 x hx⟩
  | succ fuel ih =>
    intro xs low high hlen he h1 h2 h3 h4 hlo hhi
    by_cases hlh : low < high
    · obtain ⟨a1, a2, a3, a4⟩ :=
        advanceLow_spec lt xs e high p he xs.length low (by omega) (by omega)
      obtain ⟨b1, b2, b3, b4⟩ :=
        retreatHigh_spec lt xs e (advanceLow lt xs e high xs.length low) p he xs.length high
          a2 (by omega)
      have hlo1 : AllRange (fun x => lt p x = false) xs start
          (advanceLow lt xs e high xs.length low) := by
        intro k hk1 hk2 x hx
        by_cases hk : k < low
        · exact hlo k hk1 hk x hx
        · exact hasym _ _ (a3 k (by omega) hk2 x hx)
      have hhi1 : AllRange (fun x => lt x p = false) xs
          (retreatHigh lt xs e (advanceLow lt xs e high xs.length low) xs.length high + 1)
          e := by
        intro k hk1 hk2 x hx
        by_cases hk : high < k
        · exact hhi k (by omega) hk2 x hx
        · exact hasym _ _ (b3 k hk1 (by omega) x hx)
      by_cases hswap : advanceLow lt xs e high xs.length low
          < retreatHigh lt xs e (advanceLow lt xs e high xs.length low) xs.length high
      · have hrun : partitionLoop lt e (fuel + 1) xs low high =
            partitionLoop lt e fuel
              (swapAt xs (advanceLow lt xs e high xs.length low)
                (retreatHigh lt xs e (advanceLow lt xs e high xs.length low) xs.length high))
              (advanceLow lt xs e high xs.length low + 1)
              (retreatHigh lt xs e (advanceLow lt xs e high xs.length low) xs.length high
                - 1) := by
          simp only [partitionLoop, hlh, if_true, hswap]
        generalize hl1 : advanceLow lt xs e high xs.length low = low1 at *
        generalize hh1 : retreatHigh lt xs e low1 xs.length high = high1 at *
        have hil : low1 < xs.length := by omega
        have hih : high1 < xs.length := by omega
        have hget := getElem?_swapAt xs low1 high1
        have hso : SameOutside xs (swapAt xs low1 high1) start e :=
          SameOutside.swapAt xs low1 high1 start e (by omega) (by omega) (by omega) (by omega)
        have he2 : (swapAt xs low1 high1)[e]? = some p := by
          rw [hso.2.1 e (Or.inr (Nat.le_refl _))]
          exact he
        have hlo2 : AllRange (fun x => lt p x = false) (swapAt xs low1 high1) start
            (low1 + 1) := by
          intro k hk1 hk2 x hx
          rw [hget k hil hih] at hx
          by_cases hk : k = low1
          · have hne : ¬ k = high1 := by omega
            rw [if_neg hne, if_pos hk] at hx
            exact b4 hswap x hx
          · have hne : ¬ k = high1 := by omega
            rw [if_neg hne, if_neg hk] at hx
            exact hlo1 k hk1 (by omega) x hx
        have hhi2 : AllRange (fun x => lt x p = false) (swapAt xs low1 high1)
            (high1 - 1 + 1) e := by
          intro k hk1 hk2 x hx
          rw [hget k hil hih] at hx
          by_cases hk : k = high1
          · rw [if_pos hk] at hx
            exact a4 (by omega) x hx
          · have hne : ¬ k = low1 := by omega
            rw [if_neg hk, if_neg hne] at hx
            exact hhi1 k (by omega) hk2 x hx
        obtain ⟨c1, c2, c3, c4, c5⟩ := ih (swapAt xs low1 high1) (low1 + 1) (high1 - 1)
          (by rw [length_swapAt]; exact hlen) he2 (by omega) (by omega) (by omega) (by omega)
          hlo2 hhi2
        rw [hrun]
        exact ⟨hso.trans c1, c2, c3, c4, c5⟩
      · have hrun : partitionLoop lt e (fuel + 1) xs low high =
            (xs, advanceLow lt xs e high xs.length low) := by
          simp only [partitionLoop, hlh, if_true, hswap, if_false]
        rw [hrun]
        refine ⟨SameOutside.refl _ _ _, by omega, by omega, hlo1, ?_⟩
        intro k hk1 hk2 x hx
        exact hhi1 k (by omega) hk2 x hx
    · have hrun : partitionLoop lt e (fuel + 1) xs low high = (xs, low) := by
        simp only [partitionLoop, hlh, if_false]
      rw [hrun]
      exact ⟨SameOutside.refl _ _ _, h1, by omega, hlo,
        fun k hk1 hk2 x hx => hhi k (by omega) hk2 x hx⟩

theorem ltAt_asym {α : Type} (lt : α → α → Bool)
    (hasym : ∀ a b, lt a b = true → lt b a = false) (xs : List α) (i j : Nat)
    (h : ltAt lt xs i j = true) : ltAt lt xs j i = false := by
  unfold ltAt at h ⊢
  cases hi : xs[i]? with
  | none => simp [hi] at h
  | some a =>
    cases hj : xs[j]? with
    | none => simp [hi, hj] at h
    | some b =>
      simp only [hi, hj] at h ⊢
      exact hasym a b h

theorem ltAt_trans {α : Type} (lt : α → α → Bool)
    (htrans : ∀ a b c, lt a b = false → lt b c = false → lt a c = false)
    (xs : List α) (i j k : Nat) (hj : j < xs.length)
    (h1 : ltAt lt xs k j = false) (h2 : ltAt lt xs j i = false) :
    ltAt lt xs k i = false := by
  have hjs : xs[j]? = some xs[j] := List.getElem?_eq_getElem hj
  unfold ltAt at h1 h2 ⊢
  cases hk : xs[k]? with
  | none => rfl
  | some c =>
    cases hi : xs[i]? with
    | none => rfl
    | some a =>
      simp only [hk, hi, hjs] at h1 h2 ⊢
      exact htrans c xs[j] a h1 h2

/-- One compare-and-exchange step `if (lessThan(*j, *i)) qSwap(*j, *i)` for `i < j`. -/
theorem compareSwap_spec {α : Type} (lt : α → α → Bool)
    (hasym : ∀ a b, lt a b = true → lt b a = false)
    (xs : List α) (i j : Nat) (hij : i < j) (hj : j < xs.length) :
    (if ltAt lt xs j i then swapAt xs j i else xs).length = xs.length ∧
    (∀ k, k ≠ i → k ≠ j → (if ltAt lt xs j i then swapAt xs j i else xs)[k]? = xs[k]?) ∧
    (((if ltAt lt xs j i then swapAt xs j i else xs)[i]? = xs[i]? ∧
        (if ltAt lt xs j i then swapAt xs j i else xs)[j]? = xs[j]?) ∨
      ((if ltAt lt xs j i then swapAt xs j i else xs)[i]? = xs[j]? ∧
        (if ltAt lt xs j i then swapAt xs j i else xs)[j]? = xs[i]? ∧
        ltAt lt xs j i = true)) ∧
    ltAt lt (if ltAt lt xs j i then swapAt xs j i else xs) j i = false := by
  have hi : i < xs.length := by omega
  by_cases hc : ltAt lt xs j i = true
  · simp only [hc, if_true]
    have hget := fun k => getElem?_swapAt xs j i k hj hi
    have gi : (swapAt xs j i)[i]? = xs[j]? := by
      rw [hget i]
      simp
    have gj : (swapAt xs j i)[j]? = xs[i]? := by
      rw [hget j]
      have : ¬ j = i := by omega
      simp [this]
    refine ⟨length_swapAt _ _ _, ?_, Or.inr ⟨gi, gj, trivial⟩, ?_⟩
    · intro k h1 h2
      rw [hget k]
      simp [h1, h2]
    · rw [ltAt_congr lt (swapAt xs j i) xs j i i j gj gi]
      exact ltAt_asym lt hasym xs j i hc
  · have hc2 : ltAt lt xs j i = false := by simpa using hc
    simp only [hc2]
    exact ⟨rfl, fun _ _ _ => rfl, Or.inl ⟨rfl, rfl⟩, hc2⟩

theorem compareSwap_sameOutside {α : Type} (lt : α → α → Bool) (xs : List α)
    (i j a b : Nat) (hi1 : a ≤ i) (hi2 : i < b) (hj1 : a ≤ j) (hj2 : j < b) :
    SameOutside xs (if ltAt lt xs j i then swapAt xs j i else xs) a b := by
  by_cases hc : ltAt lt xs j i = true
  · simp only [hc, if_true]
    exact SameOutside.swapAt xs j i a b hj1 hj2 hi1 hi2
  · have hc2 : ltAt lt xs j i = false := by simpa using hc
    simp only [hc2]
    exact SameOutside.refl _ _ _

theorem qSortHelper_small {α : Type} (lt : α → α → Bool) (fuel : Nat) (xs : List α)
    (start end_ : Nat) (h : end_ - start < 2) : qSortHelper lt fuel xs start end_ = xs := by
  cases fuel with
  | zero => rfl
  | succ n => simp only [qSortHelper, h, if_true]

theorem qSortHelper_two {α : Type} (lt : α → α → Bool) (fuel : Nat) (xs : List α)
    (start end_ : Nat) (h : end_ - start = 2) :
    qSortHelper lt (fuel + 1) xs start end_
      = if ltAt lt xs (end_ - 1) start then swapAt xs (end_ - 1) start else xs := by
  simp only [qSortHelper, h]
  rfl

theorem qSortHelper_three {α : Type} (lt : α → α → Bool) (fuel : Nat) (xs x1 x2 : List α)
    (start end_ : Nat) (h : end_ - start = 3)
    (hx1 : x1 = if ltAt lt xs (end_ - 1) start then swapAt xs (end_ - 1) start else xs)
    (hx2 : x2 = if ltAt lt x1 (start + 1) start then swapAt x1 (start + 1) start else x1) :
    qSortHelper lt (fuel + 1) xs start end_
      = if ltAt lt x2 (end_ - 1) (start + 1) then swapAt x2 (end_ - 1) (start + 1) else x2 := by
  have h1 : ¬ end_ - start < 2 := by omega
  have h2 : ¬ end_ - start = 2 := by omega
  have h3 : (3 : Nat) / 2 = 1 := rfl
  subst hx1 hx2
  simp only [qSortHelper, h, h3]
  rfl

theorem qSortHelper_large {α : Type} (lt : α → α → Bool) (fuel : Nat)
    (xs x1 x2 x3 x4 x5 : List α) (start end_ low : Nat) (h : 4 ≤ end_ - start)
    (hx1 : x1 = if ltAt lt xs (end_ - 1) start then swapAt xs (end_ - 1) start else xs)
    (hx2 : x2 = if ltAt lt x1 (start + (end_ - start) / 2) start
      then swapAt x1 (start + (end_ - start) / 2) start else x1)
    (hx3 : x3 = if ltAt lt x2 (end_ - 1) (start + (end_ - start) / 2)
      then swapAt x2 (end_ - 1) (start + (end_ - start) / 2) else x2)
    (hx4 : x4 = swapAt x3 (start + (end_ - start) / 2) (end_ - 1))
    (hlow : low = if ltAt lt (partitionLoop lt (end_ - 1) (end_ - start) x4 start
          (end_ - 1 - 1)).1
        (partitionLoop lt (end_ - 1) (end_ - start) x4 start (end_ - 1 - 1)).2 (end_ - 1)
      then (partitionLoop lt (end_ - 1) (end_ - start) x4 start (end_ - 1 - 1)).2 + 1
      else (partitionLoop lt (end_ - 1) (end_ - start) x4 start (end_ - 1 - 1)).2)
    (hx5 : x5 = swapAt (partitionLoop lt (end_ - 1) (end_ - start) x4 start (end_ - 1 - 1)).1
      (end_ - 1) low) :
    qSortHelper lt (fuel + 1) xs start end_
      = qSortHelper lt fuel (qSortHelper lt fuel x5 start low) (low + 1) (end_ - 1 + 1) := by
  have h1 : ¬ end_ - start < 2 := by omega
  have h2 : ¬ end_ - start = 2 := by omega
  have h3 : ¬ end_ - start = 3 := by omega
  subst hx5 hlow hx4 hx3 hx2 hx1
  simp only [qSortHelper, h1, h2, h3, if_false]

/-- After `qSortHelper` the range `[start, end_)` is a rearrangement of what it held, the
rest of the list is untouched, and no element of the range is `lt` an earlier one. -/
theorem qSortHelper_spec {α : Type} (lt : α → α → Bool)
    (hasym : ∀ a b, lt a b = true → lt b a = false)
    (htrans : ∀ a b c, lt a b = false → lt b c = false → lt a c = false) :
    ∀ (fuel : Nat) (xs : List α) (start end_ : Nat),
      end_ ≤ xs.length → end_ - start ≤ fuel →
      SameOutside xs (qSortHelper lt fuel xs start end_) start end_ ∧
      ∀ i j, start ≤ i → i < j → j < end_ →
        ltAt lt (qSortHelper lt fuel xs start end_) j i = false := by
  intro fuel
  induction fuel with
  | zero =>
    intro xs start end_ _ hf
    rw [qSortHelper_small lt 0 xs start end_ (by omega)]
    exact ⟨SameOutside.refl _ _ _, fun i j h1 h2 h3 => by omega⟩
  | succ fuel ih =>
    intro xs start end_ hlen hf
    by_cases hsmall : end_ - start < 2
    · rw [qSortHelper_small lt _ xs start end_ hsmall]
      exact ⟨SameOutside.refl _ _ _, fun i j h1 h2 h3 => by omega⟩
    by_cases htwo : end_ - start = 2
    · rw [qSortHelper_two lt fuel xs start end_ htwo]
      have c := compareSwap_spec lt hasym xs start (end_ - 1) (by omega) (by omega)
      refine ⟨compareSwap_sameOutside lt xs start (end_ - 1) start end_
        (Nat.le_refl _) (by omega) (by omega) (by omega), ?_⟩
      intro i j h1 h2 h3
      have hi : i = start := by omega
      have hj : j = end_ - 1 := by omega
      rw [hi, hj]
      exact c.2.2.2
    by_cases hthree : end_ - start = 3
    · obtain ⟨x1, hx1⟩ : ∃ x1, x1 =
          if ltAt lt xs (end_ - 1) start then swapAt xs (end_ - 1) start else xs := ⟨_, rfl⟩
      obtain ⟨x2, hx2⟩ : ∃ x2, x2 =
          if ltAt lt x1 (start + 1) start then swapAt x1 (start + 1) start else x1 := ⟨_, rfl⟩
      rw [qSortHelper_three lt fuel xs x1 x2 start end_ hthree hx1 hx2]
      have c1 := compareSwap_spec lt hasym xs start (end_ - 1) (by omega) (by omega)
      rw [← hx1] at c1
      have c2 := compareSwap_spec lt hasym x1 start (start + 1) (by omega)
        (by rw [c1.1]; omega)
      rw [← hx2] at c2
      have c3 := compareSwap_spec lt hasym x2 (start + 1) (end_ - 1) (by omega)
        (by rw [c2.1, c1.1]; omega)
      have s1 := compareSwap_sameOutside lt xs start (end_ - 1) start end_
        (Nat.le_refl _) (by omega) (by omega) (by omega)
      rw [← hx1] at s1
      have s2 := compareSwap_sameOutside lt x1 start (start + 1) start end_
        (Nat.le_refl _) (by omega) (by omega) (by omega)
      rw [← hx2] at s2
      have s3 := compareSwap_sameOutside lt x2 (start + 1) (end_ - 1) start end_
        (by omega) (by omega) (by omega) (by omega)
      generalize (if ltAt lt x2 (end_ - 1) (start + 1) then swapAt x2 (end_ - 1) (start + 1)
        else x2) = x3 at c3 s3 ⊢
      refine ⟨(s1.trans s2).trans s3, ?_⟩
      have he2 : x2[end_ - 1]? = x1[end_ - 1]? := c2.2.1 (end_ - 1) (by omega) (by omega)
      have d : ltAt lt x2 (end_ - 1) start = false := by
        rcases c2.2.2.1 with ⟨g1, _⟩ | ⟨g1, _, g3⟩
        · rw [ltAt_congr lt x2 x1 (end_ - 1) start (end_ - 1) start he2 g1]
          exact c1.2.2.2
        · rw [ltAt_congr lt x2 x1 (end_ - 1) start (end_ - 1) (start + 1) he2 g1]
          exact ltAt_trans lt htrans x1 (start + 1) start (end_ - 1) (by rw [c1.1]; omega)
            c1.2.2.2 (ltAt_asym lt hasym x1 (start + 1) start g3)
      have hs3 : x3[start]? = x2[start]? := c3.2.1 start (by omega) (by omega)
      intro i j h1 h2 h3
      have hcases : (i = start ∧ j = start + 1) ∨ (i = start ∧ j = end_ - 1)
          ∨ (i = start + 1 ∧ j = end_ - 1) := by omega
      rcases hcases with ⟨hi, hj⟩ | ⟨hi, hj⟩ | ⟨hi, hj⟩
      · rw [hi, hj]
        rcases c3.2.2.1 with ⟨g1, _⟩ | ⟨g1, _, _⟩
        · rw [ltAt_congr lt x3 x2 (start + 1) start (start + 1) start g1 hs3]
          exact c2.2.2.2
        · rw [ltAt_congr lt x3 x2 (start + 1) start (end_ - 1) start g1 hs3]
          exact d
      · rw [hi, hj]
        rcases c3.2.2.1 with ⟨_, g2⟩ | ⟨_, g2, _⟩
        · rw [ltAt_congr lt x3 x2 (end_ - 1) start (end_ - 1) start g2 hs3]
          exact d
        · rw [ltAt_congr lt x3 x2 (end_ - 1) start (start + 1) start g2 hs3]
          exact c2.2.2.2
      · rw [hi, hj]
        exact c3.2.2.2
    · obtain ⟨x1, hx1⟩ : ∃ x1, x1 =
          if ltAt lt xs (end_ - 1) start then swapAt xs (end_ - 1) start else xs := ⟨_, rfl⟩
      obtain ⟨x2, hx2⟩ : ∃ x2, x2 =
          if ltAt lt x1 (start + (end_ - start) / 2) start
          then swapAt x1 (start + (end_ - start) / 2) start else x1 := ⟨_, rfl⟩
      obtain ⟨x3, hx3⟩ : ∃ x3, x3 =
          if ltAt lt x2 (end_ - 1) (start + (end_ - start) / 2)
          then swapAt x2 (end_ - 1) (start + (end_ - start) / 2) else x2 := ⟨_, rfl⟩
      obtain ⟨x4, hx4⟩ : ∃ x4, x4 = swapAt x3 (start + (end_ - start) / 2) (end_ - 1) :=
        ⟨_, rfl⟩
      obtain ⟨low, hlow⟩ : ∃ low, low =
          if ltAt lt (partitionLoop lt (end_ - 1) (end_ - start) x4 start (end_ - 1 - 1)).1
            (partitionLoop lt (end_ - 1) (end_ - start) x4 start (end_ - 1 - 1)).2 (end_ - 1)
          then (partitionLoop lt (end_ - 1) (end_ - start) x4 start (end_ - 1 - 1)).2 + 1
          else (partitionLoop lt (end_ - 1) (end_ - start) x4 start (end_ - 1 - 1)).2 :=
        ⟨_, rfl⟩
      obtain ⟨x5, hx5⟩ : ∃ x5, x5 =
          swapAt (partitionLoop lt (end_ - 1) (end_ - start) x4 start (end_ - 1 - 1)).1
            (end_ - 1) low := ⟨_, rfl⟩
      rw [qSortHelper_large lt fuel xs x1 x2 x3 x4 x5 start end_ low (by omega)
        hx1 hx2 hx3 hx4 hlow hx5]
      have s1 : SameOutside xs x1 start end_ := by
        rw [hx1]
        exact compareSwap_sameOutside lt xs start (end_ - 1) start end_
          (Nat.le_refl _) (by omega) (by omega) (by omega)
      have s2 : SameOutside x1 x2 start end_ := by
        rw [hx2]
        exact compareSwap_sameOutside lt x1 start (start + (end_ - start) / 2) start end_
          (Nat.le_refl _) (by omega) (by omega) (by omega)
      have s3 : SameOutside x2 x3 start end_ := by
        rw [hx3]
        exact compareSwap_sameOutside lt x2 (start + (end_ - start) / 2) (end_ - 1) start end_
          (by omega) (by omega) (by omega) (by omega)
      have s4 : SameOutside x3 x4 start end_ := by
        rw [hx4]
        exact SameOutside.swapAt x3 (start + (end_ - start) / 2) (end_ - 1) start end_
          (by omega) (by omega) (by omega) (by omega)
      have s14 : SameOutside xs x4 start end_ := ((s1.trans s2).trans s3).trans s4
      have hlen4 : end_ - 1 < x4.length := by
        rw [s14.1]
        omega
      have he4 : x4[end_ - 1]? = some x4[end_ - 1] := List.getElem?_eq_getElem hlen4
      generalize x4[end_ - 1] = p at he4
      obtain ⟨pl1, pl2, pl3, pl4, pl5⟩ := partitionLoop_spec lt hasym (end_ - 1) p start
        (end_ - start) x4 start (end_ - 1 - 1) hlen4 he4 (Nat.le_refl _) (by omega) (by omega)
        (by omega) (fun k h1 h2 => by omega) (fun k h1 h2 => by omega)
      generalize partitionLoop lt (end_ - 1) (end_ - start) x4 start (end_ - 1 - 1) = r at *
      have hlenr : r.1.length = xs.length := by rw [pl1.1, s14.1]
      have her : r.1[end_ - 1]? = some p := by
        rw [pl1.2.1 (end_ - 1) (Or.inr (Nat.le_refl _))]
        exact he4
      have hirr : lt p p = false := by
        by_contra hc
        have h : lt p p = true := by simpa using hc
        rw [hasym p p h] at h
        exact absurd h (by decide)
      have hlowfacts : start ≤ low ∧ low ≤ end_ - 1 ∧
          AllRange (fun x => lt p x = false) r.1 start low ∧
          AllRange (fun x => lt x p = false) r.1 low (end_ - 1) := by
        by_cases hc : ltAt lt r.1 r.2 (end_ - 1) = true
        · rw [if_pos hc] at hlow
          have hne : r.2 ≠ end_ - 1 := by
            intro heq
            rw [heq, ltAt_eq lt r.1 (end_ - 1) (end_ - 1) p p her her, hirr] at hc
            exact absurd hc (by decide)
          refine ⟨by omega, by omega, ?_, ?_⟩
          · intro k hk1 hk2 x hx
            by_cases hk : k = r.2
            · rw [hk] at hx
              rw [ltAt_eq lt r.1 r.2 (end_ - 1) x p hx her] at hc
              exact hasym x p hc
            · exact pl4 k hk1 (by omega) x hx
          · intro k hk1 hk2 x hx
            exact pl5 k (by omega) hk2 x hx
        · have hc2 : ltAt lt r.1 r.2 (end_ - 1) = false := by simpa using hc
          rw [if_neg hc] at hlow
          refine ⟨by omega, by omega, by rw [hlow]; exact pl4, ?_⟩
          intro k hk1 hk2 x hx
          by_cases hk : k = r.2
          · rw [hk] at hx
            rw [ltAt_eq lt r.1 r.2 (end_ - 1) x p hx her] at hc2
            exact hc2
          · exact pl5 k (by omega) hk2 x hx
      obtain ⟨hl1, hl2, hlo, hhi⟩ := hlowfacts
      clear hlow
      have hget5 : ∀ k, x5[k]? =
          if k = low then r.1[end_ - 1]? else if k = end_ - 1 then r.1[low]? else r.1[k]? := by
        intro k
        rw [hx5]
        exact getElem?_swapAt r.1 (end_ - 1) low k (by omega) (by omega)
      have s6 : SameOutside r.1 x5 start end_ := by
        rw [hx5]
        exact SameOutside.swapAt r.1 (end_ - 1) low start end_
          (by omega) (by omega) (by omega) (by omega)
      have hp5 : x5[low]? = some p := by
        rw [hget5 low, if_pos rfl]
        exact her
      have hlo5 : AllRange (fun x => lt p x = false) x5 start low := by
        intro k hk1 hk2 x hx
        rw [hget5 k, if_neg (by omega), if_neg (by omega)] at hx
        exact hlo k hk1 hk2 x hx
      have hhi5 : AllRange (fun x => lt x p = false) x5 (low + 1) (end_ - 1 + 1) := by
        intro k hk1 hk2 x hx
        rw [hget5 k, if_neg (by omega)] at hx
        by_cases hk : k = end_ - 1
        · rw [if_pos hk] at hx
          exact hhi low (Nat.le_refl _) (by omega) x hx
        · rw [if_neg hk] at hx
          exact hhi k (by omega) (by omega) x hx
      have hlen5 : x5.length = xs.length := by rw [s6.1, hlenr]
      obtain ⟨s7, sorted6⟩ := ih x5 start low (by omega) (by omega)
      generalize qSortHelper lt fuel x5 start low = x6 at *
      have hlen6 : x6.length = xs.length := by rw [s7.1, hlen5]
      obtain ⟨s8, sorted7⟩ := ih x6 (low + 1) (end_ - 1 + 1) (by omega) (by omega)
      generalize qSortHelper lt fuel x6 (low + 1) (end_ - 1 + 1) = x7 at *
      have hlen7 : x7.length = xs.length := by rw [s8.1, hlen6]
      refine ⟨(((s14.trans (pl1.mono (Nat.le_refl _) (by omega))).trans s6).trans
        (s7.mono (Nat.le_refl _) (by omega))).trans (s8.mono (by omega) (by omega)), ?_⟩
      have hp7 : x7[low]? = some p := by
        rw [s8.2.1 low (Or.inl (by omega)), s7.2.1 low (Or.inr (Nat.le_refl _))]
        exact hp5
      have hlo7 : AllRange (fun x => lt p x = false) x7 start low := by
        intro k hk1 hk2 x hx
        rw [s8.2.1 k (Or.inl (by omega))] at hx
        exact s7.2.2 _ hlo5 k hk1 hk2 x hx
      have hhi6 : AllRange (fun x => lt x p = false) x6 (low + 1) (end_ - 1 + 1) := by
        intro k hk1 hk2 x hx
        rw [s7.2.1 k (Or.inr (by omega))] at hx
        exact hhi5 k hk1 hk2 x hx
      have hhi7 : AllRange (fun x => lt x p = false) x7 (low + 1) (end_ - 1 + 1) :=
        s8.2.2 _ hhi6
      intro i j h1 h2 h3
      have hi : i < x7.length := by omega
      have hj : j < x7.length := by omega
      obtain ⟨a, hia⟩ : ∃ a, x7[i]? = some a := ⟨_, List.getElem?_eq_getElem hi⟩
      obtain ⟨b, hjb⟩ : ∃ b, x7[j]? = some b := ⟨_, List.getElem?_eq_getElem hj⟩
      by_cases hjl : j < low
      · rw [ltAt_congr lt x7 x6 j i j i (s8.2.1 j (Or.inl (by omega)))
          (s8.2.1 i (Or.inl (by omega)))]
        exact sorted6 i j h1 h2 hjl
      by_cases hil : low < i
      · exact sorted7 i j (by omega) h2 (by omega)
      rw [ltAt_eq lt x7 j i b a hjb hia]
      by_cases hi2 : i = low
      · have hb : lt b p = false := hhi7 j (by omega) (by omega) b hjb
        have ha : a = p := by
          have h := hia
          rw [hi2, hp7] at h
          exact (Option.some.inj h).symm
        rw [ha]
        exact hb
      · have ha : lt p a = false := hlo7 i h1 (by omega) a hia
        by_cases hj2 : j = low
        · have hb : b = p := by
            have h := hjb
            rw [hj2, hp7] at h
            exact (Option.some.inj h).symm
          rw [hb]
          exact ha
        · have hb : lt b p = false := hhi7 j (by omega) (by omega) b hjb
          exact htrans _ _ _ hb ha

theorem compareSwap_perm {α : Type} [DecidableEq α] (c : Bool) (xs : List α) (i j : Nat) :
    (if c then swapAt xs i j else xs).Perm xs := by
  cases c with
  | true => exact swapAt_perm xs i j
  | false => exact List.Perm.refl _

theorem partitionLoop_perm {α : Type} [DecidableEq α] (lt : α → α → Bool) (e : Nat) :
    ∀ (fuel : Nat) (xs : List α) (low high : Nat),
      (partitionLoop lt e fuel xs low high).1.Perm xs := by
  intro fuel
  induction fuel with
  | zero => intro xs low high; exact List.Perm.refl _
  | succ fuel ih =>
    intro xs low high
    by_cases hlh : low < high
    · by_cases hswap : advanceLow lt xs e high xs.length low
          < retreatHigh lt xs e (advanceLow lt xs e high xs.length low) xs.length high
      · simp only [partitionLoop, hlh, if_true, hswap]
        exact (ih _ _ _).trans (swapAt_perm xs _ _)
      · simp only [partitionLoop, hlh, if_true, hswap, if_false]
        exact List.Perm.refl _
    · simp only [partitionLoop, hlh, if_false]
      exact List.Perm.refl _

theorem qSortHelper_perm {α : Type} [DecidableEq α] (lt : α → α → Bool) :
    ∀ (fuel : Nat) (xs : List α) (start end_ : Nat),
      (qSortHelper lt fuel xs start end_).Perm xs := by
  intro fuel
  induction fuel with
  | zero => intro xs start end_; exact List.Perm.refl _
  | succ fuel ih =>
    intro xs start end_
    by_cases hsmall : end_ - start < 2
    · rw [qSortHelper_small lt _ xs start end_ hsmall]
    by_cases htwo : end_ - start = 2
    · rw [qSortHelper_two lt fuel xs start end_ htwo]
      exact compareSwap_perm _ xs _ _
    by_cases hthree : end_ - start = 3
    · rw [qSortHelper_three lt fuel xs _ _ start end_ hthree rfl rfl]
      exact (compareSwap_perm _ _ _ _).trans
        ((compareSwap_perm _ _ _ _).trans (compareSwap_perm _ xs _ _))
    · rw [qSortHelper_large lt fuel xs _ _ _ _ _ start end_ _ (by omega)
        rfl rfl rfl rfl rfl rfl]
      refine (ih _ _ _).trans ((ih _ _ _).trans ((swapAt_perm _ _ _).trans
        ((partitionLoop_perm lt _ _ _ _ _).trans ((swapAt_perm _ _ _).trans ?_))))
      exact (compareSwap_perm _ _ _ _).trans
        ((compareSwap_perm _ _ _ _).trans (compareSwap_perm _ xs _ _))

/-- The quick sort returns a permutation of its input. -/
theorem qSort_perm {α : Type} [DecidableEq α] (lt : α → α → Bool) (xs : List α) :
    (qSort lt xs).Perm xs :=
  qSortHelper_perm lt xs.length xs 0 xs.length

/-- The quick sort returns a list in which no element is `lt` an earlier one, for an order
`lt` that is asymmetric and whose complement is transitive. -/
theorem qSort_sorted {α : Type} (lt : α → α → Bool)
    (hasym : ∀ a b, lt a b = true → lt b a = false)
    (htrans : ∀ a b c, lt a b = false → lt b c = false → lt a c = false) (xs : List α) :
    (qSort lt xs).Pairwise (fun a b => lt b a = false) := by
  obtain ⟨hso, hsorted⟩ :=
    qSortHelper_spec lt hasym htrans xs.length xs 0 xs.length (Nat.le_refl _) (by omega)
  rw [List.pairwise_iff_getElem]
  intro i j hi hj hij
  have hlen : (qSort lt xs).length = xs.length := hso.1
  have h := hsorted i j (Nat.zero_le _) hij (by rw [← hlen]; exact hj)
  rw [show qSortHelper lt xs.length xs 0 xs.length = qSort lt xs from rfl,
    ltAt_eq lt (qSort lt xs) j i _ _ (List.getElem?_eq_getElem hj)
      (List.getElem?_eq_getElem hi)] at h
  exact h

/-- The order `lessThan` is asymmetric. -/
theorem lessThan_asymm (a b : DeviceLink) (h : lessThan a b = true) : lessThan b a = false := by
  simp only [lessThan, decide_eq_true_eq, decide_eq_false_iff_not, gt_iff_lt, not_lt] at h ⊢
  omega

/-- Not being `lessThan` is transitive. -/
theorem lessThan_negtrans (a b c : DeviceLink) (h1 : lessThan a b = false)
    (h2 : lessThan b c = false) : lessThan a c = false := by
  simp only [lessThan, decide_eq_false_iff_not, gt_iff_lt, not_lt] at h1 h2 ⊢
  omega

end KdeConnect

/-! ## The link list -/

namespace KdeConnect

/-- How one operation changes the link list. -/
theorem step_links (env : Env) (op : Op) (s : State) :
    (∃ link, op = Op.addLink link ∧
      (step env op s).dev.m_deviceLinks = env.qSort lessThan (s.dev.m_deviceLinks ++ [link])) ∨
    (∃ link, op = Op.linkDestroyed link ∧
      (step env op s).dev.m_deviceLinks = s.dev.m_deviceLinks.erase link) ∨
    (step env op s).dev.m_deviceLinks = s.dev.m_deviceLinks := by
  cases op with
  | addLink link =>
    exact Or.inl ⟨link, rfl, by rw [step, (addLink_summary env link s).1]⟩
  | linkDestroyed link =>
    exact Or.inr (Or.inl ⟨link, rfl, by rw [step, linkDestroyed, (removeLink_summary env link s).1]⟩)
  | requestPair =>
    refine Or.inr (Or.inr ?_)
    rcases (requestPair_summary env s).2 with h | ⟨_, h⟩
    · rw [step, h]
    · rw [step, h]
  | unpair =>
    refine Or.inr (Or.inr ?_)
    rcases unpair_summary env s with ⟨_, h⟩ | ⟨_, h, _⟩
    · rw [step, h]
    · rw [step, h]
  | acceptPairing =>
    refine Or.inr (Or.inr ?_)
    rcases acceptPairing_summary env s with ⟨h, _⟩ | ⟨t, ht, _, h⟩
    · rw [step, h]
    · rw [step, h, (reloadPlugins_frame env t).1, ht]
  | rejectPairing =>
    exact Or.inr (Or.inr (by rw [step, (rejectPairing_summary env s).1]))
  | timerExpires =>
    refine Or.inr (Or.inr ?_)
    rcases (pairingTimerExpires_summary s).2 with h | ⟨_, h⟩
    · rw [step, h]
    · rw [step, h]
  | receive np =>
    refine Or.inr (Or.inr ?_)
    rcases privateReceivedPackage_summary env np s with
      ⟨h, _⟩ | ⟨_, h, _⟩ | ⟨_, _, _, h, _⟩ | ⟨_, h, _⟩ | ⟨_, h⟩
    · rw [step, h]
    · rw [step, h]
    · rw [step, h]
    · rw [step, h]
    · rw [step, h]
      rcases unpair_summary env s with ⟨_, h2⟩ | ⟨_, h2, _⟩
      · rw [h2]
      · rw [h2]
  | reloadPlugins =>
    exact Or.inr (Or.inr (by rw [step, (reloadPlugins_frame env s).1]))
  | sendPackage np =>
    refine Or.inr (Or.inr ?_)
    obtain ⟨sent, h⟩ := sendPackage_snd env np s
    rw [step, h]
    rfl
  | sendPing =>
    exact Or.inr (Or.inr (by rw [step, (sendPing_summary env s).1]))

/-- The merge sort of `mergeSortEnv` returns a permutation. -/
theorem mergeSortEnv_perm (xs : List DeviceLink) :
    (mergeSortEnv.qSort lessThan xs).Perm xs :=
  List.mergeSort_perm xs _

/-- The merge sort of `mergeSortEnv` returns a list in which no link is `lessThan` an
earlier one. -/
theorem mergeSortEnv_sorted (xs : List DeviceLink) :
    (mergeSortEnv.qSort lessThan xs).Pairwise (fun a b => lessThan b a = false) := by
  have h := @List.sorted_mergeSort DeviceLink (fun a b : DeviceLink => !lessThan b a)
    (by
      intro a b c hab hbc
      simp only [lessThan, Bool.not_eq_true', decide_eq_false_iff_not, not_lt, gt_iff_lt]
        at hab hbc ⊢
      omega)
    (by
      intro a b
      simp only [lessThan, Bool.or_eq_true, Bool.not_eq_true', decide_eq_false_iff_not,
        not_lt, gt_iff_lt]
      omega) xs
  refine List.Pairwise.imp ?_ h
  intro a b hab
  simpa using hab

end KdeConnect

namespace KdeConnect

/-- C13: provided `qSort` returns a permutation of its input, adding a link to a device
without links and destroying it right away leaves no link and no plugin, whatever the pairing
status.  `addLink` runs `reloadPlugins` and emits `reachableStatusChanged` when the list was
empty before, and otherwise only calls `connected()` on the bound plugins (one
`pluginConnected` each, plugin map untouched).  `removeLink` runs `reloadPlugins` and emits
`reachableStatusChanged` when the list is empty after the removal, and otherwise only drops
the link. -/
theorem addLink_removeLink_spec (env : Env) (s : State) (l : DeviceLink)
    (hperm : ∀ xs, (env.qSort lessThan xs).Perm xs) :
    (s.dev.m_deviceLinks = [] →
      (linkDestroyed env l (addLink env l s)).dev.m_deviceLinks = [] ∧
      (linkDestroyed env l (addLink env l s)).dev.m_plugins = []) ∧
    (s.dev.m_deviceLinks = [] →
      addLink env l s =
        (reloadPlugins env { s with dev := { s.dev with m_deviceLinks := [l] } }).emit
          Event.reachableStatusChanged) ∧
    (s.dev.m_deviceLinks ≠ [] →
      addLink env l s =
        { s with
          dev := { s.dev with
            m_deviceLinks := env.qSort lessThan (s.dev.m_deviceLinks ++ [l]) },
          trace := s.trace ++ s.dev.m_plugins.values.map Event.pluginConnected }) ∧
    (s.dev.m_deviceLinks.erase l = [] →
      removeLink env l s =
        (reloadPlugins env { s with dev := { s.dev with m_deviceLinks := [] } }).emit
          Event.reachableStatusChanged) ∧
    (s.dev.m_deviceLinks.erase l ≠ [] →
      removeLink env l s =
        { s with dev := { s.dev with m_deviceLinks := s.dev.m_deviceLinks.erase l } }) := by
  have hlen : (env.qSort lessThan (s.dev.m_deviceLinks ++ [l])).length
      = s.dev.m_deviceLinks.length + 1 := by
    rw [(hperm _).length_eq]
    simp
  have hsingle : env.qSort lessThan [l] = [l] := List.perm_singleton.mp (hperm [l])
  have hadd : s.dev.m_deviceLinks = [] →
      addLink env l s =
        (reloadPlugins env { s with dev := { s.dev with m_deviceLinks := [l] } }).emit
          Event.reachableStatusChanged := by
    intro hl
    simp [addLink, hl, hsingle]
  have hrem : ∀ t : State, t.dev.m_deviceLinks.erase l = [] →
      removeLink env l t =
        (reloadPlugins env { t with dev := { t.dev with m_deviceLinks := [] } }).emit
          Event.reachableStatusChanged := by
    intro t hl
    simp [removeLink, hl]
  refine ⟨?_, hadd, ?_, hrem s, ?_⟩
  · intro hl
    have hlinks : (addLink env l s).dev.m_deviceLinks = [l] := by
      rw [(addLink_summary env l s).1, hl]
      exact hsingle
    have herase : (addLink env l s).dev.m_deviceLinks.erase l = [] := by
      rw [hlinks]
      simp
    rw [linkDestroyed, hrem _ herase]
    rw [reloadPlugins_unloads env _ (by simp [Device.isReachable])]
    exact ⟨rfl, rfl⟩
  · intro hl
    have hne : ¬ (env.qSort lessThan (s.dev.m_deviceLinks ++ [l])).length = 1 := by
      rw [hlen]
      cases hc : s.dev.m_deviceLinks with
      | nil => exact absurd hc hl
      | cons a r => simp
    simp [addLink, hne, State.emitAll]
  · intro hl
    have hne : (s.dev.m_deviceLinks.erase l).isEmpty = false := by
      cases hc : s.dev.m_deviceLinks.erase l with
      | nil => exact absurd hc hl
      | cons a r => rfl
    simp [removeLink, hne]

theorem addLink_removeLink_spec_witness :
    (linkDestroyed mergeSortEnv lanLink
        (addLink mergeSortEnv lanLink (sampleState PairStatus.Paired []))).dev.m_deviceLinks = [] ∧
    (linkDestroyed mergeSortEnv lanLink
        (addLink mergeSortEnv lanLink (sampleState PairStatus.Paired []))).dev.m_plugins = [] :=
  (addLink_removeLink_spec mergeSortEnv (sampleState PairStatus.Paired []) lanLink
    mergeSortEnv_perm).1 rfl

/-- For any sort that returns a permutation of its input in which no element is
`lessThan` an earlier one: the link list after `addLink` is sorted and is a permutation of
the previous list plus the added link, `removeLink` keeps a sorted list sorted and drops one
occurrence, and the list stays sorted along any sequence of operations. -/
theorem links_sorted_of_contract (env : Env) (s : State) (l : DeviceLink)
    (hperm : ∀ xs, (env.qSort lessThan xs).Perm xs)
    (hsorted : ∀ xs, (env.qSort lessThan xs).Pairwise (fun a b => lessThan b a = false)) :
    ((addLink env l s).dev.m_deviceLinks.Pairwise
        (fun a b => b.provider.priority ≤ a.provider.priority) ∧
      (addLink env l s).dev.m_deviceLinks.Perm (s.dev.m_deviceLinks ++ [l])) ∧
    (s.dev.m_deviceLinks.Pairwise (fun a b => b.provider.priority ≤ a.provider.priority) →
      (removeLink env l s).dev.m_deviceLinks.Pairwise
        (fun a b => b.provider.priority ≤ a.provider.priority)) ∧
    (l ∈ s.dev.m_deviceLinks →
      s.dev.m_deviceLinks.Perm (l :: (removeLink env l s).dev.m_deviceLinks)) ∧
    (l ∉ s.dev.m_deviceLinks →
      (removeLink env l s).dev.m_deviceLinks = s.dev.m_deviceLinks) ∧
    (∀ ops : List Op,
      s.dev.m_deviceLinks.Pairwise (fun a b => b.provider.priority ≤ a.provider.priority) →
      (run env ops s).dev.m_deviceLinks.Pairwise
          (fun a b => b.provider.priority ≤ a.provider.priority) ∧
      ∀ first rest, (run env ops s).dev.m_deviceLinks = first :: rest →
        ∀ x ∈ rest, x.provider.priority ≤ first.provider.priority) := by
  have hq : ∀ xs, (env.qSort lessThan xs).Pairwise
      (fun a b => b.provider.priority ≤ a.provider.priority) := by
    intro xs
    refine List.Pairwise.imp ?_ (hsorted xs)
    intro a b hab
    simpa [lessThan] using hab
  have hstep : ∀ (op : Op) (t : State),
      t.dev.m_deviceLinks.Pairwise (fun a b => b.provider.priority ≤ a.provider.priority) →
      (step env op t).dev.m_deviceLinks.Pairwise
        (fun a b => b.provider.priority ≤ a.provider.priority) := by
    intro op t ht
    rcases step_links env op t with ⟨link, _, h⟩ | ⟨link, _, h⟩ | h
    · rw [h]
      exact hq _
    · rw [h]
      exact ht.sublist (List.erase_sublist link _)
    · rw [h]
      exact ht
  refine ⟨⟨?_, ?_⟩, ?_, ?_, ?_, ?_⟩
  · rw [(addLink_summary env l s).1]
    exact hq _
  · rw [(addLink_summary env l s).1]
    exact hperm _
  · intro hs
    rw [(removeLink_summary env l s).1]
    exact hs.sublist (List.erase_sublist l _)
  · intro hmem
    rw [(removeLink_summary env l s).1]
    exact List.perm_cons_erase hmem
  · intro hmem
    rw [(removeLink_summary env l s).1]
    exact List.erase_of_not_mem hmem
  · intro ops
    induction ops generalizing s with
    | nil =>
      intro hs
      refine ⟨hs, ?_⟩
      intro first rest heq x hx
      have hs2 : (first :: rest).Pairwise
          (fun a b => b.provider.priority ≤ a.provider.priority) := by
        rw [← heq]
        exact hs
      exact (List.pairwise_cons.mp hs2).1 x hx
    | cons op rest ih =>
      intro hs
      exact ih (step env op s) (hstep op s hs)

/-- C14: with the quick sort of Qt 4 as the sort that `addLink` calls, the link list after
`addLink` is sorted by non-increasing provider priority and is a permutation of the previous
list plus the added link; after `removeLink` a sorted list is still sorted, is the previous
list minus one occurrence of the removed link, and is unchanged when the link is absent.
Hence along any sequence of device operations from a sorted (for instance empty) list the
list stays sorted, and its first element has the greatest priority of all. -/
theorem links_sorted_invariant (env : Env) (s : State) (l : DeviceLink)
    (hq : ∀ xs, env.qSort lessThan xs = qSort lessThan xs) :
    ((addLink env l s).dev.m_deviceLinks.Pairwise
        (fun a b => b.provider.priority ≤ a.provider.priority) ∧
      (addLink env l s).dev.m_deviceLinks.Perm (s.dev.m_deviceLinks ++ [l])) ∧
    (s.dev.m_deviceLinks.Pairwise (fun a b => b.provider.priority ≤ a.provider.priority) →
      (removeLink env l s).dev.m_deviceLinks.Pairwise
        (fun a b => b.provider.priority ≤ a.provider.priority)) ∧
    (l ∈ s.dev.m_deviceLinks →
      s.dev.m_deviceLinks.Perm (l :: (removeLink env l s).dev.m_deviceLinks)) ∧
    (l ∉ s.dev.m_deviceLinks →
      (removeLink env l s).dev.m_deviceLinks = s.dev.m_deviceLinks) ∧
    (∀ ops : List Op,
      s.dev.m_deviceLinks.Pairwise (fun a b => b.provider.priority ≤ a.provider.priority) →
      (run env ops s).dev.m_deviceLinks.Pairwise
          (fun a b => b.provider.priority ≤ a.provider.priority) ∧
      ∀ first rest, (run env ops s).dev.m_deviceLinks = first :: rest →
        ∀ x ∈ rest, x.provider.priority ≤ first.provider.priority) :=
  links_sorted_of_contract env s l
    (fun xs => by rw [hq]; exact qSort_perm lessThan xs)
    (fun xs => by rw [hq]; exact qSort_sorted lessThan lessThan_asymm lessThan_negtrans xs)

theorem links_sorted_invariant_witness :
    (removeLink sampleEnv deadLink (sampleState PairStatus.NotPaired [lanLink, deadLink])
        ).dev.m_deviceLinks.Pairwise (fun a b => b.provider.priority ≤ a.provider.priority) ∧
    (run sampleEnv [Op.addLink firstLink, Op.addLink secondLink, Op.addLink thirdLink,
          Op.requestPair, Op.linkDestroyed secondLink]
        (sampleState PairStatus.NotPaired [])).dev.m_deviceLinks.Pairwise
      (fun a b => b.provider.priority ≤ a.provider.priority) :=
  ⟨(links_sorted_invariant sampleEnv (sampleState PairStatus.NotPaired [lanLink, deadLink])
      deadLink (fun _ => rfl)).2.1 (by decide),
   ((links_sorted_invariant sampleEnv (sampleState PairStatus.NotPaired [])
      deadLink (fun _ => rfl)).2.2.2.2
      [Op.addLink firstLink, Op.addLink secondLink, Op.addLink thirdLink,
        Op.requestPair, Op.linkDestroyed secondLink] (by decide)).1⟩

/-- C20, as the claim states it, fails with the quick sort of Qt 4: two links of priority
50 are added, first `firstLink` and then `secondLink`, and stand in that order; adding
`thirdLink` of priority 60 puts it first and leaves `secondLink` before `firstLink`. -/
theorem addLink_is_not_stable :
    (addLink sampleEnv secondLink (addLink sampleEnv firstLink
        (sampleState PairStatus.NotPaired []))).dev.m_deviceLinks = [firstLink, secondLink] ∧
    (addLink sampleEnv thirdLink (addLink sampleEnv secondLink (addLink sampleEnv firstLink
        (sampleState PairStatus.NotPaired [])))).dev.m_deviceLinks
      = [thirdLink, secondLink, firstLink] := by
  decide

/-- For any sort that returns a permutation of its input in which no element is
`lessThan` an earlier one, `addLink` keeps every link and puts the higher of two different
priorities first. -/
theorem addLink_orders_of_contract (env : Env) (s : State) (l : DeviceLink)
    (hperm : ∀ xs, (env.qSort lessThan xs).Perm xs)
    (hsorted : ∀ xs, (env.qSort lessThan xs).Pairwise (fun a b => lessThan b a = false)) :
    (addLink env l s).dev.m_deviceLinks.Perm (s.dev.m_deviceLinks ++ [l]) ∧
    (addLink env l s).dev.m_deviceLinks.Pairwise
      (fun a b => a.provider.priority ≠ b.provider.priority →
        b.provider.priority < a.provider.priority) := by
  rw [(addLink_summary env l s).1]
  refine ⟨hperm _, List.Pairwise.imp ?_ (hsorted _)⟩
  intro a b hab hne
  have hle : b.provider.priority ≤ a.provider.priority := by simpa [lessThan] using hab
  omega

/-- C20 amended: with the quick sort of Qt 4 as the sort that `addLink` calls, after
`addLink` the list holds the previous links and the new one, and of any two links with
different provider priorities the one with the higher priority comes first; nothing is said
about the order of links of equal priority. -/
theorem addLink_orders_distinct_priorities (env : Env) (s : State) (l : DeviceLink)
    (hq : ∀ xs, env.qSort lessThan xs = qSort lessThan xs) :
    (addLink env l s).dev.m_deviceLinks.Perm (s.dev.m_deviceLinks ++ [l]) ∧
    (addLink env l s).dev.m_deviceLinks.Pairwise
      (fun a b => a.provider.priority ≠ b.provider.priority →
        b.provider.priority < a.provider.priority) :=
  addLink_orders_of_contract env s l
    (fun xs => by rw [hq]; exact qSort_perm lessThan xs)
    (fun xs => by rw [hq]; exact qSort_sorted lessThan lessThan_asymm lessThan_negtrans xs)

theorem addLink_orders_distinct_priorities_witness :
    (addLink sampleEnv thirdLink
        (sampleState PairStatus.NotPaired [firstLink, secondLink])).dev.m_deviceLinks.Perm
      ((sampleState PairStatus.NotPaired [firstLink, secondLink]).dev.m_deviceLinks
        ++ [thirdLink]) ∧
    (addLink sampleEnv thirdLink
        (sampleState PairStatus.NotPaired [firstLink, secondLink])).dev.m_deviceLinks.Pairwise
      (fun a b => a.provider.priority ≠ b.provider.priority →
        b.provider.priority < a.provider.priority) :=
  addLink_orders_distinct_priorities sampleEnv
    (sampleState PairStatus.NotPaired [firstLink, secondLink]) thirdLink (fun _ => rfl)

end KdeConnect

/-! ## Invariants over the reachable states -/

namespace KdeConnect

/-- The device id never changes, and the pairing status, timer and store only change as the
summaries say. -/
theorem reloadPlugins_keeps (env : Env) (t : State) :
    (reloadPlugins env t).dev.m_deviceId = t.dev.m_deviceId ∧
    (reloadPlugins env t).dev.m_pairStatus = t.dev.m_pairStatus ∧
    (reloadPlugins env t).dev.pairingTimer = t.dev.pairingTimer ∧
    (reloadPlugins env t).dev.m_deviceLinks = t.dev.m_deviceLinks ∧
    (reloadPlugins env t).config = t.config := by
  have h := reloadPlugins_frame env t
  refine ⟨?_, ?_, ?_, ?_, h.2.1⟩
  · rw [h.1]
  · rw [h.1]
  · rw [h.1]
  · rw [h.1]

/-- After the group of a device is deleted the store holds no trusted record for it. -/
theorem KConfig.hasTrustedRecord_delete (env : Env) (c : KConfig) (id : String) :
    KConfig.hasTrustedRecord env (c.deleteDeviceGroup id) id = false := by
  have h : (c.deleteDeviceGroup id).devices.value id = none := QMap.value_remove_self _ _
  simp [KConfig.hasTrustedRecord, KConfig.readDeviceByteArray, KConfig.deviceEntry, h,
    QMap.value]

/-- After `publicKey` and `name` are written the store holds a trusted record exactly when
the key read back is not empty. -/
theorem KConfig.hasTrustedRecord_written (env : Env) (c : KConfig) (id : String)
    (k : QByteArray) (n : QVariant) :
    KConfig.hasTrustedRecord env
        ((c.writeDeviceEntry id "publicKey" (QVariant.byteArray k)).writeDeviceEntry id "name" n)
        id
      = !(env.toByteArray (QVariant.byteArray k)).isEmpty := by
  obtain ⟨g, h1, h2, _⟩ := KConfig.written_record c id (QVariant.byteArray k) n
  simp [KConfig.hasTrustedRecord, KConfig.readDeviceByteArray, KConfig.deviceEntry, h1, h2]

/-- C17, as the claim states it, fails, in each of the ways the amended statement leaves
out.  `Device(id)` for an id of which the store holds no record starts Paired.
`Device(identityPackage, link)` for an id of which the store holds a record with a
non-empty key starts NotPaired.  A device that requested pairing and receives a pair
envelope with `pair = true` and no key becomes Paired, and the record written has an empty
key.  A NotPaired device that captured the key of a pair request and whose `acceptPairing`
envelope a link accepts persists the record and stays NotPaired.  A Paired device with a
record whose pairing timer is running becomes NotPaired when the timer expires, and the
record stays. -/
theorem trusted_record_equivalence_fails :
    ((newDeviceFromId sampleEnv "stranger" sampleConfig).dev.m_pairStatus = PairStatus.Paired ∧
      (newDeviceFromId sampleEnv "stranger" sampleConfig).dev.m_deviceId = "stranger" ∧
      KConfig.hasTrustedRecord sampleEnv
        (newDeviceFromId sampleEnv "stranger" sampleConfig).config "stranger" = false) ∧
    ((newDeviceFromIdentity sampleEnv sampleIdentityPackage lanLink PairStatus.NotPaired
        trustingConfig).dev.m_pairStatus = PairStatus.NotPaired ∧
      (newDeviceFromIdentity sampleEnv sampleIdentityPackage lanLink PairStatus.NotPaired
        trustingConfig).dev.m_deviceId = "B" ∧
      KConfig.hasTrustedRecord sampleEnv
        (newDeviceFromIdentity sampleEnv sampleIdentityPackage lanLink PairStatus.NotPaired
          trustingConfig).config "B" = true) ∧
    (KConfig.hasTrustedRecord sampleEnv
        (sampleState PairStatus.NotPaired [lanLink]).config "B" = false ∧
      (run sampleEnv [Op.requestPair, Op.receive peerPairPackageNoKey]
        (sampleState PairStatus.NotPaired [lanLink])).dev.m_pairStatus = PairStatus.Paired ∧
      (run sampleEnv [Op.requestPair, Op.receive peerPairPackageNoKey]
        (sampleState PairStatus.NotPaired [lanLink])).dev.m_deviceId = "B" ∧
      KConfig.hasTrustedRecord sampleEnv
        (run sampleEnv [Op.requestPair, Op.receive peerPairPackageNoKey]
          (sampleState PairStatus.NotPaired [lanLink])).config "B" = false) ∧
    ((run sampleEnv [Op.receive (peerPairPackage true [3]), Op.acceptPairing]
        (sampleState PairStatus.NotPaired [lanLink])).dev.m_pairStatus
          = PairStatus.NotPaired ∧
      (run sampleEnv [Op.receive (peerPairPackage true [3]), Op.acceptPairing]
        (sampleState PairStatus.NotPaired [lanLink])).dev.m_deviceId = "B" ∧
      KConfig.hasTrustedRecord sampleEnv
        (run sampleEnv [Op.receive (peerPairPackage true [3]), Op.acceptPairing]
          (sampleState PairStatus.NotPaired [lanLink])).config "B" = true) ∧
    (pairedTimerRunningState.dev.m_pairStatus = PairStatus.Paired ∧
      KConfig.hasTrustedRecord sampleEnv pairedTimerRunningState.config "B" = true ∧
      (run sampleEnv [Op.timerExpires] pairedTimerRunningState).dev.m_pairStatus
        = PairStatus.NotPaired ∧
      (run sampleEnv [Op.timerExpires] pairedTimerRunningState).dev.m_deviceId = "B" ∧
      KConfig.hasTrustedRecord sampleEnv
        (run sampleEnv [Op.timerExpires] pairedTimerRunningState).config "B" = true) := by
  decide

/-- C17 amended: take a state in which the device is Paired exactly when the store holds a
record `devices/<id>` with a non-empty `publicKey`, and in which the timer is not running
while Paired.  Then the same equivalence holds after any sequence of operations in which no
`acceptPairing` has its envelope accepted by a link and no pair envelope with `pair = true`
and an empty key arrives while the device is PairRequested (`admittedRun`).  This covers
pair-complete with a key, an `acceptPairing` that every link refuses, `unpair`, the expiry
of the pairing timer, and every other operation.  `Device(id)` starts Paired with the timer
idle and the store as it was, whatever the store holds, so it is such a starting state
exactly when the store holds a record with a non-empty key for `id`;
`Device(identityPackage, link)` starts NotPaired with the store as it was.  The only
assumption on the collaborators is that reading a byte array as a byte array returns it. -/
theorem trusted_record_invariant (env : Env)
    (hconv : ∀ b, env.toByteArray (QVariant.byteArray b) = b)
    (s0 : State) (ops : List Op)
    (h0 : s0.dev.m_pairStatus = PairStatus.Paired ↔
      KConfig.hasTrustedRecord env s0.config s0.dev.m_deviceId = true)
    (ht : s0.dev.m_pairStatus = PairStatus.Paired → s0.dev.pairingTimer.active = false)
    (hadm : admittedRun env ops s0 = true) :
    ((run env ops s0).dev.m_pairStatus = PairStatus.Paired ↔
      KConfig.hasTrustedRecord env (run env ops s0).config (run env ops s0).dev.m_deviceId
        = true) ∧
    (∀ id c, (newDeviceFromId env id c).dev.m_pairStatus = PairStatus.Paired ∧
      (newDeviceFromId env id c).dev.pairingTimer.active = false ∧
      (newDeviceFromId env id c).dev.m_deviceId = id ∧
      (newDeviceFromId env id c).config = c) ∧
    (∀ pkg dl u c, (newDeviceFromIdentity env pkg dl u c).dev.m_pairStatus
        = PairStatus.NotPaired ∧
      (newDeviceFromIdentity env pkg dl u c).config = c) := by
  refine ⟨?_, ?_, ?_⟩
  · suffices hgen : ∀ (ops : List Op) (s : State),
        (s.dev.m_pairStatus = PairStatus.Paired ↔
          KConfig.hasTrustedRecord env s.config s.dev.m_deviceId = true) →
        (s.dev.m_pairStatus = PairStatus.Paired → s.dev.pairingTimer.active = false) →
        admittedRun env ops s = true →
        ((run env ops s).dev.m_pairStatus = PairStatus.Paired ↔
          KConfig.hasTrustedRecord env (run env ops s).config (run env ops s).dev.m_deviceId
            = true) from hgen ops s0 h0 ht hadm
    intro ops
    induction ops with
    | nil => intro s h1 _ _; exact h1
    | cons op rest ih =>
      intro s h1 h2 h3
      simp only [admittedRun, Bool.and_eq_true] at h3
      obtain ⟨hop, hrest⟩ := h3
      have hunpair : ∀ t : State,
          (t.dev.m_pairStatus = PairStatus.Paired ↔
            KConfig.hasTrustedRecord env t.config t.dev.m_deviceId = true) →
          (t.dev.m_pairStatus = PairStatus.Paired → t.dev.pairingTimer.active = false) →
          ((unpair env t).dev.m_pairStatus = PairStatus.Paired ↔
            KConfig.hasTrustedRecord env (unpair env t).config (unpair env t).dev.m_deviceId
              = true) ∧
          ((unpair env t).dev.m_pairStatus = PairStatus.Paired →
            (unpair env t).dev.pairingTimer.active = false) := by
        intro t t1 t2
        rcases unpair_summary env t with ⟨_, h⟩ | ⟨_, hd, hc⟩
        · rw [h]
          exact ⟨t1, t2⟩
        · rw [hd, hc]
          simp [KConfig.hasTrustedRecord_delete]
      have hkey : (step env op s).dev.m_pairStatus = PairStatus.Paired ↔
            KConfig.hasTrustedRecord env (step env op s).config (step env op s).dev.m_deviceId
              = true := by
        cases op with
        | addLink link =>
          rw [step, (addLink_summary env link s).1, (addLink_summary env link s).2]
          exact h1
        | linkDestroyed link =>
          rw [step, linkDestroyed, (removeLink_summary env link s).1,
            (removeLink_summary env link s).2]
          exact h1
        | requestPair =>
          rw [step, (requestPair_summary env s).1]
          rcases (requestPair_summary env s).2 with h | ⟨hn, h⟩
          · rw [h]
            exact h1
          · rw [h]
            simp only [reduceCtorEq, false_iff]
            intro hc
            rw [h1.mpr hc] at hn
            exact absurd hn (by decide)
        | unpair => exact (hunpair s h1 h2).1
        | acceptPairing =>
          simp only [admitted, Bool.not_eq_true'] at hop
          rw [step, (acceptPairing_refused env s hop).1, (acceptPairing_refused env s hop).2]
          exact h1
        | rejectPairing =>
          rw [step, (rejectPairing_summary env s).1, (rejectPairing_summary env s).2]
          exact h1
        | timerExpires =>
          rw [step, (pairingTimerExpires_summary s).1]
          rcases (pairingTimerExpires_summary s).2 with h | ⟨ha, h⟩
          · rw [h]
            exact h1
          · rw [h]
            simp only [reduceCtorEq, false_iff]
            intro hc
            have := h2 (h1.mpr hc)
            rw [ha] at this
            exact absurd this (by decide)
        | receive np =>
          rcases privateReceivedPackage_summary env np s with
            ⟨hd, hc⟩ | ⟨hst, hd, hc⟩ | ⟨hst, htype, hpair, hd, hc⟩ | ⟨hst, hd, hc⟩ | ⟨hst, h⟩
          · rw [step, hd, hc]
            exact h1
          · rw [step, hd, hc]
            simp only [reduceCtorEq, false_iff]
            intro hrec
            rw [h1.mpr hrec] at hst
            exact absurd hst (by decide)
          · rw [step, hd, hc, KConfig.hasTrustedRecord_written, hconv]
            cases hk : np.getByteArray env "publicKey" with
            | nil => simp [admitted, htype, hpair, hst, hk] at hop
            | cons a r => simp
          · rw [step, hd, hc]
            exact h1
          · rw [step, h]
            exact (hunpair s h1 h2).1
        | reloadPlugins =>
          obtain ⟨k1, k2, _, _, k5⟩ := reloadPlugins_keeps env s
          rw [step, k1, k2, k5]
          exact h1
        | sendPackage np =>
          obtain ⟨sent, h⟩ := sendPackage_snd env np s
          rw [step, h]
          exact h1
        | sendPing =>
          rw [step, (sendPing_summary env s).1, (sendPing_summary env s).2]
          exact h1
      have htimer : (step env op s).dev.m_pairStatus = PairStatus.Paired →
          (step env op s).dev.pairingTimer.active = false := by
        cases op with
        | addLink link =>
          rw [step, (addLink_summary env link s).1]
          exact h2
        | linkDestroyed link =>
          rw [step, linkDestroyed, (removeLink_summary env link s).1]
          exact h2
        | requestPair =>
          rcases (requestPair_summary env s).2 with h | ⟨hn, h⟩
          · rw [step, h]
            exact h2
          · rw [step, h]
            intro hc
            simp at hc
        | unpair => exact (hunpair s h1 h2).2
        | acceptPairing =>
          simp only [admitted, Bool.not_eq_true'] at hop
          rw [step, (acceptPairing_refused env s hop).1]
          exact h2
        | rejectPairing =>
          rw [step, (rejectPairing_summary env s).1]
          exact h2
        | timerExpires =>
          rcases (pairingTimerExpires_summary s).2 with h | ⟨ha, h⟩
          · rw [step, h]
            exact h2
          · rw [step, h]
            intro hc
            simp at hc
        | receive np =>
          rcases privateReceivedPackage_summary env np s with
            ⟨hd, hc⟩ | ⟨hst, hd, hc⟩ | ⟨hst, htype, hpair, hd, hc⟩ | ⟨hst, hd, hc⟩ | ⟨hst, h⟩
          · rw [step, hd]
            exact h2
          · rw [step, hd]
            intro hc2
            simp at hc2
          · rw [step, hd]
            intro _
            rfl
          · rw [step, hd]
            exact h2
          · rw [step, h]
            exact (hunpair s h1 h2).2
        | reloadPlugins =>
          obtain ⟨_, k2, k3, _, _⟩ := reloadPlugins_keeps env s
          rw [step, k2, k3]
          exact h2
        | sendPackage np =>
          obtain ⟨sent, h⟩ := sendPackage_snd env np s
          rw [step, h]
          exact h2
        | sendPing =>
          rw [step, (sendPing_summary env s).1]
          exact h2
      exact ih (step env op s) hkey htimer hrest
  · intro id c
    exact ⟨rfl, rfl, rfl, rfl⟩
  · intro pkg dl u c
    refine ⟨rfl, ?_⟩
    simp only [newDeviceFromIdentity]
    exact (addLink_summary env dl _).2

end KdeConnect

namespace KdeConnect

theorem trusted_record_invariant_witness :
    ((run sampleEnv
        [Op.acceptPairing, Op.requestPair, Op.receive (peerPairPackage true [3])]
        (sampleState PairStatus.NotPaired [deadLink])).dev.m_pairStatus = PairStatus.Paired ↔
      KConfig.hasTrustedRecord sampleEnv
        (run sampleEnv
          [Op.acceptPairing, Op.requestPair, Op.receive (peerPairPackage true [3])]
          (sampleState PairStatus.NotPaired [deadLink])).config
        (run sampleEnv
          [Op.acceptPairing, Op.requestPair, Op.receive (peerPairPackage true [3])]
          (sampleState PairStatus.NotPaired [deadLink])).dev.m_deviceId = true) ∧
    ((run sampleEnv
        [Op.receive peerPairPackageNoKey, Op.requestPair,
          Op.receive (peerPairPackage true [3]), Op.timerExpires]
        (sampleState PairStatus.NotPaired [lanLink])).dev.m_pairStatus = PairStatus.Paired ↔
      KConfig.hasTrustedRecord sampleEnv
        (run sampleEnv
          [Op.receive peerPairPackageNoKey, Op.requestPair,
            Op.receive (peerPairPackage true [3]), Op.timerExpires]
          (sampleState PairStatus.NotPaired [lanLink])).config
        (run sampleEnv
          [Op.receive peerPairPackageNoKey, Op.requestPair,
            Op.receive (peerPairPackage true [3]), Op.timerExpires]
          (sampleState PairStatus.NotPaired [lanLink])).dev.m_deviceId = true) ∧
    (run sampleEnv
        [Op.receive peerPairPackageNoKey, Op.requestPair,
          Op.receive (peerPairPackage true [3]), Op.timerExpires]
        (sampleState PairStatus.NotPaired [lanLink])).dev.m_pairStatus = PairStatus.Paired :=
  ⟨(trusted_record_invariant sampleEnv (fun _ => rfl)
      (sampleState PairStatus.NotPaired [deadLink])
      [Op.acceptPairing, Op.requestPair, Op.receive (peerPairPackage true [3])]
      (by decide) (by decide) (by decide)).1,
   (trusted_record_invariant sampleEnv (fun _ => rfl)
      (sampleState PairStatus.NotPaired [lanLink])
      [Op.receive peerPairPackageNoKey, Op.requestPair,
        Op.receive (peerPairPackage true [3]), Op.timerExpires]
      (by decide) (by decide) (by decide)).1,
   by decide⟩

/-- C15: `Device(identityPackage, link)` calls `addLink` before it assigns `m_pairStatus`.
When the uninitialised member happens to hold the value of Paired, `reloadPlugins` inside
`addLink` binds the enabled plugin `ping`; the constructor then sets NotPaired and the new
device starts with a plugin bound while not Paired. -/
theorem constructor_binds_plugins_while_not_paired :
    (newDeviceFromIdentity sampleEnv sampleIdentityPackage lanLink PairStatus.Paired
        sampleConfig).dev.m_pairStatus = PairStatus.NotPaired ∧
    (newDeviceFromIdentity sampleEnv sampleIdentityPackage lanLink PairStatus.Paired
        sampleConfig).dev.m_plugins = [("ping", ⟨0⟩)] := by
  decide

/-- C16: a NotPaired device with an accepting link requests pairing, which starts the
timer, and the timer expires.  The device is NotPaired again and the timer is still active,
so it expires again and `pairingFailed` is emitted a second time. -/
theorem timer_active_after_timeout :
    (run sampleEnv [Op.requestPair]
        (sampleState PairStatus.NotPaired [lanLink])).dev.m_pairStatus
      = PairStatus.PairRequested ∧
    (run sampleEnv [Op.requestPair]
        (sampleState PairStatus.NotPaired [lanLink])).dev.pairingTimer.active = true ∧
    (run sampleEnv [Op.requestPair, Op.timerExpires]
        (sampleState PairStatus.NotPaired [lanLink])).dev.m_pairStatus
      = PairStatus.NotPaired ∧
    (run sampleEnv [Op.requestPair, Op.timerExpires]
        (sampleState PairStatus.NotPaired [lanLink])).dev.pairingTimer.active = true ∧
    (run sampleEnv [Op.requestPair, Op.timerExpires, Op.timerExpires]
        (sampleState PairStatus.NotPaired [lanLink])).trace.count
      (Event.pairingFailed "Timed out") = 2 := by
  decide

end KdeConnect

namespace KdeConnect

/-- Apart from the constructor's early `addLink`, the operations keep the plugin map empty
unless the device is Paired and reachable: from any state where this holds and where the
timer is not running while Paired (as after `Device(id)`, or after `Device(identityPackage,
link)` when the uninitialised status does not read as Paired), it holds after any sequence of
operations, provided `qSort` returns a permutation of its input. -/
theorem plugins_invariant_from_valid_start (env : Env)
    (hperm : ∀ xs, (env.qSort lessThan xs).Perm xs) (ops : List Op) (s0 : State)
    (h0 : s0.dev.m_plugins ≠ [] →
      s0.dev.m_pairStatus = PairStatus.Paired ∧ s0.dev.m_deviceLinks ≠ [])
    (ht : s0.dev.m_pairStatus = PairStatus.Paired → s0.dev.pairingTimer.active = false) :
    ((run env ops s0).dev.m_plugins ≠ [] →
      (run env ops s0).dev.m_pairStatus = PairStatus.Paired ∧
      (run env ops s0).dev.m_deviceLinks ≠ []) ∧
    ((run env ops s0).dev.m_pairStatus = PairStatus.Paired →
      (run env ops s0).dev.pairingTimer.active = false) := by
  induction ops generalizing s0 with
  | nil => exact ⟨h0, ht⟩
  | cons op rest ih =>
    have hunpair : ∀ t : State,
        (t.dev.m_plugins ≠ [] →
          t.dev.m_pairStatus = PairStatus.Paired ∧ t.dev.m_deviceLinks ≠ []) →
        (t.dev.m_pairStatus = PairStatus.Paired → t.dev.pairingTimer.active = false) →
        ((unpair env t).dev.m_plugins ≠ [] →
          (unpair env t).dev.m_pairStatus = PairStatus.Paired ∧
          (unpair env t).dev.m_deviceLinks ≠ []) ∧
        ((unpair env t).dev.m_pairStatus = PairStatus.Paired →
          (unpair env t).dev.pairingTimer.active = false) := by
      intro t t1 t2
      rcases unpair_summary env t with ⟨_, h⟩ | ⟨_, hd, _⟩
      · rw [h]
        exact ⟨t1, t2⟩
      · rw [hd]
        simp
    have hreload : ∀ t : State, t.dev = s0.dev →
        ((reloadPlugins env t).dev.m_plugins ≠ [] →
          (reloadPlugins env t).dev.m_pairStatus = PairStatus.Paired ∧
          (reloadPlugins env t).dev.m_deviceLinks ≠ []) ∧
        ((reloadPlugins env t).dev.m_pairStatus = PairStatus.Paired →
          (reloadPlugins env t).dev.pairingTimer.active = false) := by
      intro t htd
      obtain ⟨_, k2, k3, k4, _⟩ := reloadPlugins_keeps env t
      rw [k2, k3, k4, htd]
      refine ⟨?_, ht⟩
      intro hne
      have := reloadPlugins_nonempty env t hne
      rw [htd] at this
      exact this
    have hstep : ((step env op s0).dev.m_plugins ≠ [] →
          (step env op s0).dev.m_pairStatus = PairStatus.Paired ∧
          (step env op s0).dev.m_deviceLinks ≠ []) ∧
        ((step env op s0).dev.m_pairStatus = PairStatus.Paired →
          (step env op s0).dev.pairingTimer.active = false) := by
      cases op with
      | addLink link =>
        have hne : env.qSort lessThan (s0.dev.m_deviceLinks ++ [link]) ≠ [] := by
          intro hc
          have := (hperm (s0.dev.m_deviceLinks ++ [link])).length_eq
          rw [hc] at this
          simp at this
        by_cases hlen : (env.qSort lessThan (s0.dev.m_deviceLinks ++ [link])).length = 1
        · have hrun : step env (Op.addLink link) s0 =
              (reloadPlugins env { s0 with dev := { s0.dev with
                m_deviceLinks := env.qSort lessThan (s0.dev.m_deviceLinks ++ [link]) } }).emit
                Event.reachableStatusChanged := by
            simp [step, addLink, hlen]
          obtain ⟨_, k2, k3, k4, _⟩ := reloadPlugins_keeps env
            { s0 with dev := { s0.dev with
                m_deviceLinks := env.qSort lessThan (s0.dev.m_deviceLinks ++ [link]) } }
          rw [hrun]
          refine ⟨?_, ?_⟩
          · intro hp
            have := reloadPlugins_nonempty env _ hp
            exact ⟨by rw [State.emit, k2]; exact this.1, by rw [State.emit, k4]; exact hne⟩
          · intro hp
            rw [State.emit] at hp ⊢
            rw [k2] at hp
            rw [k3]
            exact ht hp
        · have hrun : step env (Op.addLink link) s0 =
              { s0 with
                dev := { s0.dev with
                  m_deviceLinks := env.qSort lessThan (s0.dev.m_deviceLinks ++ [link]) },
                trace := s0.trace ++ s0.dev.m_plugins.values.map Event.pluginConnected } := by
            simp [step, addLink, hlen, State.emitAll]
          rw [hrun]
          exact ⟨fun hp => ⟨(h0 hp).1, hne⟩, ht⟩
      | linkDestroyed link =>
        by_cases hemp : s0.dev.m_deviceLinks.erase link = []
        · have hrun : step env (Op.linkDestroyed link) s0 =
              (reloadPlugins env { s0 with dev := { s0.dev with m_deviceLinks := [] } }).emit
                Event.reachableStatusChanged := by
            simp [step, linkDestroyed, removeLink, hemp]
          rw [hrun, reloadPlugins_unloads env _ (by simp [Device.isReachable])]
          exact ⟨fun hp => absurd rfl hp, ht⟩
        · have hne : (s0.dev.m_deviceLinks.erase link).isEmpty = false := by
            cases hc : s0.dev.m_deviceLinks.erase link with
            | nil => exact absurd hc hemp
            | cons a r => rfl
          have hrun : step env (Op.linkDestroyed link) s0 =
              { s0 with dev := { s0.dev with
                  m_deviceLinks := s0.dev.m_deviceLinks.erase link } } := by
            simp [step, linkDestroyed, removeLink, hne]
          rw [hrun]
          exact ⟨fun hp => ⟨(h0 hp).1, hemp⟩, ht⟩
      | requestPair =>
        rcases (requestPair_summary env s0).2 with h | ⟨hn, h⟩
        · rw [step, h]
          exact ⟨h0, ht⟩
        · rw [step, h]
          refine ⟨?_, by simp⟩
          intro hp
          have := (h0 hp).1
          rw [hn] at this
          exact absurd this (by decide)
      | unpair => exact hunpair s0 h0 ht
      | acceptPairing =>
        rcases acceptPairing_summary env s0 with ⟨h, _⟩ | ⟨t, htd, _, h⟩
        · rw [step, h]
          exact ⟨h0, ht⟩
        · rw [step, h]
          exact hreload t htd
      | rejectPairing =>
        rw [step, (rejectPairing_summary env s0).1]
        exact ⟨h0, ht⟩
      | timerExpires =>
        rcases (pairingTimerExpires_summary s0).2 with h | ⟨ha, h⟩
        · rw [step, h]
          exact ⟨h0, ht⟩
        · rw [step, h]
          refine ⟨?_, by simp⟩
          intro hp
          have := ht (h0 hp).1
          rw [ha] at this
          exact absurd this (by decide)
      | receive np =>
        rcases privateReceivedPackage_summary env np s0 with
          ⟨hd, _⟩ | ⟨hst, hd, _⟩ | ⟨hst, _, _, hd, _⟩ | ⟨hst, hd, _⟩ | ⟨_, h⟩
        · rw [step, hd]
          exact ⟨h0, ht⟩
        · rw [step, hd]
          refine ⟨?_, by simp⟩
          intro hp
          have := (h0 hp).1
          rw [hst] at this
          exact absurd this (by decide)
        · rw [step, hd]
          refine ⟨?_, fun _ => rfl⟩
          intro hp
          have := (h0 hp).1
          rw [hst] at this
          exact absurd this (by decide)
        · rw [step, hd]
          exact ⟨h0, ht⟩
        · rw [step, h]
          exact hunpair s0 h0 ht
      | reloadPlugins => exact hreload s0 rfl
      | sendPackage np =>
        obtain ⟨sent, h⟩ := sendPackage_snd env np s0
        rw [step, h]
        exact ⟨h0, ht⟩
      | sendPing =>
        rw [step, (sendPing_summary env s0).1]
        exact ⟨h0, ht⟩
    exact ih (step env op s0) hstep.1 hstep.2

end KdeConnect
